import Mathlib

/-!
The cell-grid engine of `Spreadsheet.js`.

A shallow embedding of the pure core of `src/frontend/src/Spreadsheet.js`:
the range parser `parseCellRange`, the formula evaluator `evaluateFormula`,
the validator `validateCellValue`, and the state updates performed by the
handlers of the `Spreadsheet` component (each handler is the function from the
state it reads to the state it sets).

Modelling conventions.

* A JavaScript string is a `List Char`.  The functions modelled here treat
  every character outside the classes they name alike, so the difference
  between code points and UTF-16 code units does not show.
* A JavaScript number is a `JSNumber`, an IEEE 754 double: a finite value
  given by the rational it denotes, the negative zero, `Infinity`, `-Infinity`
  or `NaN`.  Every arithmetic result is rounded to the nearest double, ties to
  even, with overflow to the infinities and underflow to the zeros
  (`JSNumber.ofRat`).  `parseInt` and `Number` round their exact value in the
  same way.
* The limits of the engine that the code can reach through the text of a
  formula are the fields of an `Engine`: the number of elements an array can
  hold and the number of arguments a call can take.
* A function that can throw or fail to return yields an `Option`, with `none`
  for the exception or the loop that does not end.
* A regular expression literal of the source is embedded as the matcher that
  computes the leftmost match under greedy, backtracking semantics; every
  matcher states its literal in its doc comment.
* `Date.parse` is implementation-defined, so the date normalisation is a
  parameter `parseDate` of the definitions that use it.  The case conversions
  and the regular expression built from a user pattern are parameters too.
-/

namespace Spreadsheet

/-! ## JavaScript values -/

/-- JavaScript strings, as sequences of characters. -/
abbrev JSString := List Char

/-- JavaScript numbers, the IEEE 754 doubles.  `fin q` is the finite double
that denotes the rational `q` (`fin 0` is the positive zero); the values the
operations below produce are always representable. -/
inductive JSNumber where
  | fin (q : ℚ)
  | negZero
  | posInf
  | negInf
  | nan
  deriving DecidableEq

/-- The values that occur in the `value` field of a cell or as the result of
an optional-chaining read: `undefined`, a string or a number. -/
inductive JSValue where
  | undefined
  | str (s : JSString)
  | num (n : JSNumber)
  deriving DecidableEq

namespace JSNumber

/-- The number `0`. -/
def zero : JSNumber := fin 0

/-- The power of two `2 ^ x` for an integer exponent. -/
def pow2 (x : Int) : ℚ :=
  if 0 ≤ x then ((2 ^ x.toNat : Nat) : ℚ) else 1 / ((2 ^ (-x).toNat : Nat) : ℚ)

/-- The number of times `n` can be halved before it drops below 2; with
`fuel = n` this is the position of the leading bit of `n`. -/
def halvings : Nat → Nat → Nat
  | 0, _ => 0
  | fuel + 1, n => if n < 2 then 0 else halvings fuel (n / 2) + 1

/-- The binary exponent of a positive rational: the `e` with
`2 ^ e ≤ q < 2 ^ (e + 1)`. -/
def floorLog2 (q : ℚ) : Int :=
  let e0 : Int := (halvings q.num.toNat q.num.toNat : Int) - (halvings q.den q.den : Int)
  if pow2 e0 ≤ q then e0 else e0 - 1

/-- The integer nearest to a non-negative rational, the even one on a tie. -/
def roundHalfEven (t : ℚ) : Int :=
  let f : Int := t.num / (t.den : Int)
  let r : ℚ := t - (f : ℚ)
  if r < 1 / 2 then f
  else if 1 / 2 < r then f + 1
  else if f % 2 = 0 then f else f + 1

/-- The double nearest to a positive rational (53 significant bits, least
exponent -1074), ties to even; `none` when the result is not below
`2 ^ 1024`, which is the overflow. -/
def roundPositive (q : ℚ) : Option ℚ :=
  let x : Int := Max.max (floorLog2 q - 52) (-1074)
  let v : ℚ := (roundHalfEven (q / pow2 x) : ℚ) * pow2 x
  if v < pow2 1024 then some v else none

/-- The double nearest to a rational.  An integer of magnitude at most
`2 ^ 53` is a double itself; any other value is rounded, a negative value that
rounds to zero giving the negative zero. -/
def ofRat (q : ℚ) : JSNumber :=
  if q.den = 1 ∧ |q.num| ≤ 2 ^ 53 then fin q
  else if 0 < q then
    match roundPositive q with
    | some v => fin v
    | none => posInf
  else
    match roundPositive (-q) with
    | some v => if v = 0 then negZero else fin (-v)
    | none => negInf

/-- The double of a natural number, such as the `length` of an array. -/
def ofNat (n : Nat) : JSNumber := ofRat (n : ℚ)

/-- The sign bit of a number. -/
def negative : JSNumber → Bool
  | fin q => decide (q < 0)
  | negZero => true
  | negInf => true
  | posInf => false
  | nan => false

/-- The rational a finite number denotes; `none` for the infinities and
`NaN`. -/
def toRat? : JSNumber → Option ℚ
  | fin q => some q
  | negZero => some 0
  | _ => none

/-- The zero of the given sign. -/
def signedZero (isNegative : Bool) : JSNumber := if isNegative then negZero else fin 0

/-- The infinity of the given sign. -/
def signedInf (isNegative : Bool) : JSNumber := if isNegative then negInf else posInf

/-- Addition `a + b` of two numbers. -/
def add : JSNumber → JSNumber → JSNumber
  | nan, _ => nan
  | _, nan => nan
  | posInf, negInf => nan
  | negInf, posInf => nan
  | posInf, _ => posInf
  | _, posInf => posInf
  | negInf, _ => negInf
  | _, negInf => negInf
  | negZero, negZero => negZero
  | negZero, fin b => fin b
  | fin a, negZero => fin a
  | fin a, fin b => if a + b = 0 then fin 0 else ofRat (a + b)

/-- Negation `-a`. -/
def neg : JSNumber → JSNumber
  | fin a => if a = 0 then negZero else fin (-a)
  | negZero => fin 0
  | posInf => negInf
  | negInf => posInf
  | nan => nan

/-- Subtraction `a - b` of two numbers. -/
def sub (a b : JSNumber) : JSNumber := add a (neg b)

/-- Division `a / b` of two numbers. -/
def div (a b : JSNumber) : JSNumber :=
  if a = nan ∨ b = nan then nan
  else
    match a.toRat?, b.toRat? with
    | none, none => nan
    | none, some _ => signedInf (a.negative != b.negative)
    | some _, none => signedZero (a.negative != b.negative)
    | some x, some y =>
      if y = 0 then (if x = 0 then nan else signedInf (a.negative != b.negative))
      else if x = 0 then signedZero (a.negative != b.negative)
      else ofRat (x / y)

/-- The comparison `a < b`. -/
def lt : JSNumber → JSNumber → Bool
  | nan, _ => false
  | _, nan => false
  | posInf, _ => false
  | _, negInf => false
  | negInf, _ => true
  | _, posInf => true
  | fin a, fin b => decide (a < b)
  | fin a, negZero => decide (a < 0)
  | negZero, fin b => decide (0 < b)
  | negZero, negZero => false

/-- The comparison `a <= b`. -/
def le (a b : JSNumber) : Bool :=
  if a = nan ∨ b = nan then false else !(lt b a)

/-- The larger of two numbers as `Math.max` takes it: `NaN` if either is
`NaN`, and the positive zero is larger than the negative zero. -/
def max (a b : JSNumber) : JSNumber :=
  if a = nan ∨ b = nan then nan
  else if a = negZero ∧ b = fin 0 then fin 0
  else if lt a b then b else a

/-- The smaller of two numbers as `Math.min` takes it: `NaN` if either is
`NaN`, and the negative zero is smaller than the positive zero. -/
def min (a b : JSNumber) : JSNumber :=
  if a = nan ∨ b = nan then nan
  else if a = fin 0 ∧ b = negZero then negZero
  else if lt b a then b else a

/-- Truthiness of a number: everything except the zeros and `NaN`. -/
def truthy : JSNumber → Bool
  | fin q => decide (q ≠ 0)
  | negZero => false
  | posInf => true
  | negInf => true
  | nan => false

/-- The test `v !== 0` fails exactly on the two zeros. -/
def isZero : JSNumber → Bool
  | fin q => decide (q = 0)
  | negZero => true
  | _ => false

/-- The index a number denotes as a property key of an array: the number
must be a non-negative integer (the negative zero reads as `0`). -/
def arrayIndex : JSNumber → Option Nat
  | fin q => if q.den = 1 ∧ 0 ≤ q.num then some q.num.toNat else none
  | negZero => some 0
  | _ => none

end JSNumber

/-- The limits of the engine: the number of elements an array can hold (the
language allows fewer than `2 ^ 32`) and the number of arguments a call can
take. -/
structure Engine where
  maxArrayLength : Nat
  maxArguments : Nat
  arrayBound : maxArrayLength < 2 ^ 32

/-- The fold `Math.max` runs over its arguments. -/
def foldMax (values : List JSNumber) : JSNumber :=
  values.foldl JSNumber.max JSNumber.negInf

/-- The fold `Math.min` runs over its arguments. -/
def foldMin (values : List JSNumber) : JSNumber :=
  values.foldl JSNumber.min JSNumber.posInf

/-- `Math.max(...values)`: the maximum of the arguments, `-Infinity` for
none.  Spreading more values than a call can take throws, which is `none`. -/
def mathMax (engine : Engine) (values : List JSNumber) : Option JSNumber :=
  if values.length ≤ engine.maxArguments then some (foldMax values) else none

/-- `Math.min(...values)`: the minimum of the arguments, `Infinity` for
none.  Spreading more values than a call can take throws, which is `none`. -/
def mathMin (engine : Engine) (values : List JSNumber) : Option JSNumber :=
  if values.length ≤ engine.maxArguments then some (foldMin values) else none

/-- The values of a list of optional values, if all are present.  It models
a loop or an array `map` whose body may throw or not return: the first
failure fails the whole. -/
def allSome {α : Type} : List (Option α) → Option (List α)
  | [] => some []
  | none :: _ => none
  | some a :: rest => (allSome rest).map (fun l => a :: l)

/-! ## Strings: character classes, `trim`, numeric literals -/

/-- The class `[A-Z]`. -/
def isUpperAZ (c : Char) : Bool := decide (65 ≤ c.toNat ∧ c.toNat ≤ 90)

/-- The class `\d`, that is `[0-9]`. -/
def isDigit09 (c : Char) : Bool := decide (48 ≤ c.toNat ∧ c.toNat ≤ 57)

/-- Line terminators: the characters `.` does not match. -/
def isLineTerminator (c : Char) : Bool :=
  decide (c.toNat = 0x0A ∨ c.toNat = 0x0D ∨ c.toNat = 0x2028 ∨ c.toNat = 0x2029)

/-- White space and line terminators, as stripped by `String.prototype.trim`
and by the string-to-number conversion. -/
def isJSWhitespace (c : Char) : Bool :=
  decide (c.toNat = 0x09 ∨ c.toNat = 0x0A ∨ c.toNat = 0x0B ∨ c.toNat = 0x0C ∨
    c.toNat = 0x0D ∨ c.toNat = 0x20 ∨ c.toNat = 0xA0 ∨ c.toNat = 0x1680 ∨
    (0x2000 ≤ c.toNat ∧ c.toNat ≤ 0x200A) ∨ c.toNat = 0x2028 ∨ c.toNat = 0x2029 ∨
    c.toNat = 0x202F ∨ c.toNat = 0x205F ∨ c.toNat = 0x3000 ∨ c.toNat = 0xFEFF)

/-- `s.trim()`. -/
def trim (s : JSString) : JSString :=
  ((s.dropWhile isJSWhitespace).reverse.dropWhile isJSWhitespace).reverse

/-- The value of a decimal digit character. -/
def digitVal (c : Char) : Nat := c.toNat - 48

/-- The exact value of a run of decimal digits. -/
def parseDecimal (ds : JSString) : Nat :=
  ds.foldl (fun acc c => 10 * acc + digitVal c) 0

/-- The value of a digit of a radix up to 16, if the character is one. -/
def radixDigit (radix : Nat) (c : Char) : Option Nat :=
  let v : Option Nat :=
    if 48 ≤ c.toNat ∧ c.toNat ≤ 57 then some (c.toNat - 48)
    else if 97 ≤ c.toNat ∧ c.toNat ≤ 102 then some (c.toNat - 87)
    else if 65 ≤ c.toNat ∧ c.toNat ≤ 70 then some (c.toNat - 55)
    else none
  v.bind (fun d => if d < radix then some d else none)

/-- The value of a non-empty run of digits of the given radix (the body of a
`0x`, `0o` or `0b` literal). -/
def parseRadix (radix : Nat) (ds : JSString) : Option Nat :=
  if ds = [] then none
  else ds.foldl (fun acc c => acc.bind (fun a => (radixDigit radix c).map (fun d => radix * a + d)))
    (some 0)

/-- The exponent part of a decimal literal: empty, or `e`/`E`, an optional
sign and at least one digit.  The result is the exponent. -/
def parseExponent (s : JSString) : Option Int :=
  match s with
  | [] => some 0
  | c :: r =>
    if c = 'e' ∨ c = 'E' then
      let (negative, ds) : Bool × JSString :=
        match r with
        | '-' :: t => (true, t)
        | '+' :: t => (false, t)
        | t => (false, t)
      if ds ≠ [] ∧ ds.all isDigit09 then
        some (if negative then -(parseDecimal ds : Int) else (parseDecimal ds : Int))
      else none
    else none

/-- The power of ten `10 ^ x` for an integer exponent. -/
def pow10 (x : Int) : ℚ :=
  if 0 ≤ x then ((10 ^ x.toNat : Nat) : ℚ) else 1 / ((10 ^ (-x).toNat : Nat) : ℚ)

/-- An unsigned decimal literal: digits with an optional fraction, or a
fraction alone, followed by an optional exponent.  The result is the exact
value of the literal. -/
def parseUnsignedDecimal (s : JSString) : Option ℚ :=
  let ip := s.takeWhile isDigit09
  let r := s.dropWhile isDigit09
  let (fp, rest) : JSString × JSString :=
    match r with
    | '.' :: t => (t.takeWhile isDigit09, t.dropWhile isDigit09)
    | t => ([], t)
  if ip = [] ∧ fp = [] then none
  else
    (parseExponent rest).map (fun e =>
      ((parseDecimal ip : ℚ) + (parseDecimal fp : ℚ) / ((10 ^ fp.length : Nat) : ℚ)) * pow10 e)

/-- An unsigned decimal literal or `Infinity`, as a number: the double
nearest to the value of the literal; `NaN` if the text is neither.  (Beyond 20
significant digits the language lets an implementation approximate the
value; the nearest double is the result of the common engines.) -/
def unsignedLiteral (s : JSString) : JSNumber :=
  if s = "Infinity".toList then JSNumber.posInf
  else match parseUnsignedDecimal s with
    | some q => JSNumber.ofRat q
    | none => JSNumber.nan

/-- `Number(s)` for a string `s`: surrounding white space is ignored, the
empty text is `0`, and the text must otherwise be a complete numeric literal
(signed decimal, `Infinity`, or unsigned hexadecimal, octal or binary). -/
def stringToNumber (s : JSString) : JSNumber :=
  match trim s with
  | [] => JSNumber.fin 0
  | '0' :: 'x' :: r | '0' :: 'X' :: r =>
    match parseRadix 16 r with
    | some n => JSNumber.ofNat n
    | none => JSNumber.nan
  | '0' :: 'o' :: r | '0' :: 'O' :: r =>
    match parseRadix 8 r with
    | some n => JSNumber.ofNat n
    | none => JSNumber.nan
  | '0' :: 'b' :: r | '0' :: 'B' :: r =>
    match parseRadix 2 r with
    | some n => JSNumber.ofNat n
    | none => JSNumber.nan
  | '-' :: r => (unsignedLiteral r).neg
  | '+' :: r => unsignedLiteral r
  | t => unsignedLiteral t

/-- The call `parseInt(ds, 10)` on a string matched by `\d+`: the double
nearest to the value of the digits.  (Beyond 20 significant digits the
language lets an implementation approximate the value; the nearest double is
the result of the common engines.) -/
def parseIntDigits (ds : JSString) : JSNumber := JSNumber.ofNat (parseDecimal ds)

/-- `Number(v)` for a value `v`. -/
def toNumber : JSValue → JSNumber
  | JSValue.undefined => JSNumber.nan
  | JSValue.str s => stringToNumber s
  | JSValue.num n => n

/-- The expression `n || 0` on a number `n`. -/
def orZero (n : JSNumber) : JSNumber := if n.truthy then n else JSNumber.zero

/-! ## Cells and grids -/

/-- The column types offered by the column header selector. -/
inductive ColumnType where
  | text
  | number
  | date
  deriving DecidableEq

/-- A cell object.  `value` and `raw` are always present; the other
properties are absent (`none`) on cells created without them. -/
structure Cell where
  value : JSValue
  raw : JSString
  error : Option JSString
  bold : Option Bool
  italic : Option Bool
  fontSize : Option JSString
  color : Option JSString
  type : Option ColumnType
  deriving DecidableEq

/-- The `cells` state: an array of rows, each an array of cells. -/
abbrev Grid := List (List Cell)

/-- The cell object of the initial state:
`{ value: "", raw: "", bold: false, italic: false, fontSize: "14px", color: "black" }`. -/
def initialCell : Cell :=
  { value := JSValue.str [], raw := [], error := none, bold := some false,
    italic := some false, fontSize := some "14px".toList, color := some "black".toList,
    type := none }

/-- The initial `cells` state, a 10 by 10 grid of `initialCell`. -/
def initialCells : Grid := List.replicate 10 (List.replicate 10 initialCell)

/-- The initial `columnTypes` state, ten times `"text"`. -/
def initialColumnTypes : List ColumnType := List.replicate 10 ColumnType.text

/-- The read `cells[row]?.[col]?.value`: `undefined` when the row or the cell
does not exist. -/
def cellValueAt (cells : Grid) (row col : JSNumber) : JSValue :=
  match row.arrayIndex, col.arrayIndex with
  | some i, some j =>
    match cells[i]? with
    | none => JSValue.undefined
    | some r =>
      match r[j]? with
      | none => JSValue.undefined
      | some c => c.value
  | _, _ => JSValue.undefined

/-! ## Range parser -/

/-- The regular expression `/([A-Z]+)(\d+):([A-Z]+)(\d+)/` tried at the start
of `s`.  Each group is greedy; giving back a letter (digit) would leave a
letter (digit) where a digit (colon) is required, so the only candidate is
the maximal run of each class.  The result is the four groups. -/
def rangeMatchHere (s : JSString) : Option (JSString × JSString × JSString × JSString) :=
  let m1 := s.takeWhile isUpperAZ
  let r1 := s.dropWhile isUpperAZ
  let m2 := r1.takeWhile isDigit09
  let r2 := r1.dropWhile isDigit09
  match r2 with
  | [] => none
  | c :: r3 =>
    let m3 := r3.takeWhile isUpperAZ
    let r4 := r3.dropWhile isUpperAZ
    let m4 := r4.takeWhile isDigit09
    if c = ':' ∧ m1 ≠ [] ∧ m2 ≠ [] ∧ m3 ≠ [] ∧ m4 ≠ [] then some (m1, m2, m3, m4)
    else none

/-- The call `rangeStr.match(/([A-Z]+)(\d+):([A-Z]+)(\d+)/)`: the groups of the
leftmost match, `none` for `null`. -/
def rangeMatch : JSString → Option (JSString × JSString × JSString × JSString)
  | [] => none
  | c :: cs =>
    match rangeMatchHere (c :: cs) with
    | some m => some m
    | none => rangeMatch cs

/-- The code unit `s.charCodeAt(0)`: the code of the first character, or its
high surrogate when the character lies outside the basic plane; it is `NaN`
on the empty string. -/
def charCodeAt0 (s : JSString) : JSNumber :=
  match s with
  | c :: _ =>
    if c.toNat < 0x10000 then JSNumber.ofNat c.toNat
    else JSNumber.ofNat (0xD800 + (c.toNat - 0x10000) / 0x400)
  | [] => JSNumber.nan

/-- The counter after `i++`. -/
def increment (i : JSNumber) : JSNumber := JSNumber.add i (JSNumber.fin 1)

/-- The values the counter of `for (let i = lo; i <= hi; i++)` takes, for at
most `fuel` tests of the condition.  When `i++` leaves the counter unchanged
the loop does not end, which is `none`. -/
def forLoop : Nat → JSNumber → JSNumber → Option (List JSNumber)
  | 0, _, _ => none
  | fuel + 1, i, hi =>
    if JSNumber.le i hi then
      if increment i = i then none
      else (forLoop fuel (increment i) hi).map (fun rest => i :: rest)
    else some []

/-- A number of tests of the condition that a loop from `lo` to `hi` which
ends does not exceed: a counter that moves at all moves by at least one half.
Between a finite and an infinite bound the loop either stops at its first
test or does not end. -/
def loopFuel (lo hi : JSNumber) : Nat :=
  match lo.toRat?, hi.toRat? with
  | some a, some b => (2 * ((b - a).num / ((b - a).den : Int)) + 3).toNat + 1
  | _, _ => 1

/-- The values of the counter of `for (let i = lo; i <= hi; i++)`, `none` when
the loop does not end. -/
def forCounter (lo hi : JSNumber) : Option (List JSNumber) :=
  forLoop (loopFuel lo hi) lo hi

/-- The pairs the inner loop of `parseCellRange` pushes for the row `i`. -/
def innerLoop (colStart colEnd i : JSNumber) : Option (List (JSNumber × JSNumber)) :=
  (forCounter colStart colEnd).map (fun cols => cols.map (fun j => (i, j)))

/-- The function `parseCellRange`.  The result is `none` when a loop does not
end or when the pairs pushed exceed what an array can hold. -/
def parseCellRange (engine : Engine) (rangeStr : JSString) :
    Option (List (JSNumber × JSNumber)) :=
  match rangeMatch rangeStr with
  | none => some []
  | some (m1, m2, m3, m4) =>
    let colStart := JSNumber.sub (charCodeAt0 m1) (charCodeAt0 ['A'])
    let rowStart := JSNumber.sub (parseIntDigits m2) (JSNumber.fin 1)
    let colEnd := JSNumber.sub (charCodeAt0 m3) (charCodeAt0 ['A'])
    let rowEnd := JSNumber.sub (parseIntDigits m4) (JSNumber.fin 1)
    match forCounter rowStart rowEnd with
    | none => none
    | some rows =>
      match allSome (rows.map (innerLoop colStart colEnd)) with
      | none => none
      | some chunks =>
        if chunks.flatten.length ≤ engine.maxArrayLength then some chunks.flatten else none

/-! ## Formula evaluator -/

/-- The rest of `s` after the prefix `p`, if `s` starts with `p`. -/
def afterPrefix : JSString → JSString → Option JSString
  | [], s => some s
  | _ :: _, [] => none
  | p :: ps, c :: cs => if p = c then afterPrefix ps cs else none

/-- The text before the last `)` of `s`, if `s` contains one: what `(.*)`
captures in `(.*)\)` once the greedy `.*` has given back characters up to the
last closing parenthesis. -/
def beforeLastParen : JSString → Option JSString
  | [] => none
  | c :: cs =>
    match beforeLastParen cs with
    | some a => some (c :: a)
    | none => if c = ')' then some [] else none

/-- The function names of the alternation `(SUM|AVERAGE|MAX|MIN|COUNT)`, in
the order they are tried. -/
def functionNames : List JSString :=
  ["SUM".toList, "AVERAGE".toList, "MAX".toList, "MIN".toList, "COUNT".toList]

/-- The regular expression `/(SUM|AVERAGE|MAX|MIN|COUNT)\((.*)\)/` tried at the
start of `s`: the first alternative that is followed by `(` and, on the same
line (`.` matches no line terminator), by a `)`.  The result is the two
groups. -/
def formulaMatchHere (s : JSString) : Option (JSString × JSString) :=
  functionNames.findSome? (fun name =>
    match afterPrefix name s with
    | some (c :: rest) =>
      if c = '(' then
        (beforeLastParen (rest.takeWhile (fun d => !isLineTerminator d))).map (fun a => (name, a))
      else none
    | _ => none)

/-- The call `s.match(/(SUM|AVERAGE|MAX|MIN|COUNT)\((.*)\)/)`: the groups of the
leftmost match, `none` for `null`. -/
def formulaMatch : JSString → Option (JSString × JSString)
  | [] => none
  | c :: cs =>
    match formulaMatchHere (c :: cs) with
    | some m => some m
    | none => formulaMatch cs

/-- The operands of a formula:
`range.map(([row, col]) => Number(cells[row]?.[col]?.value) || 0)`. -/
def operands (cells : Grid) (range : List (JSNumber × JSNumber)) : List JSNumber :=
  range.map (fun p => orZero (toNumber (cellValueAt cells p.1 p.2)))

/-- The sum `values.reduce((a, b) => a + b, 0)`. -/
def sumValues (values : List JSNumber) : JSNumber :=
  values.foldl JSNumber.add JSNumber.zero

/-- The average of the `AVERAGE` branch:
`values.length ? values.reduce((a, b) => a + b, 0) / values.length : 0`. -/
def averageValues (values : List JSNumber) : JSNumber :=
  if values.length ≠ 0 then (sumValues values).div (JSNumber.ofNat values.length)
  else JSNumber.zero

/-- The count of the `COUNT` branch: `values.filter(v => v !== 0).length`. -/
def countValues (values : List JSNumber) : JSNumber :=
  JSNumber.ofNat (values.filter (fun v => !v.isZero)).length

/-- The function `evaluateFormula`, on a string `formula`.  The result is
`none` when `parseCellRange` or the spread of `Math.max` or `Math.min` does
not return. -/
def evaluateFormula (engine : Engine) (formula : JSString) (cells : Grid) : Option JSValue :=
  match formula with
  | [] => some (JSValue.str formula)
  | c :: rest =>
    if c ≠ '=' then some (JSValue.str formula)
    else
      match formulaMatch rest with
      | none => some (JSValue.str formula)
      | some (func, arg) =>
        match parseCellRange engine arg with
        | none => none
        | some range =>
          if range.length = 0 then some (JSValue.str "ERROR".toList)
          else
            let values := operands cells range
            if func = "SUM".toList then some (JSValue.num (sumValues values))
            else if func = "AVERAGE".toList then some (JSValue.num (averageValues values))
            else if func = "MAX".toList then (mathMax engine values).map JSValue.num
            else if func = "MIN".toList then (mathMin engine values).map JSValue.num
            else if func = "COUNT".toList then some (JSValue.num (countValues values))
            else some (JSValue.str "ERROR".toList)

/-! ## Validation -/

/-- The result of `validateCellValue`: either a bare string (the empty string
for an empty cell, or an error message), which has no `valid` property, or
the object `{ valid: true, value }`. -/
inductive ValidationResult where
  | message (text : JSString)
  | valid (value : JSValue)
  deriving DecidableEq

/-- The text after the optional leading `-` of `-?`.  Leaving a `-` in place
cannot succeed, as nothing else in the expression matches it. -/
def dropMinus : JSString → JSString
  | [] => []
  | c :: t => if c = '-' then t else c :: t

/-- The test `/^-?\d*\.?\d+$/.test(value)`: an optional `-`, then either a
non-empty run of digits up to the end, or a run of digits, a `.` and a
non-empty run of digits up to the end. -/
def numberRegexTest (value : JSString) : Bool :=
  let body := dropMinus value
  match body.dropWhile isDigit09 with
  | [] => decide (body.takeWhile isDigit09 ≠ [])
  | c :: fp => decide (c = '.' ∧ fp ≠ []) && fp.all isDigit09

/-- The function `validateCellValue`.  `parseDate value` stands for
`Date.parse(value)` followed by `new Date(..).toISOString().split("T")[0]`:
it is `none` when `Date.parse` yields `NaN`. -/
def validateCellValue (parseDate : JSString → Option JSString) (value : JSString)
    (type : Option ColumnType) : ValidationResult :=
  if type = some ColumnType.number then
    if trim value = [] then ValidationResult.message []
    else if !numberRegexTest value then ValidationResult.message "ERROR: Must be a number".toList
    else ValidationResult.valid (JSValue.num (stringToNumber value))
  else if type = some ColumnType.date then
    if trim value = [] then ValidationResult.message []
    else
      match parseDate value with
      | none => ValidationResult.message "ERROR: Invalid date".toList
      | some d => ValidationResult.valid (JSValue.str d)
  else ValidationResult.valid (JSValue.str value)

/-! ## State updates of the component -/

/-- The update installed by the recompute effect:
`prevCells.map(row => row.map(cell => ({...cell, value: evaluateFormula(cell.raw, prevCells)})))`.
It is `none` when `evaluateFormula` does not return for some cell. -/
def recompute (engine : Engine) (prevCells : Grid) : Option Grid :=
  allSome (prevCells.map (fun row => allSome (row.map (fun cell =>
    (evaluateFormula engine cell.raw prevCells).map (fun v => { cell with value := v })))))

/-- The cell written by `handleChange` at the edited position. -/
def changedCell (c : Cell) (value : JSString) (validationResult : ValidationResult) : Cell :=
  match validationResult with
  | ValidationResult.valid v => { c with raw := value, value := v, error := some [] }
  | ValidationResult.message m => { c with raw := [], value := JSValue.str [], error := some m }

/-- The update of `cells` performed by `handleChange(row, col, value)`. -/
def handleChange (parseDate : JSString → Option JSString) (columnTypes : List ColumnType)
    (row col : Nat) (value : JSString) (prevCells : Grid) : Grid :=
  let type := columnTypes[col]?
  let validationResult := validateCellValue parseDate value type
  prevCells.mapIdx (fun i r => r.mapIdx (fun j c =>
    if i = row ∧ j = col then changedCell c value validationResult else c))

/-- The update of `cells` performed by `handleDeleteRow`. -/
def handleDeleteRow (cells : Grid) : Grid :=
  if cells.length > 1 then cells.dropLast else cells

/-- The part of the component state that the column handlers update. -/
structure SheetState where
  cells : Grid
  columnTypes : List ColumnType
  columnWidths : List Int
  deriving DecidableEq

/-- The update performed by `handleDeleteColumn`.  Reading `cells[0].length`
on a grid without rows throws, which is `none`. -/
def handleDeleteColumn (s : SheetState) : Option SheetState :=
  match s.cells with
  | [] => none
  | row0 :: _ =>
    if row0.length > 1 then
      some { cells := s.cells.map (fun row => row.dropLast),
             columnTypes := s.columnTypes.dropLast,
             columnWidths := s.columnWidths.dropLast }
    else some s

/-! ## Duplicate removal -/

/-- A lower-case hexadecimal digit. -/
def hexDigit (n : Nat) : Char :=
  if n < 10 then Char.ofNat (48 + n) else Char.ofNat (87 + n)

/-- The text `JSON.stringify` writes for one character of a string: the
two-character escapes, `\u00XX` for the other control characters, the
character itself otherwise. -/
def jsonEscapeChar (c : Char) : JSString :=
  if c.toNat = 0x08 then ['\\', 'b']
  else if c.toNat = 0x09 then ['\\', 't']
  else if c.toNat = 0x0A then ['\\', 'n']
  else if c.toNat = 0x0C then ['\\', 'f']
  else if c.toNat = 0x0D then ['\\', 'r']
  else if c.toNat = 0x22 then ['\\', '"']
  else if c.toNat = 0x5C then ['\\', '\\']
  else if c.toNat < 0x20 then
    ['\\', 'u', '0', '0', hexDigit (c.toNat / 16), hexDigit (c.toNat % 16)]
  else [c]

/-- The text `JSON.stringify(s)` of a string: the escaped characters between
double quotes. -/
def jsonQuote (s : JSString) : JSString :=
  '"' :: (s.flatMap jsonEscapeChar ++ ['"'])

/-- The elements of an array joined by commas. -/
def jsonJoin : List JSString → JSString
  | [] => []
  | [x] => jsonQuote x
  | x :: y :: rest => jsonQuote x ++ ',' :: jsonJoin (y :: rest)

/-- The text `JSON.stringify(xs)` of an array of strings. -/
def jsonStringify (xs : List JSString) : JSString :=
  '[' :: (jsonJoin xs ++ [']'])

/-- The key of a row: `JSON.stringify(row.map(cell => cell.raw))`. -/
def rowString (row : List Cell) : JSString :=
  jsonStringify (row.map (fun cell => cell.raw))

/-- One step of the `forEach` of `handleRemoveDuplicates`, on the pair of the
set `seen` and the array `uniqueRows`. -/
def removeDuplicatesStep (acc : List JSString × List (List Cell)) (row : List Cell) :
    List JSString × List (List Cell) :=
  if rowString row ∈ acc.1 then acc
  else (rowString row :: acc.1, acc.2 ++ [row])

/-- The update of `cells` performed by `handleRemoveDuplicates`. -/
def handleRemoveDuplicates (cells : Grid) : Grid :=
  (cells.foldl removeDuplicatesStep ([], [])).2

/-! ## Further state updates of the component -/

/-- The calls `handleFormat(formatType, value)` made by the toolbar: the
attribute that is set, with its new value. -/
inductive FormatChange where
  | bold (value : Bool)
  | italic (value : Bool)
  | fontSize (value : JSString)
  | color (value : JSString)
  deriving DecidableEq

/-- The object `{ ...c, [formatType]: value }`. -/
def applyFormat (c : Cell) : FormatChange → Cell
  | FormatChange.bold v => { c with bold := some v }
  | FormatChange.italic v => { c with italic := some v }
  | FormatChange.fontSize v => { c with fontSize := some v }
  | FormatChange.color v => { c with color := some v }

/-- The update of `cells` performed by `handleFormat`; without a selection the
handler returns before any update. -/
def handleFormat (selectedCell : Option (Nat × Nat)) (change : FormatChange)
    (prevCells : Grid) : Grid :=
  match selectedCell with
  | none => prevCells
  | some (row, col) =>
    prevCells.mapIdx (fun i r => r.mapIdx (fun j c =>
      if i = row ∧ j = col then applyFormat c change else c))

/-- The cell object of `handleAddRow`: `{ value: "", raw: "" }`. -/
def addedRowCell : Cell :=
  { value := JSValue.str [], raw := [], error := none, bold := none, italic := none,
    fontSize := none, color := none, type := none }

/-- The cell object of `handleAddColumn`: `{ value: "", raw: "", type: "text" }`. -/
def addedColumnCell : Cell :=
  { value := JSValue.str [], raw := [], error := none, bold := none, italic := none,
    fontSize := none, color := none, type := some ColumnType.text }

/-- The update of `cells` performed by `handleAddRow`.  Reading
`cells[0].length` on a grid without rows throws, which is `none`. -/
def handleAddRow (cells : Grid) : Option Grid :=
  match cells with
  | [] => none
  | row0 :: _ => some (cells ++ [List.replicate row0.length addedRowCell])

/-- The update performed by `handleAddColumn`. -/
def handleAddColumn (s : SheetState) : SheetState :=
  { cells := s.cells.map (fun row => row ++ [addedColumnCell]),
    columnTypes := s.columnTypes ++ [ColumnType.text],
    columnWidths := s.columnWidths ++ [80] }

/-- The object `{ ...c, value: c.value.f(), raw: c.raw.f() }` for a string
method `f`.  When `c.value` is not a string the call `c.value.f()` throws,
which is `none`. -/
def applyStringMethod (f : JSString → JSString) (c : Cell) : Option Cell :=
  match c.value with
  | JSValue.str v => some { c with value := JSValue.str (f v), raw := f c.raw }
  | _ => none

/-- The update of `cells` shared by `handleTrim`, `handleUpper` and
`handleLower`, for the string method `f`; without a selection the handler
returns before any update. -/
def handleStringMethod (f : JSString → JSString) (selectedCell : Option (Nat × Nat))
    (prevCells : Grid) : Option Grid :=
  match selectedCell with
  | none => some prevCells
  | some (row, col) =>
    allSome (prevCells.mapIdx (fun i r => allSome (r.mapIdx (fun j c =>
      if i = row ∧ j = col then applyStringMethod f c else some c))))

/-- The update of `cells` performed by `handleTrim`. -/
def handleTrim (selectedCell : Option (Nat × Nat)) (prevCells : Grid) : Option Grid :=
  handleStringMethod trim selectedCell prevCells

/-- The update of `cells` performed by `handleUpper`, for the built-in
`toUpperCase`. -/
def handleUpper (toUpperCase : JSString → JSString) (selectedCell : Option (Nat × Nat))
    (prevCells : Grid) : Option Grid :=
  handleStringMethod toUpperCase selectedCell prevCells

/-- The update of `cells` performed by `handleLower`, for the built-in
`toLowerCase`. -/
def handleLower (toLowerCase : JSString → JSString) (selectedCell : Option (Nat × Nat))
    (prevCells : Grid) : Option Grid :=
  handleStringMethod toLowerCase selectedCell prevCells

/-- Truthiness of a value: `undefined`, the empty string, `0` and `NaN` are
falsy. -/
def JSValue.truthy : JSValue → Bool
  | JSValue.undefined => false
  | JSValue.str s => decide (s ≠ [])
  | JSValue.num n => n.truthy

/-- The expression `cell.value ? cell.value.replace(regex, replaceText) : ""`,
where `replace s` stands for `s.replace(regex, replaceText)`.  A truthy
number has no method `replace`, so the call throws, which is `none`. -/
def replaceInValue (replace : JSString → JSString) (v : JSValue) : Option JSValue :=
  if v.truthy then
    match v with
    | JSValue.str s => some (JSValue.str (replace s))
    | _ => none
  else some (JSValue.str [])

/-- The expression `cell.raw ? cell.raw.replace(regex, replaceText) : ""`. -/
def replaceInRaw (replace : JSString → JSString) (raw : JSString) : JSString :=
  if raw ≠ [] then replace raw else []

/-- The update of `cells` performed by `handleFindAndReplace`.  The parameter
`regExp findText` stands for `new RegExp(findText, "gi")`: it is `none` when
the constructor throws on the pattern, and otherwise the function that maps
`s` and `replaceText` to `s.replace(regex, replaceText)`. -/
def handleFindAndReplace (regExp : JSString → Option (JSString → JSString → JSString))
    (findText replaceText : JSString) (prevCells : Grid) : Option Grid :=
  match regExp findText with
  | none => none
  | some replace =>
    allSome (prevCells.map (fun row => allSome (row.map (fun cell =>
      (replaceInValue (fun s => replace s replaceText) cell.value).map (fun v =>
        { cell with value := v,
                    raw := replaceInRaw (fun s => replace s replaceText) cell.raw })))))

/-- The array after `newTypes[col] = type`.  An index past the end leaves
holes before it; a hole reads as `undefined`, which `validateCellValue` treats
like `"text"`, so a hole is written as `text`. -/
def setColumnType (types : List ColumnType) (col : Nat) (type : ColumnType) : List ColumnType :=
  if col < types.length then types.set col type
  else types ++ List.replicate (col - types.length) ColumnType.text ++ [type]

/-- The update performed by `handleColumnTypeChange`. -/
def handleColumnTypeChange (col : Nat) (type : ColumnType) (s : SheetState) : SheetState :=
  { cells := s.cells.map (fun row => row.mapIdx (fun j c =>
      if j = col then { c with type := some type } else c)),
    columnTypes := setColumnType s.columnTypes col type,
    columnWidths := s.columnWidths }

/-! ## The operations of the grid store -/

/-- The built-in functions the handlers call and this development does not
define: the date conversion, the case conversions and the regular expression
constructor with its `replace`; and the limits of the engine. -/
structure Builtins where
  engine : Engine
  parseDate : JSString → Option JSString
  toUpperCase : JSString → JSString
  toLowerCase : JSString → JSString
  regExp : JSString → Option (JSString → JSString → JSString)

/-- The operations of the grid store, with their arguments; the operations
that act on the selection carry the selection. -/
inductive Operation where
  | setCell (row col : Nat) (text : JSString)
  | setFormat (selectedCell : Option (Nat × Nat)) (change : FormatChange)
  | addRow
  | deleteRow
  | addColumn
  | deleteColumn
  | setColumnType (col : Nat) (type : ColumnType)
  | trim (selectedCell : Option (Nat × Nat))
  | upper (selectedCell : Option (Nat × Nat))
  | lower (selectedCell : Option (Nat × Nat))
  | removeDuplicateRows
  | findAndReplace (findText replaceText : JSString)
  | recompute

/-- The state after an operation, `none` when its handler throws or does not
return. -/
def applyOperation (b : Builtins) (op : Operation) (s : SheetState) : Option SheetState :=
  match op with
  | Operation.setCell row col text =>
    some { s with cells := handleChange b.parseDate s.columnTypes row col text s.cells }
  | Operation.setFormat sel change => some { s with cells := handleFormat sel change s.cells }
  | Operation.addRow => (handleAddRow s.cells).map (fun g => { s with cells := g })
  | Operation.deleteRow => some { s with cells := handleDeleteRow s.cells }
  | Operation.addColumn => some (handleAddColumn s)
  | Operation.deleteColumn => handleDeleteColumn s
  | Operation.setColumnType col type => some (handleColumnTypeChange col type s)
  | Operation.trim sel => (handleTrim sel s.cells).map (fun g => { s with cells := g })
  | Operation.upper sel =>
    (handleUpper b.toUpperCase sel s.cells).map (fun g => { s with cells := g })
  | Operation.lower sel =>
    (handleLower b.toLowerCase sel s.cells).map (fun g => { s with cells := g })
  | Operation.removeDuplicateRows => some { s with cells := handleRemoveDuplicates s.cells }
  | Operation.findAndReplace findText replaceText =>
    (handleFindAndReplace b.regExp findText replaceText s.cells).map
      (fun g => { s with cells := g })
  | Operation.recompute => (recompute b.engine s.cells).map (fun g => { s with cells := g })

/-- The state after a sequence of operations, `none` when one of them throws
or does not return. -/
def runOperations (b : Builtins) : List Operation → SheetState → Option SheetState
  | [], s => some s
  | op :: rest, s => (applyOperation b op s).bind (runOperations b rest)

/-- The operations whose handlers neither call a method on a cell value nor
evaluate a formula. -/
def Operation.callsNoMethod : Operation → Bool
  | Operation.recompute => false
  | Operation.trim _ => false
  | Operation.upper _ => false
  | Operation.lower _ => false
  | Operation.findAndReplace _ _ => false
  | _ => true

/-! ## Notions used to state the properties -/

/-- The upper-case letters, in order. -/
def alphabet : List Char := "ABCDEFGHIJKLMNOPQRSTUVWXYZ".toList

/-- The column index of an upper-case letter, its position in the alphabet:
`A` is 0, ..., `Z` is 25. -/
def columnIndex (c : Char) : Int := (alphabet.indexOf c : Nat)

/-- The number of the column named by a run of upper-case letters, as a
spreadsheet counts columns: `A` is 1, ..., `Z` is 26, `AA` is 27, `AB` is 28. -/
def columnNumber (letters : JSString) : Nat :=
  letters.foldl (fun acc c => 26 * acc + ((columnIndex c).toNat + 1)) 0

/-- The decimal numeral of a row number. -/
def numeral (n : Nat) : JSString := Nat.toDigits 10 n

/-- The integers from `lo` to `hi`, in increasing order. -/
def forRange (lo hi : Int) : List Int :=
  (List.range (hi - lo + 1).toNat).map (fun (k : Nat) => lo + (k : Int))

/-- The pairs `(i, j)` with `rowLo ≤ i ≤ rowHi` and `colLo ≤ j ≤ colHi`, in
row-major order: rows outer, columns inner. -/
def rectangle (rowLo rowHi colLo colHi : Int) : List (Int × Int) :=
  (forRange rowLo rowHi).flatMap (fun i => (forRange colLo colHi).map (fun j => (i, j)))

/-- The pair of numbers of a pair of integers. -/
def coordinate (p : Int × Int) : JSNumber × JSNumber :=
  (JSNumber.fin (p.1 : ℚ), JSNumber.fin (p.2 : ℚ))

/-- The limits the language itself sets: an array holds at most `2 ^ 32 - 1`
elements; no engine accepts more arguments in a call than that. -/
def languageEngine : Engine :=
  { maxArrayLength := 4294967295, maxArguments := 4294967295, arrayBound := by decide }

/-- The cell at row `i`, column `j` of a grid, if there is one. -/
def cellAt (cells : Grid) (i j : Nat) : Option Cell :=
  (cells[i]?).bind (fun r => r[j]?)

/-- The raw texts of a row, in order. -/
def rowRaws (row : List Cell) : List JSString := row.map (fun cell => cell.raw)

/-- The text contains a reference `<letters><digits>:<letters><digits>`, each
group non-empty and the letters upper-case. -/
def HasRangeShape (s : JSString) : Prop :=
  ∃ pre l1 d1 l2 d2 post, l1 ≠ [] ∧ (∀ c ∈ l1, isUpperAZ c = true) ∧
    d1 ≠ [] ∧ (∀ c ∈ d1, isDigit09 c = true) ∧
    l2 ≠ [] ∧ (∀ c ∈ l2, isUpperAZ c = true) ∧
    d2 ≠ [] ∧ (∀ c ∈ d2, isDigit09 c = true) ∧
    s = pre ++ (l1 ++ (d1 ++ ':' :: (l2 ++ (d2 ++ post))))

/-- The text is exactly `<letter><digits>:<letter><digits>`, with one
upper-case letter per column. -/
def IsSingleLetterRange (s : JSString) : Prop :=
  ∃ c1 d1 c2 d2, isUpperAZ c1 = true ∧ d1 ≠ [] ∧ (∀ c ∈ d1, isDigit09 c = true) ∧
    isUpperAZ c2 = true ∧ d2 ≠ [] ∧ (∀ c ∈ d2, isDigit09 c = true) ∧
    s = c1 :: (d1 ++ ':' :: c2 :: d2)

/-- The text contains a call `<FUNC>(<one-line text>)` of one of the five
known functions. -/
def HasKnownCall (s : JSString) : Prop :=
  ∃ pre name arg post, name ∈ functionNames ∧ (∀ c ∈ arg, isLineTerminator c = false) ∧
    s = pre ++ (name ++ '(' :: (arg ++ ')' :: post))

/-- The number grammar with either sign: an optional `-` or `+`, digits, an
optional `.`, and at least one digit, making up the whole text. -/
def MatchesSignedNumberGrammar (s : JSString) : Prop :=
  ∃ sign ip dot fp, (sign = [] ∨ sign = ['-'] ∨ sign = ['+']) ∧
    (∀ c ∈ ip, isDigit09 c = true) ∧
    (dot = [] ∨ dot = ['.']) ∧ fp ≠ [] ∧ (∀ c ∈ fp, isDigit09 c = true) ∧
    s = sign ++ (ip ++ (dot ++ fp))

/-- The number grammar: an optional `-`, digits, an optional `.`, and at
least one digit, making up the whole text. -/
def MatchesNumberGrammar (s : JSString) : Prop :=
  ∃ sign ip dot fp, (sign = [] ∨ sign = ['-']) ∧ (∀ c ∈ ip, isDigit09 c = true) ∧
    (dot = [] ∨ dot = ['.']) ∧ fp ≠ [] ∧ (∀ c ∈ fp, isDigit09 c = true) ∧
    s = sign ++ (ip ++ (dot ++ fp))

/-- The rows of `rest` whose raw sequence is neither that of a row of
`earlier` nor that of an earlier row of `rest`, in their order. -/
def firstOccurrences : List (List Cell) → List (List Cell) → List (List Cell)
  | _, [] => []
  | earlier, row :: rest =>
    if rowRaws row ∈ earlier.map rowRaws then firstOccurrences (earlier ++ [row]) rest
    else row :: firstOccurrences (earlier ++ [row]) rest

/-- The grid has at least one row, and all its rows have the same, positive
number of cells. -/
def WellShaped (cells : Grid) : Prop :=
  cells ≠ [] ∧ ∃ n, 0 < n ∧ ∀ row ∈ cells, row.length = n

/-! ## Example states -/

/-- A grid of two rows and one column whose cells hold the numbers 3 and 4. -/
def exampleGrid : Grid :=
  [[{ initialCell with value := JSValue.num (JSNumber.fin 3) }],
   [{ initialCell with value := JSValue.num (JSNumber.fin 4) }]]

/-- A grid of two rows and one column whose cells hold the texts `3` and `4`,
as typed into a column of type `text`. -/
def typedGrid : Grid :=
  [[{ initialCell with value := JSValue.str "3".toList, raw := "3".toList }],
   [{ initialCell with value := JSValue.str "4".toList, raw := "4".toList }]]

/-- A grid of two rows and one column whose cells hold the texts `abc` and
`4`. -/
def mixedGrid : Grid :=
  [[{ initialCell with value := JSValue.str "abc".toList, raw := "abc".toList }],
   [{ initialCell with value := JSValue.str "4".toList, raw := "4".toList }]]

/-- A grid of two rows and one column whose cells hold the texts `0.1` and
`0.2`. -/
def tenthsGrid : Grid :=
  [[{ initialCell with value := JSValue.str "0.1".toList, raw := "0.1".toList }],
   [{ initialCell with value := JSValue.str "0.2".toList, raw := "0.2".toList }]]

/-- A grid of two rows and one column whose cells hold the texts `1e400` and
`-1e400`. -/
def overflowGrid : Grid :=
  [[{ initialCell with value := JSValue.str "1e400".toList, raw := "1e400".toList }],
   [{ initialCell with value := JSValue.str "-1e400".toList, raw := "-1e400".toList }]]

/-- A grid of one row whose cells hold the texts `5`, `1e-400`, `abc`, the
empty text, `0` and `0x10`. -/
def countGrid : Grid :=
  [[{ initialCell with value := JSValue.str "5".toList },
    { initialCell with value := JSValue.str "1e-400".toList },
    { initialCell with value := JSValue.str "abc".toList },
    { initialCell with value := JSValue.str [] },
    { initialCell with value := JSValue.str "0".toList },
    { initialCell with value := JSValue.str "0x10".toList }]]

/-- A grid of two rows and one column whose cells hold the numbers 0 and 5. -/
def zeroFiveGrid : Grid :=
  [[{ initialCell with value := JSValue.num (JSNumber.fin 0) }],
   [{ initialCell with value := JSValue.num (JSNumber.fin 5) }]]

/-- The column types of the initial grid after column `A` was set to
`number`. -/
def numberFirstColumnTypes : List ColumnType :=
  ColumnType.number :: List.replicate 9 ColumnType.text

/-- The initial state of the component: the 10 by 10 grid, ten `text`
columns, ten widths of 80. -/
def initialState : SheetState :=
  { cells := initialCells, columnTypes := initialColumnTypes,
    columnWidths := List.replicate 10 80 }

/-- A state with a single cell. -/
def singleCellState : SheetState :=
  { cells := [[initialCell]], columnTypes := [ColumnType.text], columnWidths := [80] }

/-- A stand-in for the built-in functions, used to run operations on concrete
states: no text is a date, the case conversions and the replacement leave
their text unchanged, and every pattern is accepted. -/
def exampleBuiltins : Builtins :=
  { engine := languageEngine,
    parseDate := fun _ => none,
    toUpperCase := fun s => s,
    toLowerCase := fun s => s,
    regExp := fun _ => some (fun s _ => s) }

/-- A short session on the initial state. -/
def exampleSession : List Operation :=
  [Operation.addRow, Operation.addColumn, Operation.setCell 0 0 "x".toList,
   Operation.recompute, Operation.setCell 0 1 "=MAX(A1:B2)".toList, Operation.recompute,
   Operation.deleteRow, Operation.removeDuplicateRows, Operation.trim (some (0, 0)),
   Operation.deleteColumn]

/-- A grid of one row in which `A1` holds the raw text `7` with a value not
yet recomputed, and `B1` holds a formula over `A1`. -/
def staleGrid : Grid :=
  [[{ initialCell with raw := "7".toList },
    { initialCell with raw := "=SUM(A1:A1)".toList }]]

/-- The session that types `5` into `A1` and `=SUM(A1:A1)` into `B1`, each
edit followed by a recompute pass. -/
def formulaSession : List Operation :=
  [Operation.setCell 0 0 "5".toList, Operation.recompute,
   Operation.setCell 0 1 "=SUM(A1:A1)".toList, Operation.recompute]

/-- The grid `formulaSession` reaches from the initial state, the empty grid
if the session fails: `B1` holds the number 5. -/
def formulaResultGrid : Grid :=
  match runOperations exampleBuiltins formulaSession initialState with
  | some s => s.cells
  | none => []

/-- The limits of an engine with a hard limit of 65536 arguments in a call,
as in JavaScriptCore. -/
def hardLimitEngine : Engine :=
  { maxArrayLength := 4294967295, maxArguments := 65536, arrayBound := by decide }

/-- A grid of one cell whose raw text is the maximum over 65537 cells. -/
def longMaxGrid : Grid :=
  [[{ initialCell with raw := "=MAX(A1:A65537)".toList }]]

/-- A grid of one cell whose raw text is a formula over a row beyond
`2 ^ 53`. -/
def farRowGrid : Grid :=
  [[{ initialCell with raw := "=SUM(A9007199254740994:A9007199254740994)".toList }]]

/-- A grid of one cell whose value is the number 0. -/
def zeroGrid : Grid :=
  [[{ initialCell with value := JSValue.num (JSNumber.fin 0) }]]

/-! ## A decoder for the escaped form of a character

Used only to prove that the row key is injective. -/

/-- The value of a lower-case hexadecimal digit. -/
def hexValue (c : Char) : Nat :=
  if c.toNat < 58 then c.toNat - 48 else c.toNat - 87

/-- Reads one character of a quoted JSON string back from its escaped form. -/
def jsonUnescapeChar (s : JSString) : Option (Char × JSString) :=
  match s with
  | [] => none
  | c :: r =>
    if c.toNat ≠ 0x5C then some (c, r)
    else
      match r with
      | [] => none
      | x :: r2 =>
        if x.toNat = 0x62 then some (Char.ofNat 0x08, r2)
        else if x.toNat = 0x74 then some (Char.ofNat 0x09, r2)
        else if x.toNat = 0x6E then some (Char.ofNat 0x0A, r2)
        else if x.toNat = 0x66 then some (Char.ofNat 0x0C, r2)
        else if x.toNat = 0x72 then some (Char.ofNat 0x0D, r2)
        else if x.toNat = 0x22 then some (Char.ofNat 0x22, r2)
        else if x.toNat = 0x5C then some (Char.ofNat 0x5C, r2)
        else
          match r2 with
          | _ :: _ :: h1 :: h2 :: r3 => some (Char.ofNat (16 * hexValue h1 + hexValue h2), r3)
          | _ => none

/-! ## Auxiliary facts about lists and character classes -/

theorem takeWhile_append_stop {α : Type} (p : α → Bool) (l r : List α)
    (hl : ∀ a ∈ l, p a = true) (hr : ∀ a ∈ r.head?, p a = false) :
    (l ++ r).takeWhile p = l ∧ (l ++ r).dropWhile p = r := by
  induction l with
  | nil =>
    cases r with
    | nil => simp
    | cons a t =>
      have : p a = false := hr a (by simp)
      simp [List.takeWhile, List.dropWhile, this]
  | cons a t ih =>
    have ha : p a = true := hl a (by simp)
    have := ih (fun b hb => hl b (by simp [hb]))
    simp [List.takeWhile, List.dropWhile, ha, this]

theorem not_isUpperAZ_of_isDigit09 {c : Char} (h : isDigit09 c = true) : isUpperAZ c = false := by
  simp [isDigit09, isUpperAZ] at *
  omega

theorem mem_forRange (lo hi i : Int) : i ∈ forRange lo hi ↔ lo ≤ i ∧ i ≤ hi := by
  unfold forRange
  simp only [List.mem_map, List.mem_range]
  constructor
  · rintro ⟨k, hk, rfl⟩
    omega
  · rintro ⟨h1, h2⟩
    exact ⟨(i - lo).toNat, by omega, by omega⟩

theorem pairwise_forRange (lo hi : Int) : (forRange lo hi).Pairwise (fun a b => a < b) := by
  unfold forRange
  rw [List.pairwise_map]
  exact (List.pairwise_lt_range _).imp (fun h => by omega)

theorem mem_takeWhile_true {α : Type} (p : α → Bool) (l : List α) :
    ∀ a ∈ l.takeWhile p, p a = true :=
  fun _ h => List.mem_takeWhile_imp h

/-! ## The range matcher -/

/-- A text that starts with a well-shaped reference is matched at its start,
with the four parts of the reference as groups. -/
theorem rangeMatchHere_shape (l1 d1 l2 d2 rest : JSString)
    (hl1 : l1 ≠ []) (hl1u : ∀ c ∈ l1, isUpperAZ c = true)
    (hd1 : d1 ≠ []) (hd1d : ∀ c ∈ d1, isDigit09 c = true)
    (hl2 : l2 ≠ []) (hl2u : ∀ c ∈ l2, isUpperAZ c = true)
    (hd2 : d2 ≠ []) (hd2d : ∀ c ∈ d2, isDigit09 c = true)
    (hrest : ∀ c ∈ rest.head?, isDigit09 c = false) :
    rangeMatchHere (l1 ++ (d1 ++ ':' :: (l2 ++ (d2 ++ rest)))) = some (l1, d1, l2, d2) := by
  have h1 := takeWhile_append_stop isUpperAZ l1 (d1 ++ ':' :: (l2 ++ (d2 ++ rest))) hl1u (by
    cases d1 with
    | nil => exact absurd rfl hd1
    | cons a t =>
      intro c hc
      simp at hc
      subst hc
      exact not_isUpperAZ_of_isDigit09 (hd1d _ (by simp)))
  have h2 := takeWhile_append_stop isDigit09 d1 (':' :: (l2 ++ (d2 ++ rest))) hd1d (by
    intro c hc
    simp at hc
    subst hc
    decide)
  have h3 := takeWhile_append_stop isUpperAZ l2 (d2 ++ rest) hl2u (by
    cases d2 with
    | nil => exact absurd rfl hd2
    | cons a t =>
      intro c hc
      simp at hc
      subst hc
      exact not_isUpperAZ_of_isDigit09 (hd2d _ (by simp)))
  have h4 := takeWhile_append_stop isDigit09 d2 rest hd2d hrest
  unfold rangeMatchHere
  simp only [h1.1, h1.2, h2.1, h2.2, h3.1, h3.2, h4.1]
  simp [hl1, hd1, hl2, hd2]

theorem rangeMatch_of_here (s : JSString) (m : JSString × JSString × JSString × JSString)
    (h : rangeMatchHere s = some m) : rangeMatch s = some m := by
  cases s with
  | nil => simp [rangeMatchHere] at h
  | cons c cs => simp [rangeMatch, h]

theorem rangeMatchHere_sound (s m1 m2 m3 m4 : JSString)
    (h : rangeMatchHere s = some (m1, m2, m3, m4)) :
    m1 ≠ [] ∧ (∀ c ∈ m1, isUpperAZ c = true) ∧ m2 ≠ [] ∧ (∀ c ∈ m2, isDigit09 c = true) ∧
    m3 ≠ [] ∧ (∀ c ∈ m3, isUpperAZ c = true) ∧ m4 ≠ [] ∧ (∀ c ∈ m4, isDigit09 c = true) ∧
    ∃ post, s = m1 ++ (m2 ++ ':' :: (m3 ++ (m4 ++ post))) := by
  unfold rangeMatchHere at h
  simp only at h
  split at h
  · simp at h
  · rename_i c r3 hr2
    split at h
    · rename_i hcond
      simp only [Option.some.injEq, Prod.mk.injEq] at h
      obtain ⟨rfl, rfl, rfl, rfl⟩ := h
      obtain ⟨hc, h1, h2, h3, h4⟩ := hcond
      subst hc
      refine ⟨h1, mem_takeWhile_true _ _, h2, mem_takeWhile_true _ _, h3,
        mem_takeWhile_true _ _, h4, mem_takeWhile_true _ _, ?_⟩
      refine ⟨(r3.dropWhile isUpperAZ).dropWhile isDigit09, ?_⟩
      rw [List.takeWhile_append_dropWhile, List.takeWhile_append_dropWhile, ← hr2,
        List.takeWhile_append_dropWhile, List.takeWhile_append_dropWhile]
    · simp at h

theorem rangeMatch_sound (s : JSString) (m : JSString × JSString × JSString × JSString)
    (h : rangeMatch s = some m) : HasRangeShape s := by
  induction s with
  | nil => simp [rangeMatch] at h
  | cons c cs ih =>
    simp only [rangeMatch] at h
    cases hh : rangeMatchHere (c :: cs) with
    | some m' =>
      obtain ⟨m1, m2, m3, m4⟩ := m'
      obtain ⟨h1, h2, h3, h4, h5, h6, h7, h8, post, h9⟩ := rangeMatchHere_sound _ _ _ _ _ hh
      exact ⟨[], m1, m2, m3, m4, post, h1, h2, h3, h4, h5, h6, h7, h8, by simpa using h9⟩
    | none =>
      rw [hh] at h
      obtain ⟨pre, l1, d1, l2, d2, post, h1, h2, h3, h4, h5, h6, h7, h8, h9⟩ := ih h
      exact ⟨c :: pre, l1, d1, l2, d2, post, h1, h2, h3, h4, h5, h6, h7, h8, by simp [h9]⟩

theorem rangeMatch_complete (s : JSString) (h : HasRangeShape s) :
    (rangeMatch s).isSome = true := by
  obtain ⟨pre, l1, d1, l2, d2, post, h1, h2, h3, h4, h5, h6, h7, h8, rfl⟩ := h
  induction pre with
  | nil =>
    have hsplit : d2 ++ post =
        (d2 ++ post.takeWhile isDigit09) ++ post.dropWhile isDigit09 := by
      simp
    have hhere := rangeMatchHere_shape l1 d1 l2 (d2 ++ post.takeWhile isDigit09)
      (post.dropWhile isDigit09) h1 h2 h3 h4 h5 h6 (by simp [h7])
      (by
        intro c hc
        rcases List.mem_append.mp hc with hc | hc
        · exact h8 c hc
        · exact List.mem_takeWhile_imp hc)
      (by
        intro c hc
        have := List.head?_dropWhile_not isDigit09 post
        rw [Option.mem_def] at hc
        rw [hc] at this
        exact this)
    rw [← hsplit] at hhere
    simp [rangeMatch_of_here _ _ hhere]
  | cons c pre ih =>
    simp only [List.cons_append, rangeMatch]
    cases hh : rangeMatchHere (c :: (pre ++ (l1 ++ (d1 ++ ':' :: (l2 ++ (d2 ++ post)))))) with
    | some m => simp
    | none => simpa using ih

/-- The leftmost-match search of the range parser finds nothing exactly when
the text contains no reference. -/
theorem rangeMatch_eq_none_iff (s : JSString) : rangeMatch s = none ↔ ¬ HasRangeShape s := by
  constructor
  · intro h hk
    have := rangeMatch_complete s hk
    simp [h] at this
  · intro h
    cases hm : rangeMatch s with
    | none => rfl
    | some m => exact absurd (rangeMatch_sound s m hm) h

/-! ## The formula matcher -/

theorem afterPrefix_append (p s : JSString) : afterPrefix p (p ++ s) = some s := by
  induction p with
  | nil => cases s <;> simp [afterPrefix]
  | cons a t ih => simp [afterPrefix, ih]

theorem beforeLastParen_snoc (arg : JSString) : beforeLastParen (arg ++ [')']) = some arg := by
  induction arg with
  | nil => simp [beforeLastParen]
  | cons a t ih => simp [beforeLastParen, ih]

theorem takeWhile_notLineTerminator_call (arg : JSString)
    (h : ∀ c ∈ arg, isLineTerminator c = false) :
    (arg ++ [')']).takeWhile (fun d => !isLineTerminator d) = arg ++ [')'] := by
  rw [List.takeWhile_eq_self_iff]
  intro c hc
  simp only [List.mem_append, List.mem_singleton] at hc
  rcases hc with hc | rfl
  · simp [h c hc]
  · decide

theorem formulaMatch_of_here (s : JSString) (m : JSString × JSString)
    (h : formulaMatchHere s = some m) : formulaMatch s = some m := by
  cases s with
  | nil => simp [formulaMatchHere, functionNames, List.findSome?, afterPrefix] at h
  | cons c cs => simp [formulaMatch, h]

/-- A known function name applied to a one-line argument is matched at the
start, with the name and the argument as groups. -/
theorem formulaMatch_call (name arg : JSString) (hname : name ∈ functionNames)
    (h : ∀ c ∈ arg, isLineTerminator c = false) :
    formulaMatch (name ++ '(' :: (arg ++ [')'])) = some (name, arg) := by
  have key : formulaMatchHere (name ++ '(' :: (arg ++ [')'])) = some (name, arg) := by
    simp only [functionNames, List.mem_cons, List.mem_singleton, List.not_mem_nil, or_false] at hname
    rcases hname with rfl | rfl | rfl | rfl | rfl <;>
      simp [formulaMatchHere, functionNames, List.findSome?, afterPrefix,
        takeWhile_notLineTerminator_call arg h, beforeLastParen_snoc]
  exact formulaMatch_of_here _ _ key

theorem afterPrefix_eq_some (p s t : JSString) (h : afterPrefix p s = some t) : s = p ++ t := by
  induction p generalizing s with
  | nil => cases s <;> simp_all [afterPrefix]
  | cons a p ih =>
    cases s with
    | nil => simp [afterPrefix] at h
    | cons b s =>
      simp only [afterPrefix] at h
      split at h
      · rename_i hab
        subst hab
        simp [ih s h]
      · simp at h

theorem beforeLastParen_eq_some (l a : JSString) (h : beforeLastParen l = some a) :
    ∃ post, l = a ++ ')' :: post := by
  induction l generalizing a with
  | nil => simp [beforeLastParen] at h
  | cons c cs ih =>
    simp only [beforeLastParen] at h
    cases hcs : beforeLastParen cs with
    | some a' =>
      rw [hcs] at h
      simp at h
      subst h
      obtain ⟨post, hpost⟩ := ih a' hcs
      exact ⟨post, by simp [hpost]⟩
    | none =>
      rw [hcs] at h
      simp at h
      obtain ⟨hc, ha⟩ := h
      subst hc; subst ha
      exact ⟨cs, by simp⟩

theorem beforeLastParen_isSome (l : JSString) (h : ')' ∈ l) : (beforeLastParen l).isSome = true := by
  induction l with
  | nil => simp at h
  | cons c cs ih =>
    simp only [beforeLastParen]
    cases hcs : beforeLastParen cs with
    | some a' => simp
    | none =>
      have : ')' ∉ cs := fun hmem => by simpa [hcs] using ih hmem
      have hc : c = ')' := by
        rcases List.mem_cons.mp h with h | h
        · exact h.symm
        · exact absurd h this
      simp [hc]

theorem formulaMatchHere_sound (s f a : JSString) (h : formulaMatchHere s = some (f, a)) :
    f ∈ functionNames ∧ (∀ c ∈ a, isLineTerminator c = false) ∧
      ∃ post, s = f ++ '(' :: (a ++ ')' :: post) := by
  unfold formulaMatchHere at h
  obtain ⟨name, hname, hn⟩ := List.exists_of_findSome?_eq_some h
  cases hp : afterPrefix name s with
  | none => simp [hp] at hn
  | some t =>
    cases t with
    | nil => simp [hp] at hn
    | cons c rest =>
      simp only [hp] at hn
      split at hn
      · rename_i hc
        subst hc
        simp only [Option.map_eq_some', Prod.mk.injEq] at hn
        obtain ⟨a', ha', rfl, rfl⟩ := hn
        obtain ⟨post, hpost⟩ := beforeLastParen_eq_some _ _ ha'
        refine ⟨hname, ?_, ?_⟩
        · intro c hc
          have hmem : c ∈ rest.takeWhile (fun d => !isLineTerminator d) := by
            rw [hpost]; simp [hc]
          have := List.mem_takeWhile_imp hmem
          simpa using this
        · refine ⟨post ++ rest.dropWhile (fun d => !isLineTerminator d), ?_⟩
          have h1 := afterPrefix_eq_some _ _ _ hp
          have h2 := List.takeWhile_append_dropWhile (fun d => !isLineTerminator d) rest
          have h3 : rest = (a' ++ ')' :: post) ++ rest.dropWhile (fun d => !isLineTerminator d) := by
            rw [← hpost]; exact h2.symm
          rw [h1]
          conv_lhs => rw [h3]
          simp
      · simp at hn

theorem formulaMatch_sound (s f a : JSString) (h : formulaMatch s = some (f, a)) :
    f ∈ functionNames ∧ (∀ c ∈ a, isLineTerminator c = false) ∧
      ∃ pre post, s = pre ++ (f ++ '(' :: (a ++ ')' :: post)) := by
  induction s with
  | nil => simp [formulaMatch] at h
  | cons c cs ih =>
    simp only [formulaMatch] at h
    cases hh : formulaMatchHere (c :: cs) with
    | some m =>
      rw [hh] at h
      simp at h
      subst h
      obtain ⟨h1, h2, post, h3⟩ := formulaMatchHere_sound _ _ _ hh
      exact ⟨h1, h2, [], post, by simpa using h3⟩
    | none =>
      rw [hh] at h
      obtain ⟨h1, h2, pre, post, h3⟩ := ih h
      exact ⟨h1, h2, c :: pre, post, by simp [h3]⟩

theorem formulaMatchHere_complete (name arg post : JSString) (hname : name ∈ functionNames)
    (harg : ∀ c ∈ arg, isLineTerminator c = false) :
    (formulaMatchHere (name ++ '(' :: (arg ++ ')' :: post))).isSome = true := by
  unfold formulaMatchHere
  rw [List.findSome?_isSome_iff]
  refine ⟨name, hname, ?_⟩
  rw [afterPrefix_append]
  have hmem : ')' ∈ (arg ++ ')' :: post).takeWhile (fun d => !isLineTerminator d) := by
    rw [List.takeWhile_append_of_pos (by intro c hc; simp [harg c hc])]
    have hparen : (!isLineTerminator ')') = true := by decide
    simp [List.takeWhile, hparen]
  have := beforeLastParen_isSome _ hmem
  simp [this]

theorem formulaMatch_complete (s : JSString) (h : HasKnownCall s) :
    (formulaMatch s).isSome = true := by
  obtain ⟨pre, name, arg, post, hname, harg, rfl⟩ := h
  induction pre with
  | nil =>
    have := formulaMatchHere_complete name arg post hname harg
    obtain ⟨m, hm⟩ := Option.isSome_iff_exists.mp this
    simp [formulaMatch_of_here _ _ hm]
  | cons c pre ih =>
    simp only [List.cons_append, formulaMatch]
    cases hh : formulaMatchHere (c :: (pre ++ (name ++ '(' :: (arg ++ ')' :: post)))) with
    | some m => simp
    | none => simpa using ih

/-- The leftmost-match search finds nothing exactly when the text contains no
call of a known function. -/
theorem formulaMatch_eq_none_iff (s : JSString) : formulaMatch s = none ↔ ¬ HasKnownCall s := by
  constructor
  · intro h hk
    have := formulaMatch_complete s hk
    simp [h] at this
  · intro h
    cases hm : formulaMatch s with
    | none => rfl
    | some m =>
      obtain ⟨f, a⟩ := m
      obtain ⟨h1, h2, pre, post, h3⟩ := formulaMatch_sound s f a hm
      exact absurd ⟨pre, f, a, post, h1, h2, h3⟩ h

/-! ## The number test -/

theorem dropWhile_ne_nil_of_mem {α : Type} (p : α → Bool) (l : List α) (a : α)
    (ha : a ∈ l) (hp : p a = false) : l.dropWhile p ≠ [] := by
  intro h
  rw [List.dropWhile_eq_nil_iff] at h
  simp [h a ha] at hp

theorem trim_ne_nil (s : JSString) (c : Char) (hc : c ∈ s) (hw : isJSWhitespace c = false) :
    trim s ≠ [] := by
  unfold trim
  have h1 := dropWhile_ne_nil_of_mem isJSWhitespace s c hc hw
  obtain ⟨x, t, hxt⟩ := List.exists_cons_of_ne_nil h1
  have hx : isJSWhitespace x = false := by
    have := List.head?_dropWhile_not isJSWhitespace s
    rw [hxt] at this
    simpa using this
  have h2 := dropWhile_ne_nil_of_mem isJSWhitespace (s.dropWhile isJSWhitespace).reverse x
    (by rw [hxt]; simp) hx
  simpa using h2

theorem not_whitespace_of_isDigit09 {c : Char} (h : isDigit09 c = true) :
    isJSWhitespace c = false := by
  simp only [isDigit09, decide_eq_true_eq] at h
  simp only [isJSWhitespace, decide_eq_false_iff_not]
  omega

/-- The body matcher of the number test, on the text after the optional
sign. -/
theorem numberBody_test (ip dot fp : JSString) (hip : ∀ c ∈ ip, isDigit09 c = true)
    (hdot : dot = [] ∨ dot = ['.']) (hfp : fp ≠ []) (hfpd : ∀ c ∈ fp, isDigit09 c = true) :
    (match (ip ++ (dot ++ fp)).dropWhile isDigit09 with
      | [] => decide ((ip ++ (dot ++ fp)).takeWhile isDigit09 ≠ [])
      | c :: t => (decide (c = '.' ∧ t ≠ []) && t.all isDigit09)) = true := by
  rcases hdot with rfl | rfl
  · have hall : ∀ c ∈ ip ++ ([] ++ fp), isDigit09 c = true := by
      intro c hc
      simp only [List.nil_append, List.mem_append] at hc
      rcases hc with hc | hc
      · exact hip c hc
      · exact hfpd c hc
    have h1 : (ip ++ ([] ++ fp)).dropWhile isDigit09 = [] := by
      rw [List.dropWhile_eq_nil_iff]; exact hall
    have h2 : (ip ++ ([] ++ fp)).takeWhile isDigit09 = ip ++ ([] ++ fp) := by
      rw [List.takeWhile_eq_self_iff]; exact hall
    rw [h1, h2]
    simp [hfp]
  · have := takeWhile_append_stop isDigit09 ip (['.'] ++ fp) hip (by
      intro c hc
      simp at hc
      subst hc
      decide)
    rw [this.2]
    simp [hfp, hfpd]
    exact fun c hc => by simpa [isDigit09] using hfpd c hc

theorem numberRegexTest_of_grammar (s : JSString) (h : MatchesNumberGrammar s) :
    numberRegexTest s = true := by
  obtain ⟨sign, ip, dot, fp, hsign, hip, hdot, hfp, hfpd, rfl⟩ := h
  have hbody := numberBody_test ip dot fp hip hdot hfp hfpd
  rcases hsign with rfl | rfl
  · -- no sign: the first character is a digit or a dot
    have hdm : dropMinus ([] ++ (ip ++ (dot ++ fp))) = ip ++ (dot ++ fp) := by
      cases hs : ip ++ (dot ++ fp) with
      | nil => rfl
      | cons c t =>
        have hc : c ≠ '-' := by
          have hmem : c ∈ ip ++ (dot ++ fp) := by rw [hs]; simp
          simp only [List.mem_append] at hmem
          rcases hmem with hm | hm | hm
          · intro hcc; subst hcc; exact absurd (hip _ hm) (by decide)
          · rcases hdot with rfl | rfl
            · simp at hm
            · simp at hm; subst hm; decide
          · intro hcc; subst hcc; exact absurd (hfpd _ hm) (by decide)
        simp [dropMinus, hc]
    unfold numberRegexTest
    rw [hdm]
    exact hbody
  · unfold numberRegexTest
    have hdm : dropMinus (['-'] ++ (ip ++ (dot ++ fp))) = ip ++ (dot ++ fp) := by
      simp [dropMinus]
    rw [hdm]
    exact hbody

theorem grammar_of_numberRegexTest (s : JSString) (h : numberRegexTest s = true) :
    MatchesNumberGrammar s := by
  unfold numberRegexTest at h
  obtain ⟨sign, hsign, hs⟩ : ∃ sign : JSString, (sign = [] ∨ sign = ['-']) ∧
      s = sign ++ dropMinus s := by
    cases s with
    | nil => exact ⟨[], Or.inl rfl, rfl⟩
    | cons c t =>
      by_cases hc : c = '-'
      · exact ⟨['-'], Or.inr rfl, by simp [dropMinus, hc]⟩
      · exact ⟨[], Or.inl rfl, by simp [dropMinus, hc]⟩
  generalize dropMinus s = body at h hs
  simp only at h
  have hsplit := List.takeWhile_append_dropWhile isDigit09 body
  cases hd : body.dropWhile isDigit09 with
  | nil =>
    rw [hd] at h hsplit
    simp only [decide_eq_true_eq] at h
    refine ⟨sign, [], [], body.takeWhile isDigit09, hsign, by simp, Or.inl rfl, h,
      fun c hc => List.mem_takeWhile_imp hc, ?_⟩
    simp only [List.append_nil] at hsplit
    rw [hs, hsplit]
    simp
  | cons c fp =>
    rw [hd] at h hsplit
    simp only [Bool.and_eq_true, decide_eq_true_eq, List.all_eq_true] at h
    obtain ⟨⟨hc, hfp⟩, hall⟩ := h
    subst hc
    refine ⟨sign, body.takeWhile isDigit09, ['.'], fp, hsign,
      fun c hc => List.mem_takeWhile_imp hc, Or.inr rfl, hfp, hall, ?_⟩
    rw [hs]
    simp [hsplit]

/-- The test `/^-?\d*\.?\d+$/` accepts exactly the texts of the number
grammar. -/
theorem numberRegexTest_iff (s : JSString) : numberRegexTest s = true ↔ MatchesNumberGrammar s :=
  ⟨grammar_of_numberRegexTest s, numberRegexTest_of_grammar s⟩

theorem grammar_chars (s : JSString) (h : MatchesNumberGrammar s) :
    ∀ c ∈ s, isDigit09 c = true ∨ c = '-' ∨ c = '.' := by
  obtain ⟨sign, ip, dot, fp, hsign, hip, hdot, hfp, hfpd, rfl⟩ := h
  intro c hc
  simp only [List.mem_append] at hc
  rcases hc with hc | hc | hc | hc
  · rcases hsign with rfl | rfl
    · simp at hc
    · simp at hc; exact Or.inr (Or.inl hc)
  · exact Or.inl (hip c hc)
  · rcases hdot with rfl | rfl
    · simp at hc
    · simp at hc; exact Or.inr (Or.inr hc)
  · exact Or.inl (hfpd c hc)

/-! ## Grid updates -/

theorem cellAt_handleChange (parseDate : JSString → Option JSString)
    (columnTypes : List ColumnType) (row col : Nat) (value : JSString) (cells : Grid)
    (i j : Nat) :
    cellAt (handleChange parseDate columnTypes row col value cells) i j =
      (cellAt cells i j).map (fun c =>
        if i = row ∧ j = col then
          changedCell c value (validateCellValue parseDate value columnTypes[col]?)
        else c) := by
  unfold cellAt handleChange
  simp only [List.getElem?_mapIdx]
  cases cells[i]? with
  | none => rfl
  | some r =>
    simp only [Option.map_some', Option.some_bind, List.getElem?_mapIdx]

theorem map_length_handleChange (parseDate : JSString → Option JSString)
    (columnTypes : List ColumnType) (row col : Nat) (value : JSString) (cells : Grid) :
    (handleChange parseDate columnTypes row col value cells).map List.length =
      cells.map List.length := by
  apply List.ext_getElem?
  intro i
  unfold handleChange
  simp only [List.getElem?_map, List.getElem?_mapIdx]
  cases cells[i]? with
  | none => rfl
  | some r => simp

theorem dropLast_append_getLast {α : Type} (l : List α) (h : l ≠ []) :
    ∃ a, l = l.dropLast ++ [a] :=
  ⟨l.getLast h, (List.dropLast_append_getLast h).symm⟩

/-! ## The row key of duplicate removal -/

theorem char_eq_ofNat (c : Char) (n : Nat) (h : c.toNat = n) : c = Char.ofNat n := by
  rw [← h, Char.ofNat_toNat]

theorem hexValue_hexDigit (n : Nat) (h : n < 16) : hexValue (hexDigit n) = n := by
  interval_cases n <;> decide

theorem jsonUnescapeChar_escape (c : Char) (r : JSString) :
    jsonUnescapeChar (jsonEscapeChar c ++ r) = some (c, r) := by
  unfold jsonEscapeChar
  split_ifs with h1 h2 h3 h4 h5 h6 h7 h8
  · simp [jsonUnescapeChar, char_eq_ofNat c _ h1]
  · simp [jsonUnescapeChar, char_eq_ofNat c _ h2]
  · simp [jsonUnescapeChar, char_eq_ofNat c _ h3]
  · simp [jsonUnescapeChar, char_eq_ofNat c _ h4]
  · simp [jsonUnescapeChar, char_eq_ofNat c _ h5]
  · simp [jsonUnescapeChar, char_eq_ofNat c _ h6]
  · simp [jsonUnescapeChar, char_eq_ofNat c _ h7]
  · have hd : c.toNat / 16 < 16 := by omega
    have hm : c.toNat % 16 < 16 := by omega
    simp only [jsonUnescapeChar, List.cons_append, List.nil_append]
    simp only [hexValue_hexDigit _ hd, hexValue_hexDigit _ hm]
    have : 16 * (c.toNat / 16) + c.toNat % 16 = c.toNat := Nat.div_add_mod _ _
    rw [this, Char.ofNat_toNat]
    simp
  · simp [jsonUnescapeChar, h7]

theorem jsonEscapeChar_head (c : Char) :
    ∃ x t, jsonEscapeChar c = x :: t ∧ x ≠ '"' := by
  unfold jsonEscapeChar
  split_ifs with h1 h2 h3 h4 h5 h6 h7 h8
  all_goals first
    | exact ⟨'\\', _, rfl, by decide⟩
    | exact ⟨c, [], rfl, fun hc => h6 (by rw [hc]; rfl)⟩

theorem jsonBody_inj (s t r r' : JSString)
    (h : s.flatMap jsonEscapeChar ++ '"' :: r = t.flatMap jsonEscapeChar ++ '"' :: r') :
    s = t ∧ r = r' := by
  induction s generalizing t with
  | nil =>
    cases t with
    | nil => simpa using h
    | cons b t' =>
      obtain ⟨x, u, hx, hne⟩ := jsonEscapeChar_head b
      simp [List.flatMap_cons, hx] at h
      exact absurd h.1.symm hne
  | cons a s' ih =>
    cases t with
    | nil =>
      obtain ⟨x, u, hx, hne⟩ := jsonEscapeChar_head a
      simp [List.flatMap_cons, hx] at h
      exact absurd h.1 hne
    | cons b t' =>
      simp only [List.flatMap_cons, List.append_assoc] at h
      have hdec := congrArg jsonUnescapeChar h
      rw [jsonUnescapeChar_escape, jsonUnescapeChar_escape] at hdec
      simp only [Option.some.injEq, Prod.mk.injEq] at hdec
      obtain ⟨hab, hrest⟩ := hdec
      obtain ⟨hst, hr⟩ := ih t' hrest
      exact ⟨by rw [hab, hst], hr⟩

theorem jsonQuote_inj (s t r r' : JSString) (h : jsonQuote s ++ r = jsonQuote t ++ r') :
    s = t ∧ r = r' := by
  unfold jsonQuote at h
  simp only [List.cons_append, List.append_assoc, List.singleton_append, List.cons.injEq,
    true_and] at h
  exact jsonBody_inj s t r r' h

theorem jsonJoin_inj (xs ys : List JSString) (r r' : JSString)
    (h : jsonJoin xs ++ ']' :: r = jsonJoin ys ++ ']' :: r') : xs = ys := by
  induction xs generalizing ys with
  | nil =>
    cases ys with
    | nil => rfl
    | cons y ys' =>
      cases ys' with
      | nil => simp [jsonJoin, jsonQuote] at h
      | cons y2 t => simp [jsonJoin, jsonQuote] at h
  | cons x xs' ih =>
    cases xs' with
    | nil =>
      cases ys with
      | nil => simp [jsonJoin, jsonQuote] at h
      | cons y ys' =>
        cases ys' with
        | nil =>
          simp only [jsonJoin] at h
          rw [(jsonQuote_inj x y _ _ h).1]
        | cons y2 t =>
          simp only [jsonJoin, List.append_assoc, List.cons_append] at h
          have := (jsonQuote_inj x y _ _ h).2
          simp at this
    | cons x2 s =>
      cases ys with
      | nil => simp [jsonJoin, jsonQuote] at h
      | cons y ys' =>
        cases ys' with
        | nil =>
          simp only [jsonJoin, List.append_assoc, List.cons_append] at h
          have := (jsonQuote_inj x y _ _ h).2
          simp at this
        | cons y2 t =>
          simp only [jsonJoin, List.append_assoc, List.cons_append] at h
          obtain ⟨hxy, hrest⟩ := jsonQuote_inj x y _ _ h
          simp only [List.cons.injEq, true_and] at hrest
          have := ih (y2 :: t) (by simpa [jsonJoin] using hrest)
          rw [hxy, this]

/-- `JSON.stringify` is injective on arrays of strings. -/
theorem jsonStringify_inj (xs ys : List JSString) (h : jsonStringify xs = jsonStringify ys) :
    xs = ys := by
  unfold jsonStringify at h
  simp only [List.cons.injEq, true_and] at h
  exact jsonJoin_inj xs ys [] [] h

/-! ## Duplicate removal -/

theorem rowString_mem_iff (row : List Cell) (earlier : List (List Cell)) :
    rowString row ∈ earlier.map rowString ↔ rowRaws row ∈ earlier.map rowRaws := by
  simp only [List.mem_map]
  constructor
  · rintro ⟨r, hr, h⟩
    exact ⟨r, hr, jsonStringify_inj _ _ h⟩
  · rintro ⟨r, hr, h⟩
    refine ⟨r, hr, ?_⟩
    show jsonStringify (rowRaws r) = jsonStringify (rowRaws row)
    rw [h]

theorem foldl_removeDuplicatesStep (rest : List (List Cell)) (seen : List JSString)
    (uniqueRows earlier : List (List Cell))
    (hseen : ∀ k, k ∈ seen ↔ k ∈ earlier.map rowString) :
    (rest.foldl removeDuplicatesStep (seen, uniqueRows)).2 =
      uniqueRows ++ firstOccurrences earlier rest := by
  induction rest generalizing seen uniqueRows earlier with
  | nil => simp [firstOccurrences]
  | cons row rest ih =>
    simp only [List.foldl_cons, firstOccurrences]
    by_cases hmem : rowString row ∈ seen
    · have hraw : rowRaws row ∈ earlier.map rowRaws :=
        (rowString_mem_iff row earlier).mp ((hseen _).mp hmem)
      simp only [removeDuplicatesStep, hmem, if_true, hraw]
      apply ih
      intro k
      rw [hseen k]
      simp only [List.map_append, List.mem_append, List.map_cons, List.map_nil,
        List.mem_singleton]
      constructor
      · exact Or.inl
      · rintro (h | h)
        · exact h
        · rw [h]; exact (hseen _).mp hmem
    · have hraw : rowRaws row ∉ earlier.map rowRaws := fun h =>
        hmem ((hseen _).mpr ((rowString_mem_iff row earlier).mpr h))
      simp only [removeDuplicatesStep, hmem, if_false, hraw]
      rw [ih (rowString row :: seen) (uniqueRows ++ [row]) (earlier ++ [row])]
      · simp
      · intro k
        simp only [List.mem_cons, hseen k, List.map_append, List.mem_append, List.map_cons,
          List.map_nil, List.mem_singleton]
        tauto

/-- The loop of `handleRemoveDuplicates` keeps exactly the first
occurrences. -/
theorem handleRemoveDuplicates_eq (cells : Grid) :
    handleRemoveDuplicates cells = firstOccurrences [] cells := by
  unfold handleRemoveDuplicates
  rw [foldl_removeDuplicatesStep cells [] [] [] (by simp)]
  simp

theorem firstOccurrences_sublist (earlier rest : List (List Cell)) :
    (firstOccurrences earlier rest).Sublist rest := by
  induction rest generalizing earlier with
  | nil => simp [firstOccurrences]
  | cons row rest ih =>
    simp only [firstOccurrences]
    split
    · exact (ih _).cons _
    · exact (ih _).cons₂ _

theorem firstOccurrences_not_earlier (earlier rest : List (List Cell)) :
    ∀ x ∈ firstOccurrences earlier rest, rowRaws x ∉ earlier.map rowRaws := by
  induction rest generalizing earlier with
  | nil => simp [firstOccurrences]
  | cons row rest ih =>
    intro x hx
    simp only [firstOccurrences] at hx
    have hstep : ∀ y ∈ firstOccurrences (earlier ++ [row]) rest,
        rowRaws y ∉ earlier.map rowRaws := by
      intro y hy hmem
      refine ih (earlier ++ [row]) y hy ?_
      simp only [List.map_append, List.mem_append]
      exact Or.inl hmem
    split at hx
    · exact hstep x hx
    · rename_i hrow
      rcases List.mem_cons.mp hx with rfl | hx
      · exact hrow
      · exact hstep x hx

theorem firstOccurrences_pairwise (earlier rest : List (List Cell)) :
    (firstOccurrences earlier rest).Pairwise (fun a b => rowRaws a ≠ rowRaws b) := by
  induction rest generalizing earlier with
  | nil => simp [firstOccurrences]
  | cons row rest ih =>
    simp only [firstOccurrences]
    split
    · exact ih _
    · rw [List.pairwise_cons]
      refine ⟨?_, ih _⟩
      intro y hy heq
      have := firstOccurrences_not_earlier (earlier ++ [row]) rest y hy
      apply this
      simp [heq]

theorem firstOccurrences_cover (earlier rest : List (List Cell)) :
    ∀ x ∈ rest, rowRaws x ∈ earlier.map rowRaws ∨
      ∃ y ∈ firstOccurrences earlier rest, rowRaws y = rowRaws x := by
  induction rest generalizing earlier with
  | nil => simp
  | cons row rest ih =>
    intro x hx
    simp only [firstOccurrences]
    rcases List.mem_cons.mp hx with rfl | hx
    · split
      · rename_i h; exact Or.inl h
      · exact Or.inr ⟨x, by simp, rfl⟩
    · rcases ih (earlier ++ [row]) x hx with h | ⟨y, hy, hxy⟩
      · simp only [List.map_append, List.mem_append, List.map_cons, List.map_nil,
          List.mem_singleton] at h
        rcases h with h | h
        · exact Or.inl h
        · split
          · rename_i hrow; rw [h]; exact Or.inl hrow
          · exact Or.inr ⟨row, by simp, h.symm⟩
      · split
        · exact Or.inr ⟨y, hy, hxy⟩
        · exact Or.inr ⟨y, by simp [hy], hxy⟩

theorem firstOccurrences_first (earlier rest : List (List Cell)) :
    ∀ x ∈ firstOccurrences earlier rest, ∃ pre post, rest = pre ++ x :: post ∧
      ∀ r ∈ earlier ++ pre, rowRaws r ≠ rowRaws x := by
  induction rest generalizing earlier with
  | nil => simp [firstOccurrences]
  | cons row rest ih =>
    intro x hx
    simp only [firstOccurrences] at hx
    have hstep : x ∈ firstOccurrences (earlier ++ [row]) rest →
        ∃ pre post, row :: rest = pre ++ x :: post ∧
          ∀ r ∈ earlier ++ pre, rowRaws r ≠ rowRaws x := by
      intro hx'
      obtain ⟨pre, post, hrest, hpre⟩ := ih (earlier ++ [row]) x hx'
      refine ⟨row :: pre, post, by simp [hrest], ?_⟩
      intro r hr
      apply hpre r
      simp only [List.mem_append, List.mem_cons, List.mem_singleton, List.not_mem_nil,
        or_false] at hr ⊢
      tauto
    split at hx
    · exact hstep hx
    · rename_i hrow
      rcases List.mem_cons.mp hx with rfl | hx
      · refine ⟨[], rest, rfl, ?_⟩
        intro r hr heq
        apply hrow
        simp only [List.append_nil] at hr
        exact List.mem_map.mpr ⟨r, hr, heq⟩
      · exact hstep hx

theorem firstOccurrences_of_pairwise (earlier rest : List (List Cell))
    (hpw : rest.Pairwise (fun a b => rowRaws a ≠ rowRaws b))
    (hnew : ∀ x ∈ rest, rowRaws x ∉ earlier.map rowRaws) :
    firstOccurrences earlier rest = rest := by
  induction rest generalizing earlier with
  | nil => simp [firstOccurrences]
  | cons row rest ih =>
    rw [List.pairwise_cons] at hpw
    have hrow : rowRaws row ∉ earlier.map rowRaws := hnew row (by simp)
    simp only [firstOccurrences, hrow, if_false]
    rw [ih (earlier ++ [row]) hpw.2]
    intro x hx
    simp only [List.map_append, List.mem_append, List.map_cons, List.map_nil,
      List.mem_singleton, not_or]
    exact ⟨hnew x (by simp [hx]), fun h => hpw.1 x hx h.symm⟩


/-! ## Numbers -/

theorem ofRat_intCast (n : Int) (h : |n| ≤ 2 ^ 53) :
    JSNumber.ofRat (n : ℚ) = JSNumber.fin (n : ℚ) := by
  unfold JSNumber.ofRat
  rw [if_pos]
  simp only [Rat.intCast_den, Rat.intCast_num]
  exact ⟨trivial, h⟩

theorem ofNat_eq (n : Nat) (h : n ≤ 2 ^ 53) : JSNumber.ofNat n = JSNumber.fin (n : ℚ) := by
  have := ofRat_intCast (n : Int) (by rw [abs_of_nonneg (by positivity)]; exact_mod_cast h)
  simpa [JSNumber.ofNat] using this

theorem sub_fin_int (a b : Int) (h : |a - b| ≤ 2 ^ 53) :
    JSNumber.sub (JSNumber.fin (a : ℚ)) (JSNumber.fin (b : ℚ)) =
      JSNumber.fin ((a - b : Int) : ℚ) := by
  unfold JSNumber.sub
  by_cases hb : (b : ℚ) = 0
  · simp only [JSNumber.neg, if_pos hb]
    have : b = 0 := by exact_mod_cast hb
    subst this
    simp [JSNumber.add]
  · simp only [JSNumber.neg, if_neg hb]
    simp only [JSNumber.add]
    by_cases hs : (a : ℚ) + -(b : ℚ) = 0
    · rw [if_pos hs]
      congr 1
      push_cast
      linarith
    · rw [if_neg hs]
      have := ofRat_intCast (a - b) h
      push_cast at this
      rw [← sub_eq_add_neg]
      rw [this]
      push_cast
      rfl

theorem increment_fin_int (a : Int) (h : |a + 1| ≤ 2 ^ 53) :
    increment (JSNumber.fin (a : ℚ)) = JSNumber.fin ((a + 1 : Int) : ℚ) := by
  unfold increment
  simp only [JSNumber.add]
  by_cases hs : (a : ℚ) + 1 = 0
  · rw [if_pos hs]
    congr 1
    push_cast
    exact hs.symm
  · rw [if_neg hs]
    have := ofRat_intCast (a + 1) h
    push_cast at this
    rw [this]
    push_cast
    rfl

theorem le_fin (a b : ℚ) : JSNumber.le (JSNumber.fin a) (JSNumber.fin b) = decide (a ≤ b) := by
  simp only [JSNumber.le, JSNumber.lt]
  rw [if_neg (by simp)]
  by_cases h : a ≤ b
  · simp [h, not_lt.mpr h]
  · simp [h, not_le.mp h]


/-! ## The loops of the range parser -/

theorem forRange_cons (a b : Int) (h : a ≤ b) : forRange a b = a :: forRange (a + 1) b := by
  unfold forRange
  have h1 : (b - a + 1).toNat = (b - (a + 1) + 1).toNat + 1 := by omega
  rw [h1, List.range_succ_eq_map]
  simp only [List.map_cons, List.map_map, Nat.cast_zero, add_zero]
  congr 1
  apply List.map_congr_left
  intro k _
  simp only [Function.comp, Nat.cast_succ]
  ring

theorem forRange_eq_nil (lo hi : Int) (h : hi < lo) : forRange lo hi = [] := by
  unfold forRange
  have : (hi - lo + 1).toNat = 0 := by omega
  rw [this]
  rfl

/-- A loop between integers inside the range in which `i++` is exact takes
the integers from the start to the end, given enough fuel. -/
theorem forLoop_int (n : Nat) : ∀ (fuel : Nat) (a b : Int), (b - a + 1).toNat = n → n < fuel →
    -(2 ^ 53) ≤ a → b < 2 ^ 53 →
    forLoop fuel (JSNumber.fin (a : ℚ)) (JSNumber.fin (b : ℚ)) =
      some ((forRange a b).map (fun (i : Int) => JSNumber.fin (i : ℚ))) := by
  induction n with
  | zero =>
    intro fuel a b hn hfuel ha hb
    obtain ⟨f, rfl⟩ : ∃ f, fuel = f + 1 := ⟨fuel - 1, by omega⟩
    have hlt : b < a := by omega
    have hle : ¬ ((a : ℚ) ≤ (b : ℚ)) := by
      rw [not_le]; exact_mod_cast hlt
    simp only [forLoop, le_fin, decide_eq_true_eq, if_neg hle]
    rw [forRange_eq_nil a b hlt]
    rfl
  | succ n ih =>
    intro fuel a b hn hfuel ha hb
    obtain ⟨f, rfl⟩ : ∃ f, fuel = f + 1 := ⟨fuel - 1, by omega⟩
    have hab : a ≤ b := by omega
    have hle : (a : ℚ) ≤ (b : ℚ) := by exact_mod_cast hab
    have hinc : increment (JSNumber.fin (a : ℚ)) = JSNumber.fin ((a + 1 : Int) : ℚ) :=
      increment_fin_int a (by rw [abs_le]; constructor <;> omega)
    have hne : JSNumber.fin ((a + 1 : Int) : ℚ) ≠ JSNumber.fin (a : ℚ) := by
      intro h
      have h' : ((a + 1 : Int) : ℚ) = (a : ℚ) := by injection h
      have : a + 1 = a := by exact_mod_cast h'
      omega
    simp only [forLoop, le_fin, decide_eq_true_eq, if_pos hle, hinc, if_neg hne]
    rw [ih f (a + 1) b (by omega) (by omega) (by omega) hb, forRange_cons a b hab]
    rfl

theorem loopFuel_int (a b : Int) :
    loopFuel (JSNumber.fin (a : ℚ)) (JSNumber.fin (b : ℚ)) = (2 * (b - a) + 3).toNat + 1 := by
  simp only [loopFuel, JSNumber.toRat?]
  have : ((b : ℚ) - (a : ℚ)) = (((b - a : Int)) : ℚ) := by push_cast; rfl
  rw [this, Rat.intCast_num, Rat.intCast_den]
  simp

theorem forCounter_int (a b : Int) (ha : -(2 ^ 53) ≤ a) (hb : b < 2 ^ 53) :
    forCounter (JSNumber.fin (a : ℚ)) (JSNumber.fin (b : ℚ)) =
      some ((forRange a b).map (fun (i : Int) => JSNumber.fin (i : ℚ))) := by
  unfold forCounter
  rw [loopFuel_int]
  exact forLoop_int _ _ a b rfl (by omega) ha hb

/-- A loop whose start is above its end does not run, whatever the bounds. -/
theorem forCounter_reversed (a b : Int) (h : b < a) :
    forCounter (JSNumber.fin (a : ℚ)) (JSNumber.fin (b : ℚ)) = some [] := by
  unfold forCounter
  rw [loopFuel_int]
  have hle : ¬ ((a : ℚ) ≤ (b : ℚ)) := by
    rw [not_le]; exact_mod_cast h
  simp only [forLoop, le_fin, decide_eq_true_eq, if_neg hle]

/-! ## Letters and numerals -/

theorem mem_alphabet_iff (c : Char) : c ∈ alphabet ↔ isUpperAZ c = true := by
  constructor
  · intro h
    have : ∀ x ∈ alphabet, isUpperAZ x = true := by decide
    exact this c h
  · intro h
    simp only [isUpperAZ, decide_eq_true_eq] at h
    obtain ⟨h1, h2⟩ := h
    generalize hn : c.toNat = n at h1 h2
    have hc := char_eq_ofNat c n hn
    subst hc
    interval_cases n <;> decide

theorem columnIndex_eq (c : Char) (h : c ∈ alphabet) : columnIndex c = (c.toNat : Int) - 65 := by
  have : ∀ x ∈ alphabet, columnIndex x = (x.toNat : Int) - 65 := by decide
  exact this c h

theorem digitChar_toNat (k : Nat) (h : k < 10) : (Nat.digitChar k).toNat = 48 + k := by
  interval_cases k <;> rfl

theorem parseDecimal_snoc (xs : JSString) (d : Char) :
    parseDecimal (xs ++ [d]) = 10 * parseDecimal xs + digitVal d := by
  simp [parseDecimal, List.foldl_append]

theorem toDigitsCore_spec : ∀ (fuel n : Nat) (ds : List Char), n < fuel →
    ∃ xs, Nat.toDigitsCore 10 fuel n ds = xs ++ ds ∧ xs ≠ [] ∧
      (∀ c ∈ xs, isDigit09 c = true) ∧ parseDecimal xs = n := by
  intro fuel
  induction fuel with
  | zero => intro n ds h; omega
  | succ fuel ih =>
    intro n ds h
    have hd : (Nat.digitChar (n % 10)).toNat = 48 + n % 10 :=
      digitChar_toNat _ (Nat.mod_lt _ (by decide))
    have hdig : isDigit09 (Nat.digitChar (n % 10)) = true := by
      simp only [isDigit09, decide_eq_true_eq, hd]
      omega
    have hval : digitVal (Nat.digitChar (n % 10)) = n % 10 := by
      simp [digitVal, hd]
    unfold Nat.toDigitsCore
    by_cases h0 : n / 10 = 0
    · simp only [h0, if_true]
      refine ⟨[Nat.digitChar (n % 10)], rfl, by simp, ?_, ?_⟩
      · intro c hc
        simp only [List.mem_singleton] at hc
        subst hc
        exact hdig
      · have := parseDecimal_snoc [] (Nat.digitChar (n % 10))
        simp only [List.nil_append] at this
        rw [this, hval]
        simp only [parseDecimal, List.foldl_nil]
        omega
    · simp only [h0, if_false]
      obtain ⟨xs, hxs, hne, hall, hp⟩ := ih (n / 10) (Nat.digitChar (n % 10) :: ds) (by omega)
      refine ⟨xs ++ [Nat.digitChar (n % 10)], by simp [hxs], by simp, ?_, ?_⟩
      · intro c hc
        simp only [List.mem_append, List.mem_singleton] at hc
        rcases hc with hc | hc
        · exact hall c hc
        · subst hc; exact hdig
      · rw [parseDecimal_snoc, hp, hval]
        omega

/-- The numeral of a number is a non-empty run of digits whose value is the
number. -/
theorem numeral_spec (n : Nat) :
    numeral n ≠ [] ∧ (∀ c ∈ numeral n, isDigit09 c = true) ∧ parseDecimal (numeral n) = n := by
  obtain ⟨xs, hxs, hne, hall, hp⟩ := toDigitsCore_spec (n + 1) n [] (by omega)
  have : numeral n = xs := by
    simp [numeral, Nat.toDigits, hxs]
  rw [this]
  exact ⟨hne, hall, hp⟩

/-! ## The range parser on references within the exact range -/

theorem allSome_innerLoop (colStart colEnd : JSNumber) (cols rows : List JSNumber)
    (h : forCounter colStart colEnd = some cols) :
    allSome (rows.map (innerLoop colStart colEnd)) =
      some (rows.map (fun i => cols.map (fun j => (i, j)))) := by
  induction rows with
  | nil => rfl
  | cons i rest ih =>
    simp only [List.map_cons, allSome, innerLoop, h, Option.map_some']
    simp only [innerLoop, h, Option.map_some'] at ih
    rw [ih]
    rfl

theorem charCodeAt0_letter (c : Char) (t : JSString) (h : c ∈ alphabet) :
    charCodeAt0 (c :: t) = JSNumber.fin ((c.toNat : Int) : ℚ) := by
  have hc := (mem_alphabet_iff c).mp h
  simp only [isUpperAZ, decide_eq_true_eq] at hc
  simp only [charCodeAt0]
  rw [if_pos (by omega), ofNat_eq _ (by omega)]
  simp

theorem rectangle_map_coordinate (a b c d : Int) :
    ((forRange a b).map (fun (i : Int) => JSNumber.fin (i : ℚ))).map
      (fun i => ((forRange c d).map (fun (j : Int) => JSNumber.fin (j : ℚ))).map (fun j => (i, j))) =
    (forRange a b).map (fun i => ((forRange c d).map (fun j => (i, j))).map coordinate) := by
  simp [List.map_map, Function.comp, coordinate]

/-- The result of `parseCellRange` on a text whose leftmost reference has the
column letters `c1`, `c2` first and row numerals of value at most `2 ^ 53`:
the rectangle of the reference, unless an array cannot hold it. -/
theorem parseCellRange_int (e : Engine) (s : JSString) (c1 c2 : Char) (t1 t2 d1 d2 : JSString)
    (hm : rangeMatch s = some (c1 :: t1, d1, c2 :: t2, d2))
    (hc1 : c1 ∈ alphabet) (hc2 : c2 ∈ alphabet)
    (hr1 : parseDecimal d1 ≤ 2 ^ 53) (hr2 : parseDecimal d2 ≤ 2 ^ 53) :
    parseCellRange e s =
      if (rectangle ((parseDecimal d1 : Int) - 1) ((parseDecimal d2 : Int) - 1)
          (columnIndex c1) (columnIndex c2)).length ≤ e.maxArrayLength then
        some ((rectangle ((parseDecimal d1 : Int) - 1) ((parseDecimal d2 : Int) - 1)
          (columnIndex c1) (columnIndex c2)).map coordinate)
      else none := by
  have hA : charCodeAt0 ['A'] = JSNumber.fin ((65 : Int) : ℚ) :=
    charCodeAt0_letter 'A' [] (by decide)
  have hb1 := (mem_alphabet_iff c1).mp hc1
  have hb2 := (mem_alphabet_iff c2).mp hc2
  simp only [isUpperAZ, decide_eq_true_eq] at hb1 hb2
  have hcs : JSNumber.sub (charCodeAt0 (c1 :: t1)) (charCodeAt0 ['A']) =
      JSNumber.fin ((columnIndex c1 : Int) : ℚ) := by
    rw [charCodeAt0_letter c1 t1 hc1, hA, sub_fin_int _ _ (by rw [abs_le]; constructor <;> omega),
      columnIndex_eq c1 hc1]
  have hce : JSNumber.sub (charCodeAt0 (c2 :: t2)) (charCodeAt0 ['A']) =
      JSNumber.fin ((columnIndex c2 : Int) : ℚ) := by
    rw [charCodeAt0_letter c2 t2 hc2, hA, sub_fin_int _ _ (by rw [abs_le]; constructor <;> omega),
      columnIndex_eq c2 hc2]
  have hrs : JSNumber.sub (parseIntDigits d1) (JSNumber.fin 1) =
      JSNumber.fin (((parseDecimal d1 : Int) - 1 : Int) : ℚ) := by
    have := sub_fin_int (parseDecimal d1 : Int) 1 (by rw [abs_le]; constructor <;> omega)
    rw [parseIntDigits, ofNat_eq _ hr1]
    simpa using this
  have hre : JSNumber.sub (parseIntDigits d2) (JSNumber.fin 1) =
      JSNumber.fin (((parseDecimal d2 : Int) - 1 : Int) : ℚ) := by
    have := sub_fin_int (parseDecimal d2 : Int) 1 (by rw [abs_le]; constructor <;> omega)
    rw [parseIntDigits, ofNat_eq _ hr2]
    simpa using this
  have hrows := forCounter_int ((parseDecimal d1 : Int) - 1) ((parseDecimal d2 : Int) - 1)
    (by omega) (by omega)
  have hcols := forCounter_int (columnIndex c1) (columnIndex c2)
    (by rw [columnIndex_eq c1 hc1]; omega) (by rw [columnIndex_eq c2 hc2]; omega)
  unfold parseCellRange
  rw [hm]
  simp only [hcs, hce, hrs, hre, hrows]
  rw [allSome_innerLoop _ _ _ _ hcols]
  simp only [rectangle_map_coordinate]
  have hflat : ((forRange ((parseDecimal d1 : Int) - 1) ((parseDecimal d2 : Int) - 1)).map
      (fun i => ((forRange (columnIndex c1) (columnIndex c2)).map
        (fun j => (i, j))).map coordinate)).flatten =
      (rectangle ((parseDecimal d1 : Int) - 1) ((parseDecimal d2 : Int) - 1)
        (columnIndex c1) (columnIndex c2)).map coordinate := by
    simp only [rectangle, List.flatMap, List.map_flatten, List.map_map]
    congr 1
    apply List.map_congr_left
    intro i _
    simp [Function.comp]
  rw [hflat, List.length_map]

theorem parseCellRange_length_le (e : Engine) (s : JSString) (coords : List (JSNumber × JSNumber))
    (h : parseCellRange e s = some coords) : coords.length ≤ e.maxArrayLength := by
  unfold parseCellRange at h
  split at h
  · simp only [Option.some.injEq] at h
    subst h
    simp
  · simp only at h
    split at h
    · cases h
    · split at h
      · cases h
      · split at h
        · rename_i hle
          simp only [Option.some.injEq] at h
          subst h
          exact hle
        · cases h

/-! ## The rectangle of a reference -/

theorem mem_rectangle (a b c d i j : Int) :
    (i, j) ∈ rectangle a b c d ↔ a ≤ i ∧ i ≤ b ∧ c ≤ j ∧ j ≤ d := by
  simp only [rectangle, List.mem_flatMap, List.mem_map, mem_forRange, Prod.mk.injEq]
  constructor
  · rintro ⟨x, ⟨h1, h2⟩, y, ⟨h3, h4⟩, rfl, rfl⟩
    exact ⟨h1, h2, h3, h4⟩
  · rintro ⟨h1, h2, h3, h4⟩
    exact ⟨i, ⟨h1, h2⟩, j, ⟨h3, h4⟩, rfl, rfl⟩

theorem pairwise_rectangle (a b c d : Int) :
    (rectangle a b c d).Pairwise (fun p q => p.1 < q.1 ∨ (p.1 = q.1 ∧ p.2 < q.2)) := by
  rw [rectangle, List.pairwise_flatMap]
  refine ⟨?_, ?_⟩
  · intro i _
    rw [List.pairwise_map]
    exact (pairwise_forRange _ _).imp (fun h => Or.inr ⟨rfl, h⟩)
  · refine (pairwise_forRange _ _).imp ?_
    intro x y hxy p hp q hq
    simp only [List.mem_map] at hp hq
    obtain ⟨_, _, rfl⟩ := hp
    obtain ⟨_, _, rfl⟩ := hq
    exact Or.inl hxy

theorem rectangle_eq_nil (a b c d : Int) (h : b < a ∨ d < c) : rectangle a b c d = [] := by
  unfold rectangle
  rcases h with h | h
  · rw [forRange_eq_nil a b h]
    rfl
  · rw [forRange_eq_nil c d h]
    simp

theorem length_forRange (a b : Int) : (forRange a b).length = (b - a + 1).toNat := by
  simp [forRange]

theorem length_rectangle (a b c d : Int) :
    (rectangle a b c d).length = (b - a + 1).toNat * (d - c + 1).toNat := by
  have h : (List.length ∘ fun (i : Int) => (forRange c d).map (fun j => (i, j))) =
      fun _ => (d - c + 1).toNat := by
    funext i
    simp [length_forRange]
  rw [rectangle, List.length_flatMap, h, List.map_const', List.sum_replicate, length_forRange]
  rfl

theorem coordinate_injective : Function.Injective coordinate := by
  intro p q h
  simp only [coordinate, Prod.mk.injEq, JSNumber.fin.injEq, Int.cast_inj] at h
  exact Prod.ext h.1 h.2

/-! ## Sequences of optional values -/

theorem allSome_eq_some {α : Type} (l : List (Option α)) (l' : List α)
    (h : allSome l = some l') : l = l'.map some := by
  induction l generalizing l' with
  | nil =>
    simp only [allSome, Option.some.injEq] at h
    subst h
    rfl
  | cons a rest ih =>
    cases a with
    | none => simp [allSome] at h
    | some a =>
      simp only [allSome, Option.map_eq_some'] at h
      obtain ⟨t, ht, rfl⟩ := h
      simp [ih t ht]

theorem allSome_map_some {α : Type} (l : List α) : allSome (l.map some) = some l := by
  induction l with
  | nil => rfl
  | cons a rest ih => simp [allSome, ih]

theorem allSome_length {α : Type} (l : List (Option α)) (l' : List α)
    (h : allSome l = some l') : l'.length = l.length := by
  rw [allSome_eq_some l l' h, List.length_map]

/-! ## Operands -/

theorem orZero_nan : orZero JSNumber.nan = JSNumber.zero := by
  simp [orZero, JSNumber.truthy]

theorem cellValueAt_outside (cells : Grid) (row col : Int)
    (h : row < 0 ∨ (cells.length : Int) ≤ row ∨ col < 0 ∨
      ∀ r, cells[row.toNat]? = some r → (r.length : Int) ≤ col) :
    cellValueAt cells (JSNumber.fin (row : ℚ)) (JSNumber.fin (col : ℚ)) = JSValue.undefined := by
  unfold cellValueAt
  simp only [JSNumber.arrayIndex, Rat.intCast_den, Rat.intCast_num, true_and]
  by_cases hr : 0 ≤ row
  · by_cases hc : 0 ≤ col
    · simp only [hr, hc, if_true]
      rcases h with h | h | h | h
      · omega
      · have : cells[row.toNat]? = none := by
          rw [List.getElem?_eq_none_iff]; omega
        simp [this]
      · omega
      · cases hrow : cells[row.toNat]? with
        | none => rfl
        | some r =>
          have := h r hrow
          have : r[col.toNat]? = none := by
            rw [List.getElem?_eq_none_iff]; omega
          simp [this]
    · simp [hr, hc]
  · simp [hr]

theorem cellValueAt_inside (cells : Grid) (i j : Nat) :
    cellValueAt cells (JSNumber.fin (i : ℚ)) (JSNumber.fin (j : ℚ)) =
      match cellAt cells i j with
      | some c => c.value
      | none => JSValue.undefined := by
  unfold cellValueAt cellAt
  have hi : JSNumber.arrayIndex (JSNumber.fin (i : ℚ)) = some i := by
    simp [JSNumber.arrayIndex]
  have hj : JSNumber.arrayIndex (JSNumber.fin (j : ℚ)) = some j := by
    simp [JSNumber.arrayIndex]
  rw [hi, hj]
  cases hrow : (cells[i]? : Option (List Cell)) with
  | none => simp [hrow]
  | some r =>
    cases hc : r[j]? with
    | none => simp [hrow, hc]
    | some c => simp [hrow, hc]

/-! ## The branches of the evaluator -/

/-- The result of `evaluateFormula` on a call of a known function with a
one-line argument, by the result of `parseCellRange` and the name of the
function. -/
theorem evaluateFormula_call (e : Engine) (cells : Grid) (name arg : JSString)
    (hname : name ∈ functionNames) (hline : ∀ c ∈ arg, isLineTerminator c = false) :
    evaluateFormula e ('=' :: (name ++ '(' :: (arg ++ [')']))) cells =
      match parseCellRange e arg with
      | none => none
      | some range =>
        if range = [] then some (JSValue.str "ERROR".toList)
        else if name = "SUM".toList then some (JSValue.num (sumValues (operands cells range)))
        else if name = "AVERAGE".toList then
          some (JSValue.num (averageValues (operands cells range)))
        else if name = "MAX".toList then (mathMax e (operands cells range)).map JSValue.num
        else if name = "MIN".toList then (mathMin e (operands cells range)).map JSValue.num
        else some (JSValue.num (countValues (operands cells range))) := by
  have hm := formulaMatch_call name arg hname hline
  unfold evaluateFormula
  simp only [ne_eq, not_true_eq_false, if_false, hm, List.length_eq_zero]
  cases parseCellRange e arg with
  | none => rfl
  | some range =>
    by_cases hr : range = []
    · simp [hr]
    · simp only [hr, if_false]
      simp only [functionNames, List.mem_cons, List.mem_singleton, List.not_mem_nil,
        or_false] at hname
      rcases hname with rfl | rfl | rfl | rfl | rfl <;> simp

/-- The result of `evaluateFormula` on a formula whose call the regular
expression captures, by the result of `parseCellRange` on the argument. -/
theorem evaluateFormula_match (e : Engine) (cells : Grid) (rest name arg : JSString)
    (hm : formulaMatch rest = some (name, arg)) :
    evaluateFormula e ('=' :: rest) cells =
      match parseCellRange e arg with
      | none => none
      | some range =>
        if range = [] then some (JSValue.str "ERROR".toList)
        else if name = "SUM".toList then some (JSValue.num (sumValues (operands cells range)))
        else if name = "AVERAGE".toList then
          some (JSValue.num (averageValues (operands cells range)))
        else if name = "MAX".toList then (mathMax e (operands cells range)).map JSValue.num
        else if name = "MIN".toList then (mathMin e (operands cells range)).map JSValue.num
        else if name = "COUNT".toList then
          some (JSValue.num (countValues (operands cells range)))
        else some (JSValue.str "ERROR".toList) := by
  unfold evaluateFormula
  simp only [ne_eq, not_true_eq_false, if_false, hm, List.length_eq_zero]

theorem orZero_isZero_iff (n : JSNumber) : (orZero n).isZero = !n.truthy := by
  unfold orZero
  cases n with
  | fin q =>
    by_cases hq : q = 0
    · simp [JSNumber.truthy, JSNumber.isZero, JSNumber.zero, hq]
    · simp [JSNumber.truthy, JSNumber.isZero, hq]
  | negZero => simp [JSNumber.truthy, JSNumber.isZero, JSNumber.zero]
  | posInf => simp [JSNumber.truthy, JSNumber.isZero]
  | negInf => simp [JSNumber.truthy, JSNumber.isZero]
  | nan => simp [JSNumber.truthy, JSNumber.isZero, JSNumber.zero]

/-- The count of the `COUNT` branch is the number of coordinates whose value
converts to a number other than the zeros and `NaN`. -/
theorem countValues_operands (cells : Grid) (range : List (JSNumber × JSNumber)) :
    countValues (operands cells range) =
      JSNumber.ofNat (range.countP
        (fun p => (toNumber (cellValueAt cells p.1 p.2)).truthy)) := by
  unfold countValues operands
  congr 1
  rw [List.filter_map, List.length_map, List.countP_eq_length_filter]
  congr 1
  apply List.filter_congr
  intro p _
  simp only [Function.comp, orZero_isZero_iff, Bool.not_not]

theorem evaluateFormula_plain (e : Engine) (raw : JSString) (cells : Grid)
    (h : raw.head? ≠ some '=') :
    evaluateFormula e raw cells = some (JSValue.str raw) := by
  cases raw with
  | nil => rfl
  | cons c rest =>
    have hc : c ≠ '=' := by simpa using h
    simp [evaluateFormula, hc]

/-! ## The recompute pass -/

theorem allSome_map_getElem? {α β : Type} (f : α → Option β) (l : List α) (l' : List β)
    (h : allSome (l.map f) = some l') (i : Nat) : (l'[i]?).map some = (l[i]?).map f := by
  have := allSome_eq_some _ _ h
  have h2 := congrArg (fun x => x[i]?) this
  simp only [List.getElem?_map] at h2
  exact h2.symm

theorem allSome_exists {α : Type} (l : List (Option α)) (h : ∀ a ∈ l, a.isSome = true) :
    ∃ l', allSome l = some l' := by
  induction l with
  | nil => exact ⟨[], rfl⟩
  | cons a rest ih =>
    obtain ⟨t, ht⟩ := ih (fun b hb => h b (by simp [hb]))
    have ha := h a (by simp)
    obtain ⟨x, rfl⟩ := Option.isSome_iff_exists.mp ha
    exact ⟨x :: t, by simp [allSome, ht]⟩

theorem allSome_mem_isSome {α : Type} (l : List (Option α)) (l' : List α)
    (h : allSome l = some l') : ∀ a ∈ l, a.isSome = true := by
  intro a ha
  rw [allSome_eq_some l l' h] at ha
  obtain ⟨x, _, rfl⟩ := List.mem_map.mp ha
  rfl

/-- The cell a returned pass leaves at a position: the cell before the pass
with the value that `evaluateFormula` returns for its raw text on the grid
before the pass. -/
theorem cellAt_recompute (e : Engine) (cells g : Grid) (h : recompute e cells = some g)
    (i j : Nat) :
    (cellAt g i j).map some = (cellAt cells i j).map (fun c =>
      (evaluateFormula e c.raw cells).map (fun v => { c with value := v })) := by
  unfold recompute at h
  have hrow := allSome_map_getElem? _ cells g h i
  unfold cellAt
  cases hg : g[i]? with
  | none =>
    rw [hg] at hrow
    cases hc : cells[i]? with
    | none => rfl
    | some r => rw [hc] at hrow; cases hrow
  | some r' =>
    rw [hg] at hrow
    cases hc : cells[i]? with
    | none => rw [hc] at hrow; cases hrow
    | some r =>
      rw [hc] at hrow
      simp only [Option.map_some', Option.some.injEq] at hrow
      have := allSome_map_getElem? _ r r' hrow.symm j
      simpa using this

theorem recompute_exists (e : Engine) (cells : Grid)
    (h : ∀ row ∈ cells, ∀ c ∈ row, (evaluateFormula e c.raw cells).isSome = true) :
    ∃ g, recompute e cells = some g := by
  unfold recompute
  apply allSome_exists
  intro a ha
  obtain ⟨row, hrow, rfl⟩ := List.mem_map.mp ha
  have : ∃ r', allSome (row.map (fun cell =>
      (evaluateFormula e cell.raw cells).map (fun v => { cell with value := v }))) = some r' := by
    apply allSome_exists
    intro b hb
    obtain ⟨c, hc, rfl⟩ := List.mem_map.mp hb
    have := h row hrow c hc
    obtain ⟨v, hv⟩ := Option.isSome_iff_exists.mp this
    simp [hv]
  obtain ⟨r', hr'⟩ := this
  rw [hr']
  rfl

theorem recompute_isSome_cells (e : Engine) (cells g : Grid) (h : recompute e cells = some g) :
    ∀ row ∈ cells, ∀ c ∈ row, (evaluateFormula e c.raw cells).isSome = true := by
  intro row hrow c hc
  unfold recompute at h
  have h1 := allSome_mem_isSome _ _ h _ (List.mem_map_of_mem _ hrow)
  obtain ⟨r', hr'⟩ := Option.isSome_iff_exists.mp h1
  have h2 := allSome_mem_isSome _ _ hr' _ (List.mem_map_of_mem _ hc)
  cases hv : evaluateFormula e c.raw cells with
  | none => simp [hv] at h2
  | some v => rfl

/-- After a recompute pass, a cell whose raw text does not start with `=`
has its raw text as value, whatever the type of its column. -/
theorem recompute_plain_value (e : Engine) (cells g : Grid) (h : recompute e cells = some g)
    (i j : Nat) (c : Cell)
    (hc : cellAt g i j = some c) (hplain : c.raw.head? ≠ some '=') :
    c.value = JSValue.str c.raw := by
  have := cellAt_recompute e cells g h i j
  rw [hc] at this
  cases hd : cellAt cells i j with
  | none => rw [hd] at this; cases this
  | some d =>
    rw [hd] at this
    simp only [Option.map_some', Option.some.injEq] at this
    cases hv : evaluateFormula e d.raw cells with
    | none => rw [hv] at this; cases this
    | some v =>
      rw [hv] at this
      simp only [Option.map_some', Option.some.injEq] at this
      subst this
      have hp := evaluateFormula_plain e d.raw cells hplain
      rw [hv] at hp
      simp only [Option.some.injEq] at hp
      exact hp

/-! ## Calls on concrete references -/

/-- The `SUM` branch: on a call `=SUM(<range>)` with a one-line argument that
parses to at least one coordinate, the result is the sum of the operands. -/
theorem sum_call_eq (e : Engine) (cells : Grid) (range : JSString)
    (coords : List (JSNumber × JSNumber))
    (hline : ∀ c ∈ range, isLineTerminator c = false)
    (hp : parseCellRange e range = some coords) (hne : coords ≠ []) :
    evaluateFormula e ("=SUM(".toList ++ range ++ ")".toList) cells =
      some (JSValue.num (sumValues (coords.map
        (fun p => orZero (toNumber (cellValueAt cells p.1 p.2)))))) := by
  have := evaluateFormula_call e cells "SUM".toList range (by simp [functionNames]) hline
  rw [hp] at this
  simp only [hne, if_false, if_true] at this
  exact this

/-- The coordinates of `A1:A2` on an engine whose arrays hold two elements. -/
theorem parseCellRange_A1A2 (e : Engine) (h : 2 ≤ e.maxArrayLength) :
    parseCellRange e "A1:A2".toList =
      some [(JSNumber.fin 0, JSNumber.fin 0), (JSNumber.fin 1, JSNumber.fin 0)] := by
  have := parseCellRange_int e "A1:A2".toList 'A' 'A' [] [] ['1'] ['2'] (by decide) (by decide)
    (by decide) (by decide) (by decide)
  have hr : rectangle ((parseDecimal ['1'] : Int) - 1) ((parseDecimal ['2'] : Int) - 1)
      (columnIndex 'A') (columnIndex 'A') = [(0, 0), (1, 0)] := by decide
  rw [hr] at this
  rw [this, if_pos (by simpa using h)]
  simp [coordinate]

/-- The coordinates of `ZZ1:ZZ2` on an engine whose arrays hold two
elements. -/
theorem parseCellRange_ZZ1ZZ2 (e : Engine) (h : 2 ≤ e.maxArrayLength) :
    parseCellRange e "ZZ1:ZZ2".toList =
      some [(JSNumber.fin 0, JSNumber.fin 25), (JSNumber.fin 1, JSNumber.fin 25)] := by
  have := parseCellRange_int e "ZZ1:ZZ2".toList 'Z' 'Z' ['Z'] ['Z'] ['1'] ['2'] (by decide)
    (by decide) (by decide) (by decide) (by decide)
  have hr : rectangle ((parseDecimal ['1'] : Int) - 1) ((parseDecimal ['2'] : Int) - 1)
      (columnIndex 'Z') (columnIndex 'Z') = [(0, 25), (1, 25)] := by decide
  rw [hr] at this
  rw [this, if_pos (by simpa using h)]
  simp [coordinate]

/-- The leftmost reference of a text that is a reference. -/
theorem rangeMatch_reference (l1 d1 l2 d2 : JSString)
    (hl1 : l1 ≠ [] ∧ ∀ c ∈ l1, isUpperAZ c = true)
    (hd1 : d1 ≠ [] ∧ ∀ c ∈ d1, isDigit09 c = true)
    (hl2 : l2 ≠ [] ∧ ∀ c ∈ l2, isUpperAZ c = true)
    (hd2 : d2 ≠ [] ∧ ∀ c ∈ d2, isDigit09 c = true) :
    rangeMatch (l1 ++ (d1 ++ ':' :: (l2 ++ d2))) = some (l1, d1, l2, d2) := by
  apply rangeMatch_of_here
  have := rangeMatchHere_shape l1 d1 l2 d2 [] hl1.1 hl1.2 hd1.1 hd1.2 hl2.1 hl2.2 hd2.1 hd2.2
    (by simp)
  simpa using this

/-- The function name the regular expression captures is one of the five
names of its alternation. -/
theorem formulaMatch_name (rest : JSString) :
    (formulaMatch rest).all (fun m => decide (m.1 ∈ functionNames)) = true := by
  cases h : formulaMatch rest with
  | none => rfl
  | some m =>
    obtain ⟨f, a⟩ := m
    obtain ⟨h1, _⟩ := formulaMatch_sound rest f a h
    simpa using h1

/-- A formula in which the regular expression finds no call of a known
function is returned unchanged. -/
theorem evaluateFormula_unmatched (e : Engine) (cells : Grid) (rest : JSString)
    (h : ¬ HasKnownCall rest) :
    evaluateFormula e ('=' :: rest) cells = some (JSValue.str ('=' :: rest)) := by
  have hm := (formulaMatch_eq_none_iff rest).mpr h
  simp [evaluateFormula, hm]

/-- A pass over a grid without formulas returns, and gives every cell its raw
text as value. -/
theorem recompute_plain (e : Engine) (cells : Grid)
    (h : ∀ row ∈ cells, ∀ c ∈ row, c.raw.head? ≠ some '=') :
    recompute e cells =
      some (cells.map (fun row => row.map (fun c => { c with value := JSValue.str c.raw }))) := by
  unfold recompute
  have hrow : ∀ row ∈ cells, allSome (row.map (fun cell =>
      (evaluateFormula e cell.raw cells).map (fun v => { cell with value := v }))) =
      some (row.map (fun c => { c with value := JSValue.str c.raw })) := by
    intro row hrow
    have : row.map (fun cell =>
        (evaluateFormula e cell.raw cells).map (fun v => { cell with value := v })) =
        (row.map (fun c => { c with value := JSValue.str c.raw })).map some := by
      rw [List.map_map]
      apply List.map_congr_left
      intro c hc
      simp [evaluateFormula_plain e c.raw cells (h row hrow c hc)]
    rw [this, allSome_map_some]
  have : cells.map (fun row => allSome (row.map (fun cell =>
      (evaluateFormula e cell.raw cells).map (fun v => { cell with value := v })))) =
      (cells.map (fun row => row.map (fun c =>
        { c with value := JSValue.str c.raw }))).map some := by
    rw [List.map_map]
    apply List.map_congr_left
    intro row hr
    simp [hrow row hr]
  rw [this, allSome_map_some]

/-- The `COUNT` branch: on a call `=COUNT(<range>)` with a one-line argument
that parses to at least one coordinate, the result is the number of
coordinates whose value converts to a number other than the zeros and `NaN`. -/
theorem count_call_eq (e : Engine) (cells : Grid) (range : JSString)
    (coords : List (JSNumber × JSNumber))
    (hline : ∀ c ∈ range, isLineTerminator c = false)
    (hp : parseCellRange e range = some coords) (hne : coords ≠ []) :
    evaluateFormula e ("=COUNT(".toList ++ range ++ ")".toList) cells =
      some (JSValue.num (JSNumber.fin ((coords.countP
        (fun p => (toNumber (cellValueAt cells p.1 p.2)).truthy) : Nat) : ℚ))) := by
  have := evaluateFormula_call e cells "COUNT".toList range (by simp [functionNames]) hline
  rw [hp] at this
  simp only [hne, if_false] at this
  rw [if_neg (by decide), if_neg (by decide), if_neg (by decide), if_neg (by decide),
    countValues_operands] at this
  have hlen := parseCellRange_length_le e range coords hp
  have hb := e.arrayBound
  have hc : coords.countP (fun p => (toNumber (cellValueAt cells p.1 p.2)).truthy) ≤
      coords.length := List.countP_le_length _
  rw [ofNat_eq _ (by omega)] at this
  exact this

theorem truthy_iff (n : JSNumber) :
    n.truthy = true ↔ n ≠ JSNumber.fin 0 ∧ n ≠ JSNumber.negZero ∧ n ≠ JSNumber.nan := by
  cases n with
  | fin q =>
    by_cases hq : q = 0
    · simp [JSNumber.truthy, hq]
    · simp [JSNumber.truthy, hq]
  | negZero => simp [JSNumber.truthy]
  | posInf => simp [JSNumber.truthy]
  | negInf => simp [JSNumber.truthy]
  | nan => simp [JSNumber.truthy]

/-- The coordinates of `A1:F1` on an engine whose arrays hold six elements. -/
theorem parseCellRange_A1F1 (e : Engine) (h : 6 ≤ e.maxArrayLength) :
    parseCellRange e "A1:F1".toList =
      some ([(0, 0), (0, 1), (0, 2), (0, 3), (0, 4), (0, 5)].map coordinate) := by
  have := parseCellRange_int e "A1:F1".toList 'A' 'F' [] [] ['1'] ['1'] (by decide) (by decide)
    (by decide) (by decide) (by decide)
  have hr : rectangle ((parseDecimal ['1'] : Int) - 1) ((parseDecimal ['1'] : Int) - 1)
      (columnIndex 'A') (columnIndex 'F') = [(0, 0), (0, 1), (0, 2), (0, 3), (0, 4), (0, 5)] := by
    decide
  rw [hr] at this
  rw [this, if_pos (by simpa using h)]

theorem not_lineTerminator_of_isUpperAZ {c : Char} (h : isUpperAZ c = true) :
    isLineTerminator c = false := by
  simp only [isUpperAZ, decide_eq_true_eq] at h
  simp only [isLineTerminator, decide_eq_false_iff_not]
  omega

theorem not_lineTerminator_of_isDigit09 {c : Char} (h : isDigit09 c = true) :
    isLineTerminator c = false := by
  simp only [isDigit09, decide_eq_true_eq] at h
  simp only [isLineTerminator, decide_eq_false_iff_not]
  omega

/-- The recompute pass also discards a normalised date: whenever the date
conversion maps the text `2020` to another text `d`, `handleChange` stores `d`
as the value of a cell of a `date` column and the pass replaces it by the raw
text `2020`. -/
theorem recompute_discards_normalised_date (e : Engine) (parseDate : JSString → Option JSString)
    (d : JSString) (hd : parseDate "2020".toList = some d) :
    (cellAt (handleChange parseDate [ColumnType.date] 0 0 "2020".toList [[initialCell]])
      0 0).map (fun c => c.value) = some (JSValue.str d) ∧
    (recompute e (handleChange parseDate [ColumnType.date] 0 0 "2020".toList
      [[initialCell]])).bind (fun g => (cellAt g 0 0).map (fun c => c.value)) =
        some (JSValue.str "2020".toList) := by
  have hv : validateCellValue parseDate "2020".toList [ColumnType.date][0]? =
      ValidationResult.valid (JSValue.str d) := by
    have ht : trim "2020".toList ≠ [] := by decide
    have h1 : ([ColumnType.date][0]? : Option ColumnType) = some ColumnType.date := rfl
    unfold validateCellValue
    rw [h1, if_neg (by decide), if_pos rfl, if_neg ht, hd]
  have hg : handleChange parseDate [ColumnType.date] 0 0 "2020".toList [[initialCell]] =
      [[{ initialCell with raw := "2020".toList, value := JSValue.str d, error := some [] }]] := by
    unfold handleChange
    simp only [hv]
    rfl
  constructor
  · rw [cellAt_handleChange, hv]
    rfl
  · have hplain : ∀ row ∈ handleChange parseDate [ColumnType.date] 0 0 "2020".toList
        [[initialCell]], ∀ c ∈ row, c.raw.head? ≠ some '=' := by
      rw [hg]
      intro row hrow c hc
      simp only [List.mem_singleton] at hrow
      subst hrow
      simp only [List.mem_singleton] at hc
      subst hc
      show "2020".toList.head? ≠ some '='
      decide
    rw [recompute_plain e _ hplain, hg]
    rfl

/-! ## The shape of the grid -/

theorem wellShaped_of_map_length (g g' : Grid) (h : g'.map List.length = g.map List.length)
    (hg : WellShaped g) : WellShaped g' := by
  obtain ⟨hne, n, hn, hall⟩ := hg
  refine ⟨?_, n, hn, ?_⟩
  · intro h0
    subst h0
    simp at h
    exact hne h
  · intro row' hrow'
    have : row'.length ∈ g'.map List.length := List.mem_map_of_mem _ hrow'
    rw [h] at this
    obtain ⟨row, hrow, hlen⟩ := List.mem_map.mp this
    rw [← hlen]
    exact hall row hrow

theorem map_length_handleFormat (sel : Option (Nat × Nat)) (change : FormatChange)
    (cells : Grid) :
    (handleFormat sel change cells).map List.length = cells.map List.length := by
  cases sel with
  | none => rfl
  | some p =>
    obtain ⟨row, col⟩ := p
    apply List.ext_getElem?
    intro i
    simp only [handleFormat, List.getElem?_map, List.getElem?_mapIdx]
    cases cells[i]? with
    | none => rfl
    | some r => simp

theorem map_length_handleColumnTypeChange (col : Nat) (type : ColumnType) (s : SheetState) :
    (handleColumnTypeChange col type s).cells.map List.length = s.cells.map List.length := by
  simp [handleColumnTypeChange, Function.comp]

/-- An update that maps every cell to a cell, or fails, keeps the length of
every row when it succeeds. -/
theorem map_length_of_allSome_mapIdx (f : Nat → Nat → Cell → Option Cell) (cells g : Grid)
    (h : allSome (cells.mapIdx (fun i r => allSome (r.mapIdx (fun j c => f i j c)))) = some g) :
    g.map List.length = cells.map List.length := by
  have h1 := allSome_eq_some _ _ h
  apply List.ext_getElem?
  intro i
  have h2 := congrArg (fun l => l[i]?) h1
  simp only [List.getElem?_mapIdx, List.getElem?_map] at h2 ⊢
  cases hc : cells[i]? with
  | none =>
    rw [hc] at h2
    cases hg : g[i]? with
    | none => rfl
    | some r' => rw [hg] at h2; simp at h2
  | some r =>
    rw [hc] at h2
    cases hg : g[i]? with
    | none => rw [hg] at h2; simp at h2
    | some r' =>
      rw [hg] at h2
      simp only [Option.map_some', Option.some.injEq] at h2
      have := allSome_length _ _ h2
      simp only [List.length_mapIdx] at this
      simp [this]

theorem map_length_of_allSome_map (f : Cell → Option Cell) (cells g : Grid)
    (h : allSome (cells.map (fun r => allSome (r.map f))) = some g) :
    g.map List.length = cells.map List.length := by
  have h1 := allSome_eq_some _ _ h
  apply List.ext_getElem?
  intro i
  have h2 := congrArg (fun l => l[i]?) h1
  simp only [List.getElem?_map] at h2 ⊢
  cases hc : cells[i]? with
  | none =>
    rw [hc] at h2
    cases hg : g[i]? with
    | none => rfl
    | some r' => rw [hg] at h2; simp at h2
  | some r =>
    rw [hc] at h2
    cases hg : g[i]? with
    | none => rw [hg] at h2; simp at h2
    | some r' =>
      rw [hg] at h2
      simp only [Option.map_some', Option.some.injEq] at h2
      have := allSome_length _ _ h2
      simp only [List.length_map] at this
      simp [this]

theorem map_length_recompute (e : Engine) (cells g : Grid) (h : recompute e cells = some g) :
    g.map List.length = cells.map List.length :=
  map_length_of_allSome_map _ cells g h

theorem map_length_handleStringMethod (f : JSString → JSString) (sel : Option (Nat × Nat))
    (cells g : Grid) (h : handleStringMethod f sel cells = some g) :
    g.map List.length = cells.map List.length := by
  cases sel with
  | none =>
    simp only [handleStringMethod, Option.some.injEq] at h
    rw [h]
  | some p =>
    obtain ⟨row, col⟩ := p
    exact map_length_of_allSome_mapIdx
      (fun i j c => if i = row ∧ j = col then applyStringMethod f c else some c) cells g h

theorem map_length_handleFindAndReplace
    (regExp : JSString → Option (JSString → JSString → JSString))
    (findText replaceText : JSString) (cells g : Grid)
    (h : handleFindAndReplace regExp findText replaceText cells = some g) :
    g.map List.length = cells.map List.length := by
  unfold handleFindAndReplace at h
  cases hr : regExp findText with
  | none => simp [hr] at h
  | some replace =>
    rw [hr] at h
    exact map_length_of_allSome_map _ cells g h

theorem wellShaped_handleAddRow (cells g : Grid) (hw : WellShaped cells)
    (h : handleAddRow cells = some g) : WellShaped g := by
  obtain ⟨hne, n, hn, hall⟩ := hw
  cases cells with
  | nil => exact absurd rfl hne
  | cons row0 rest =>
    simp only [handleAddRow, Option.some.injEq] at h
    subst h
    refine ⟨by simp, n, hn, ?_⟩
    intro row hrow
    rcases List.mem_append.mp hrow with hrow | hrow
    · exact hall row hrow
    · simp only [List.mem_singleton] at hrow
      subst hrow
      simp [hall row0 (by simp)]

theorem wellShaped_handleDeleteRow (cells : Grid) (hw : WellShaped cells) :
    WellShaped (handleDeleteRow cells) := by
  unfold handleDeleteRow
  split
  · rename_i hlen
    obtain ⟨_, n, hn, hall⟩ := hw
    refine ⟨?_, n, hn, fun row hrow => hall row (List.mem_of_mem_dropLast hrow)⟩
    intro h0
    have := congrArg List.length h0
    simp at this
    omega
  · exact hw

theorem wellShaped_handleAddColumn (s : SheetState) (hw : WellShaped s.cells) :
    WellShaped (handleAddColumn s).cells := by
  obtain ⟨hne, n, hn, hall⟩ := hw
  refine ⟨by simpa [handleAddColumn] using hne, n + 1, by omega, ?_⟩
  intro row hrow
  simp only [handleAddColumn, List.mem_map] at hrow
  obtain ⟨r, hr, rfl⟩ := hrow
  simp [hall r hr]

theorem wellShaped_handleDeleteColumn (s s' : SheetState) (hw : WellShaped s.cells)
    (h : handleDeleteColumn s = some s') : WellShaped s'.cells := by
  obtain ⟨hne, n, hn, hall⟩ := hw
  unfold handleDeleteColumn at h
  cases hc : s.cells with
  | nil => exact absurd hc hne
  | cons row0 rest =>
    rw [hc] at h
    simp only at h
    split at h
    · rename_i hgt
      simp only [Option.some.injEq] at h
      subst h
      have h0 : row0.length = n := hall row0 (by rw [hc]; simp)
      refine ⟨by simp, n - 1, by omega, ?_⟩
      intro row hrow
      simp only [List.mem_map] at hrow
      obtain ⟨r, hr, rfl⟩ := hrow
      rw [← hc] at hr
      simp [hall r hr]
    · simp only [Option.some.injEq] at h
      subst h
      exact ⟨hne, n, hn, hall⟩

theorem wellShaped_handleRemoveDuplicates (cells : Grid) (hw : WellShaped cells) :
    WellShaped (handleRemoveDuplicates cells) := by
  obtain ⟨hne, n, hn, hall⟩ := hw
  rw [handleRemoveDuplicates_eq]
  refine ⟨?_, n, hn, fun row hrow =>
    hall row ((firstOccurrences_sublist [] cells).subset hrow)⟩
  cases cells with
  | nil => exact absurd rfl hne
  | cons row0 rest => simp [firstOccurrences]

/-- Every operation that yields a state keeps the grid well shaped. -/
theorem wellShaped_applyOperation (b : Builtins) (op : Operation) (s s' : SheetState)
    (hw : WellShaped s.cells) (h : applyOperation b op s = some s') : WellShaped s'.cells := by
  cases op with
  | setCell row col text =>
    simp only [applyOperation, Option.some.injEq] at h
    subst h
    exact wellShaped_of_map_length _ _ (map_length_handleChange _ _ _ _ _ _) hw
  | setFormat sel change =>
    simp only [applyOperation, Option.some.injEq] at h
    subst h
    exact wellShaped_of_map_length _ _ (map_length_handleFormat _ _ _) hw
  | addRow =>
    simp only [applyOperation, Option.map_eq_some'] at h
    obtain ⟨g, hg, rfl⟩ := h
    exact wellShaped_handleAddRow _ _ hw hg
  | deleteRow =>
    simp only [applyOperation, Option.some.injEq] at h
    subst h
    exact wellShaped_handleDeleteRow _ hw
  | addColumn =>
    simp only [applyOperation, Option.some.injEq] at h
    subst h
    exact wellShaped_handleAddColumn _ hw
  | deleteColumn =>
    exact wellShaped_handleDeleteColumn s s' hw h
  | setColumnType col type =>
    simp only [applyOperation, Option.some.injEq] at h
    subst h
    exact wellShaped_of_map_length _ _ (map_length_handleColumnTypeChange _ _ _) hw
  | trim sel =>
    simp only [applyOperation, Option.map_eq_some'] at h
    obtain ⟨g, hg, rfl⟩ := h
    exact wellShaped_of_map_length _ _ (map_length_handleStringMethod _ _ _ _ hg) hw
  | upper sel =>
    simp only [applyOperation, Option.map_eq_some'] at h
    obtain ⟨g, hg, rfl⟩ := h
    exact wellShaped_of_map_length _ _ (map_length_handleStringMethod _ _ _ _ hg) hw
  | lower sel =>
    simp only [applyOperation, Option.map_eq_some'] at h
    obtain ⟨g, hg, rfl⟩ := h
    exact wellShaped_of_map_length _ _ (map_length_handleStringMethod _ _ _ _ hg) hw
  | removeDuplicateRows =>
    simp only [applyOperation, Option.some.injEq] at h
    subst h
    exact wellShaped_handleRemoveDuplicates _ hw
  | findAndReplace findText replaceText =>
    simp only [applyOperation, Option.map_eq_some'] at h
    obtain ⟨g, hg, rfl⟩ := h
    exact wellShaped_of_map_length _ _ (map_length_handleFindAndReplace _ _ _ _ _ hg) hw
  | recompute =>
    simp only [applyOperation, Option.map_eq_some'] at h
    obtain ⟨g, hg, rfl⟩ := h
    exact wellShaped_of_map_length _ _ (map_length_recompute _ _ _ hg) hw

theorem wellShaped_runOperations (b : Builtins) (ops : List Operation) (s s' : SheetState)
    (hw : WellShaped s.cells) (h : runOperations b ops s = some s') : WellShaped s'.cells := by
  induction ops generalizing s with
  | nil =>
    simp only [runOperations, Option.some.injEq] at h
    subst h
    exact hw
  | cons op rest ih =>
    simp only [runOperations, Option.bind_eq_some] at h
    obtain ⟨s1, h1, h2⟩ := h
    exact ih s1 (wellShaped_applyOperation b op s s1 hw h1) h2

theorem applyOperation_isSome (b : Builtins) (op : Operation) (s : SheetState)
    (hw : WellShaped s.cells) (hop : op.callsNoMethod = true) :
    ∃ s', applyOperation b op s = some s' := by
  obtain ⟨hne, _⟩ := hw
  cases op with
  | addRow =>
    cases hc : s.cells with
    | nil => exact absurd hc hne
    | cons row0 rest => simp [applyOperation, handleAddRow, hc]
  | deleteColumn =>
    cases hc : s.cells with
    | nil => exact absurd hc hne
    | cons row0 rest =>
      simp only [applyOperation, handleDeleteColumn, hc]
      split <;> simp
  | trim sel => simp [Operation.callsNoMethod] at hop
  | upper sel => simp [Operation.callsNoMethod] at hop
  | lower sel => simp [Operation.callsNoMethod] at hop
  | findAndReplace f r => simp [Operation.callsNoMethod] at hop
  | recompute => simp [Operation.callsNoMethod] at hop
  | _ => simp [applyOperation]

/-- The recompute pass yields a state whenever `evaluateFormula` returns for
the raw text of every cell. -/
theorem applyOperation_recompute_isSome (b : Builtins) (s : SheetState)
    (h : ∀ row ∈ s.cells, ∀ c ∈ row, (evaluateFormula b.engine c.raw s.cells).isSome = true) :
    ∃ s', applyOperation b Operation.recompute s = some s' := by
  obtain ⟨g, hg⟩ := recompute_exists b.engine s.cells h
  exact ⟨{ s with cells := g }, by simp [applyOperation, hg]⟩

theorem wellShaped_initialCells : WellShaped initialCells :=
  ⟨by decide, 10, by decide, by decide⟩

/-! ## Cells after an update -/

theorem cellAt_handleFormat (row col : Nat) (change : FormatChange) (cells : Grid) (i j : Nat) :
    cellAt (handleFormat (some (row, col)) change cells) i j =
      (cellAt cells i j).map (fun c => if i = row ∧ j = col then applyFormat c change else c) := by
  unfold cellAt handleFormat
  simp only [List.getElem?_mapIdx]
  cases cells[i]? with
  | none => rfl
  | some r => simp only [Option.map_some', Option.some_bind, List.getElem?_mapIdx]

theorem cellAt_handleColumnTypeChange (col : Nat) (type : ColumnType) (s : SheetState)
    (i j : Nat) :
    cellAt (handleColumnTypeChange col type s).cells i j =
      (cellAt s.cells i j).map (fun c => if j = col then { c with type := some type } else c) := by
  unfold cellAt handleColumnTypeChange
  simp only [List.getElem?_map]
  cases s.cells[i]? with
  | none => rfl
  | some r => simp only [Option.map_some', Option.some_bind, List.getElem?_mapIdx]

/-! ## The claims -/

/-- Claim C1. For every grid and every one-line range text that parses to a
non-empty coordinate list, `evaluateFormula("=SUM(<range>)", grid)` returns the
sum, over the parsed coordinates in order, of `Number(value) || 0` of the
target cell, in double arithmetic.  A coordinate outside the grid (a missing
row or cell) contributes `0`, and so does a value whose conversion is `NaN`;
nothing is raised.  The conversion reads a text as its numeric literal: `3`
is 3, ` 4 ` is 4, `0x10` is 16, `0o17` is 15, `0b101` is 5, `-25e-1` is -2.5,
`1.5E+2` is 150, the empty text is 0, `abc` is `NaN`, `1e400` is `Infinity`.  With `A1.value = 3` and `A2.value = 4`, as numbers or as the texts
typed into the cells, `=SUM(A1:A2)` is 7; with the texts `abc` and `4` it is 4;
with `0.1` and `0.2` it is the double 0.30000000000000004; with `1e400` and
`-1e400` it is `NaN`; and `=SUM(ZZ1:ZZ2)` on the initial 10 by 10 grid is 0. -/
theorem evaluateFormula_SUM (e : Engine) (cells : Grid) (range : JSString)
    (coords : List (JSNumber × JSNumber))
    (hline : ∀ c ∈ range, isLineTerminator c = false)
    (hp : parseCellRange e range = some coords) (hne : coords ≠ []) :
    evaluateFormula e ("=SUM(".toList ++ range ++ ")".toList) cells =
      some (JSValue.num (sumValues (coords.map
        (fun p => orZero (toNumber (cellValueAt cells p.1 p.2)))))) ∧
    (∀ row col : Int, (row < 0 ∨ (cells.length : Int) ≤ row ∨ col < 0 ∨
        ∀ r, cells[row.toNat]? = some r → (r.length : Int) ≤ col) →
      orZero (toNumber (cellValueAt cells (JSNumber.fin (row : ℚ)) (JSNumber.fin (col : ℚ)))) =
        JSNumber.zero) ∧
    (∀ row col : JSNumber, toNumber (cellValueAt cells row col) = JSNumber.nan →
      orZero (toNumber (cellValueAt cells row col)) = JSNumber.zero) ∧
    (toNumber (JSValue.str "3".toList) = JSNumber.fin 3 ∧
      toNumber (JSValue.str " 4 ".toList) = JSNumber.fin 4 ∧
      toNumber (JSValue.str "0x10".toList) = JSNumber.fin 16 ∧
      toNumber (JSValue.str "0o17".toList) = JSNumber.fin 15 ∧
      toNumber (JSValue.str "0b101".toList) = JSNumber.fin 5 ∧
      toNumber (JSValue.str "-25e-1".toList) = JSNumber.fin (-5 / 2) ∧
      toNumber (JSValue.str "1.5E+2".toList) = JSNumber.fin 150 ∧
      toNumber (JSValue.str []) = JSNumber.fin 0 ∧
      toNumber (JSValue.str "abc".toList) = JSNumber.nan ∧
      toNumber (JSValue.str "1e400".toList) = JSNumber.posInf ∧
      toNumber JSValue.undefined = JSNumber.nan) ∧
    (2 ≤ e.maxArrayLength →
      (toNumber (cellValueAt cells (JSNumber.fin 0) (JSNumber.fin 0)) = JSNumber.fin 3 →
        toNumber (cellValueAt cells (JSNumber.fin 1) (JSNumber.fin 0)) = JSNumber.fin 4 →
        evaluateFormula e "=SUM(A1:A2)".toList cells = some (JSValue.num (JSNumber.fin 7))) ∧
      evaluateFormula e "=SUM(A1:A2)".toList typedGrid = some (JSValue.num (JSNumber.fin 7)) ∧
      evaluateFormula e "=SUM(A1:A2)".toList mixedGrid = some (JSValue.num (JSNumber.fin 4)) ∧
      evaluateFormula e "=SUM(A1:A2)".toList tenthsGrid =
        some (JSValue.num (JSNumber.fin (1351079888211149 / 4503599627370496))) ∧
      evaluateFormula e "=SUM(A1:A2)".toList overflowGrid = some (JSValue.num JSNumber.nan) ∧
      evaluateFormula e "=SUM(ZZ1:ZZ2)".toList initialCells =
        some (JSValue.num (JSNumber.fin 0))) := by
  refine ⟨sum_call_eq e cells range coords hline hp hne, ?_, ?_, ?_, ?_⟩
  · intro row col h
    rw [cellValueAt_outside cells row col h]
    exact orZero_nan
  · intro row col h
    rw [h]
    exact orZero_nan
  · exact ⟨by decide!, by decide!, by decide!, by decide!, by decide!, by decide!, by decide!,
      by decide!, by decide!, by decide!, rfl⟩
  · intro hcap
    have hA : ∀ g : Grid, evaluateFormula e "=SUM(A1:A2)".toList g =
        some (JSValue.num (sumValues
          ([(JSNumber.fin 0, JSNumber.fin 0), (JSNumber.fin 1, JSNumber.fin 0)].map
            (fun p => orZero (toNumber (cellValueAt g p.1 p.2)))))) := fun g =>
      sum_call_eq e g "A1:A2".toList _ (by decide) (parseCellRange_A1A2 e hcap) (by simp)
    have hZ := sum_call_eq e initialCells "ZZ1:ZZ2".toList _ (by decide)
      (parseCellRange_ZZ1ZZ2 e hcap) (by simp)
    refine ⟨?_, ?_, ?_, ?_, ?_, ?_⟩
    · intro h3 h4
      rw [hA cells]
      simp only [List.map_cons, List.map_nil, h3, h4]
      decide!
    · rw [hA typedGrid]; decide!
    · rw [hA mixedGrid]; decide!
    · rw [hA tenthsGrid]; decide!
    · rw [hA overflowGrid]; decide!
    · exact hZ.trans (by decide!)

/-- The grid holding the texts `3` and `4` in `A1` and `A2` satisfies the
hypotheses of `evaluateFormula_SUM` for the range `A1:A2`, and the sum is 7. -/
theorem evaluateFormula_SUM_witness :
    (∀ c ∈ "A1:A2".toList, isLineTerminator c = false) ∧
    parseCellRange languageEngine "A1:A2".toList =
      some [(JSNumber.fin 0, JSNumber.fin 0), (JSNumber.fin 1, JSNumber.fin 0)] ∧
    evaluateFormula languageEngine "=SUM(A1:A2)".toList typedGrid =
      some (JSValue.num (JSNumber.fin 7)) :=
  ⟨by decide, by decide!,
    ((evaluateFormula_SUM languageEngine typedGrid "A1:A2".toList
      [(JSNumber.fin 0, JSNumber.fin 0), (JSNumber.fin 1, JSNumber.fin 0)]
      (by decide) (by decide!) (by decide)).1).trans (by decide!)⟩

/-- Claim C2, amended. For upper-case letters `c1`, `c2` and row numbers `r1`,
`r2` of at most `2 ^ 53`, `parseCellRange("<c1><r1>:<c2><r2>")` returns the
rectangle of the reference, unless it has more pairs than an array can hold,
in which case the function does not return.  The rectangle contains exactly
the pairs `(i, j)` with `r1 - 1 ≤ i ≤ r2 - 1` and `index(c1) ≤ j ≤ index(c2)`, is
strictly increasing in the row-major (lexicographic) order, and so lists each
pair once. -/
theorem parseCellRange_rectangle (e : Engine) (c1 c2 : Char) (r1 r2 : Nat)
    (hc1 : c1 ∈ alphabet) (hc2 : c2 ∈ alphabet)
    (hr1 : r1 ≤ 2 ^ 53) (hr2 : r2 ≤ 2 ^ 53) :
    parseCellRange e (c1 :: numeral r1 ++ ':' :: c2 :: numeral r2) =
      (if (rectangle ((r1 : Int) - 1) ((r2 : Int) - 1) (columnIndex c1)
          (columnIndex c2)).length ≤ e.maxArrayLength then
        some ((rectangle ((r1 : Int) - 1) ((r2 : Int) - 1) (columnIndex c1)
          (columnIndex c2)).map coordinate)
      else none) ∧
    (∀ i j : Int, (i, j) ∈ rectangle ((r1 : Int) - 1) ((r2 : Int) - 1) (columnIndex c1)
        (columnIndex c2) ↔
      ((r1 : Int) - 1 ≤ i ∧ i ≤ (r2 : Int) - 1 ∧ columnIndex c1 ≤ j ∧ j ≤ columnIndex c2)) ∧
    (rectangle ((r1 : Int) - 1) ((r2 : Int) - 1) (columnIndex c1) (columnIndex c2)).Pairwise
      (fun p q => p.1 < q.1 ∨ (p.1 = q.1 ∧ p.2 < q.2)) ∧
    (rectangle ((r1 : Int) - 1) ((r2 : Int) - 1) (columnIndex c1) (columnIndex c2)).Nodup ∧
    ((rectangle ((r1 : Int) - 1) ((r2 : Int) - 1) (columnIndex c1)
      (columnIndex c2)).map coordinate).Nodup := by
  obtain ⟨hn1, hd1, hv1⟩ := numeral_spec r1
  obtain ⟨hn2, hd2, hv2⟩ := numeral_spec r2
  have hm : rangeMatch (c1 :: numeral r1 ++ ':' :: c2 :: numeral r2) =
      some ([c1], numeral r1, [c2], numeral r2) := by
    have := rangeMatch_reference [c1] (numeral r1) [c2] (numeral r2)
      ⟨by simp, by simpa using (mem_alphabet_iff c1).mp hc1⟩ ⟨hn1, hd1⟩
      ⟨by simp, by simpa using (mem_alphabet_iff c2).mp hc2⟩ ⟨hn2, hd2⟩
    simpa using this
  have hp := parseCellRange_int e _ c1 c2 [] [] (numeral r1) (numeral r2) hm hc1 hc2
    (by rw [hv1]; exact hr1) (by rw [hv2]; exact hr2)
  rw [hv1, hv2] at hp
  have hpw := pairwise_rectangle ((r1 : Int) - 1) ((r2 : Int) - 1) (columnIndex c1)
    (columnIndex c2)
  have hnd : (rectangle ((r1 : Int) - 1) ((r2 : Int) - 1) (columnIndex c1)
      (columnIndex c2)).Nodup := by
    refine hpw.imp ?_
    intro p q h hpq
    subst hpq
    rcases h with h | ⟨_, h⟩ <;> exact lt_irrefl _ h
  exact ⟨hp, fun i j => mem_rectangle _ _ _ _ i j, hpw, hnd, hnd.map coordinate_injective⟩

/-- The reference `A1:B2` satisfies the hypotheses of
`parseCellRange_rectangle`; its coordinates are `(0,0), (0,1), (1,0), (1,1)`. -/
theorem parseCellRange_rectangle_witness :
    'A' ∈ alphabet ∧ 'B' ∈ alphabet ∧ 1 ≤ 2 ^ 53 ∧ 2 ≤ 2 ^ 53 ∧
    "A1:B2".toList = 'A' :: numeral 1 ++ ':' :: 'B' :: numeral 2 ∧
    parseCellRange languageEngine "A1:B2".toList =
      some [(JSNumber.fin 0, JSNumber.fin 0), (JSNumber.fin 0, JSNumber.fin 1),
        (JSNumber.fin 1, JSNumber.fin 0), (JSNumber.fin 1, JSNumber.fin 1)] :=
  ⟨by decide, by decide, by decide, by decide, by decide,
    ((parseCellRange_rectangle languageEngine 'A' 'B' 1 2 (by decide) (by decide) (by decide)
      (by decide)).1).trans (by decide!)⟩

/-- Claim C2 as stated is refuted. The row number 9007199254740993, which is
`2 ^ 53 + 1`, is not a double: `parseInt` yields `2 ^ 53`, so the reference
`A9007199254740993:A9007199254740993` gives the single row index
9007199254740991 and not the rectangle of the reference, whose row index is
9007199254740992.  With the row number 9007199254740994, `i++` leaves the
loop counter unchanged and the function does not return.  The reference
`A1:A4294967296` has more pairs than an array of the language can hold, so
the function does not return there either. -/
theorem parseCellRange_beyond_exact_rows :
    "A9007199254740993:A9007199254740993".toList =
      'A' :: numeral 9007199254740993 ++ ':' :: 'A' :: numeral 9007199254740993 ∧
    parseCellRange languageEngine "A9007199254740993:A9007199254740993".toList =
      some [(JSNumber.fin 9007199254740991, JSNumber.fin 0)] ∧
    (rectangle ((9007199254740993 : Nat) - 1 : Int) ((9007199254740993 : Nat) - 1 : Int)
      (columnIndex 'A') (columnIndex 'A')).map coordinate =
      [(JSNumber.fin 9007199254740992, JSNumber.fin 0)] ∧
    parseCellRange languageEngine "A9007199254740993:A9007199254740993".toList ≠
      some ((rectangle ((9007199254740993 : Nat) - 1 : Int) ((9007199254740993 : Nat) - 1 : Int)
        (columnIndex 'A') (columnIndex 'A')).map coordinate) ∧
    parseCellRange languageEngine "A9007199254740994:A9007199254740994".toList = none ∧
    parseCellRange languageEngine "A1:A4294967296".toList = none := by
  refine ⟨by decide, by decide!, by decide!, by decide!, by decide!, ?_⟩
  have := parseCellRange_int languageEngine "A1:A4294967296".toList 'A' 'A' [] []
    "1".toList "4294967296".toList (by decide) (by decide) (by decide) (by decide) (by decide)
  rw [this, if_neg]
  rw [length_rectangle]
  decide

/-- Claim C3, the code at a failing input. The remainder of `=FOO(A1:A2)`
contains no call of a known function, and `evaluateFormula` returns the text
itself, not `"ERROR"`, on every grid.  The branch `default: return "ERROR"` of
the `switch` cannot supply the error: the function name the regular
expression captures is always one of the five known names. -/
theorem evaluateFormula_unknown_function_passthrough (e : Engine) (cells : Grid) :
    ¬ HasKnownCall "FOO(A1:A2)".toList ∧
    evaluateFormula e "=FOO(A1:A2)".toList cells = some (JSValue.str "=FOO(A1:A2)".toList) ∧
    evaluateFormula e "=FOO(A1:A2)".toList cells ≠ some (JSValue.str "ERROR".toList) ∧
    ∀ rest : JSString,
      (formulaMatch rest).all (fun m => decide (m.1 ∈ functionNames)) = true := by
  have hk : ¬ HasKnownCall "FOO(A1:A2)".toList := (formulaMatch_eq_none_iff _).mp (by decide)
  have h := evaluateFormula_unmatched e cells "FOO(A1:A2)".toList hk
  refine ⟨hk, h, ?_, formulaMatch_name⟩
  rw [show "=FOO(A1:A2)".toList = '=' :: "FOO(A1:A2)".toList from rfl, h]
  decide

/-- Claim C4, the code at a failing input. On the initial grid with column
`A` of type `number`, `handleChange(0, 0, "3")` stores the validated value, the
number `3`, next to the raw text `3`; the recompute pass then returns and
replaces the value by the raw text, the string `3`. -/
theorem recompute_discards_validated_value (e : Engine) :
    validateCellValue (fun _ => none) "3".toList numberFirstColumnTypes[0]? =
      ValidationResult.valid (JSValue.num (JSNumber.fin 3)) ∧
    (cellAt (handleChange (fun _ => none) numberFirstColumnTypes 0 0 "3".toList initialCells)
      0 0).map (fun c => (c.raw, c.value)) =
        some ("3".toList, JSValue.num (JSNumber.fin 3)) ∧
    (recompute e
      (handleChange (fun _ => none) numberFirstColumnTypes 0 0 "3".toList initialCells)).bind
      (fun g => (cellAt g 0 0).map (fun c => (c.raw, c.value))) =
        some ("3".toList, JSValue.str "3".toList) := by
  refine ⟨by decide!, by decide!, ?_⟩
  rw [recompute_plain e _ (by decide!)]
  decide!

/-- Claim C5, amended. For every text `s` of the number grammar with the sign
`-` (an optional `-`, digits, an optional `.`, at least one final digit,
matching the whole text), `validateCellValue(s, "number")` is valid with value
`Number(s)`, the double nearest to the numeral: `-3.5` gives -3.5, `.5` gives
0.5, `007` gives 7, `9007199254740993` gives 9007199254740992 and a numeral of
401 digits gives `Infinity`.  For every text that is not white space only and
contains a character other than a digit, `-` or `.`, the result is the
message `ERROR: Must be a number`.  For a text that is empty or white space
only the result is the empty string. -/
theorem validateCellValue_number (parseDate : JSString → Option JSString) (s : JSString) :
    (MatchesNumberGrammar s →
      validateCellValue parseDate s (some ColumnType.number) =
        ValidationResult.valid (JSValue.num (stringToNumber s))) ∧
    ((∃ c ∈ s, isDigit09 c = false ∧ c ≠ '-' ∧ c ≠ '.') → trim s ≠ [] →
      validateCellValue parseDate s (some ColumnType.number) =
        ValidationResult.message "ERROR: Must be a number".toList) ∧
    (trim s = [] →
      validateCellValue parseDate s (some ColumnType.number) = ValidationResult.message []) ∧
    (stringToNumber "-3.5".toList = JSNumber.fin (-7 / 2) ∧
      stringToNumber ".5".toList = JSNumber.fin (1 / 2) ∧
      stringToNumber "007".toList = JSNumber.fin 7 ∧
      stringToNumber "9007199254740993".toList = JSNumber.fin 9007199254740992 ∧
      stringToNumber ('1' :: List.replicate 400 '0') = JSNumber.posInf) := by
  refine ⟨?_, ?_, ?_, ?_⟩
  · intro h
    have ht : trim s ≠ [] := by
      obtain ⟨sign, ip, dot, fp, _, _, _, hfp, hfpd, rfl⟩ := h
      obtain ⟨x, t, rfl⟩ := List.exists_cons_of_ne_nil hfp
      exact trim_ne_nil _ x (by simp) (not_whitespace_of_isDigit09 (hfpd x (by simp)))
    simp [validateCellValue, ht, numberRegexTest_of_grammar s h]
  · rintro ⟨c, hc, hd, hm, hdot⟩ ht
    have hf : numberRegexTest s = false := by
      cases hr : numberRegexTest s with
      | false => rfl
      | true =>
        rcases grammar_chars s (grammar_of_numberRegexTest s hr) c hc with h | h | h
        · rw [h] at hd; cases hd
        · exact absurd h hm
        · exact absurd h hdot
    simp [validateCellValue, ht, hf]
  · intro ht
    simp [validateCellValue, ht]
  · exact ⟨by decide!, by decide!, by decide!, by decide!, by decide!⟩

/-- The texts `-3.5`, `9007199254740993`, `12a`, `+3` and a single space
satisfy the hypotheses of the three parts of `validateCellValue_number`. -/
theorem validateCellValue_number_witness :
    validateCellValue (fun _ => none) "-3.5".toList (some ColumnType.number) =
      ValidationResult.valid (JSValue.num (JSNumber.fin (-7 / 2))) ∧
    validateCellValue (fun _ => none) "9007199254740993".toList (some ColumnType.number) =
      ValidationResult.valid (JSValue.num (JSNumber.fin 9007199254740992)) ∧
    validateCellValue (fun _ => none) "12a".toList (some ColumnType.number) =
      ValidationResult.message "ERROR: Must be a number".toList ∧
    validateCellValue (fun _ => none) "+3".toList (some ColumnType.number) =
      ValidationResult.message "ERROR: Must be a number".toList ∧
    validateCellValue (fun _ => none) " ".toList (some ColumnType.number) =
      ValidationResult.message [] :=
  ⟨((validateCellValue_number (fun _ => none) "-3.5".toList).1
      ((numberRegexTest_iff _).mp (by decide))).trans (by decide!),
    ((validateCellValue_number (fun _ => none) "9007199254740993".toList).1
      ((numberRegexTest_iff _).mp (by decide))).trans (by decide!),
    (validateCellValue_number (fun _ => none) "12a".toList).2.1
      ⟨'a', by decide, by decide, by decide, by decide⟩ (by decide),
    (validateCellValue_number (fun _ => none) "+3".toList).2.1
      ⟨'+', by decide, by decide, by decide, by decide⟩ (by decide),
    (validateCellValue_number (fun _ => none) " ".toList).2.2.1 (by decide)⟩

/-- Claim C5 as stated is refuted, in both halves. The text `+3` is an
optional sign followed by digits, yet the result is the error message and not
a valid number.  A single space contains a character that is neither a
digit, a sign nor a dot, yet the result is the empty string of an empty cell,
not the error message. -/
theorem number_validation_sign_and_space :
    (MatchesSignedNumberGrammar "+3".toList ∧
      validateCellValue (fun _ => none) "+3".toList (some ColumnType.number) =
        ValidationResult.message "ERROR: Must be a number".toList ∧
      validateCellValue (fun _ => none) "+3".toList (some ColumnType.number) ≠
        ValidationResult.valid (JSValue.num (stringToNumber "+3".toList))) ∧
    ((∃ c ∈ " ".toList, isDigit09 c = false ∧ c ≠ '-' ∧ c ≠ '+' ∧ c ≠ '.') ∧
      validateCellValue (fun _ => none) " ".toList (some ColumnType.number) =
        ValidationResult.message [] ∧
      validateCellValue (fun _ => none) " ".toList (some ColumnType.number) ≠
        ValidationResult.message "ERROR: Must be a number".toList) :=
  ⟨⟨⟨['+'], [], [], ['3'], by simp, by simp, by simp, by simp, by decide, by decide⟩,
      by decide, by decide!⟩,
    ⟨⟨' ', by decide, by decide, by decide, by decide, by decide⟩, by decide, by decide⟩⟩

/-- Claim C6, amended. For every text that contains no reference of the shape
`<letters><digits>:<letters><digits>` (upper-case letters, every group
non-empty), such as `garbage`, `parseCellRange` returns the empty sequence. -/
theorem parseCellRange_no_reference (e : Engine) (s : JSString) (h : ¬ HasRangeShape s) :
    parseCellRange e s = some [] := by
  unfold parseCellRange
  rw [(rangeMatch_eq_none_iff s).mpr h]

/-- The text `garbage` contains no reference, and parses to nothing. -/
theorem parseCellRange_no_reference_witness :
    ¬ HasRangeShape "garbage".toList ∧ parseCellRange languageEngine "garbage".toList = some [] :=
  ⟨(rangeMatch_eq_none_iff _).mp (by decide),
    parseCellRange_no_reference languageEngine _ ((rangeMatch_eq_none_iff _).mp (by decide))⟩

/-- Claim C6 as stated is refuted. A reference with text around it and a
reference with two-letter columns are not of the exact single-letter shape,
yet `parseCellRange` returns coordinates for both. -/
theorem parseCellRange_accepts_inexact_shapes :
    (¬ IsSingleLetterRange "xA1:B2y".toList ∧
      parseCellRange languageEngine "xA1:B2y".toList =
        some ([(0, 0), (0, 1), (1, 0), (1, 1)].map coordinate)) ∧
    (¬ IsSingleLetterRange "AA1:AB2".toList ∧
      parseCellRange languageEngine "AA1:AB2".toList =
        some ([(0, 0), (1, 0)].map coordinate)) := by
  refine ⟨⟨?_, by decide!⟩, ⟨?_, by decide!⟩⟩
  · rintro ⟨c1, d1, c2, d2, h1, _, _, _, _, _, heq⟩
    have hc : c1 = 'x' := by
      have := congrArg List.head? heq
      simpa using this.symm
    subst hc
    exact absurd h1 (by decide)
  · rintro ⟨c1, d1, c2, d2, _, hd1, hd1d, _, _, _, heq⟩
    cases d1 with
    | nil => exact hd1 rfl
    | cons a t =>
      have ha : a = 'A' := by
        simp [String.toList] at heq
        exact heq.2.1.symm
      subst ha
      exact absurd (hd1d 'A' (by simp)) (by decide)

/-- Claim C7. For every grid, `handleRemoveDuplicates` returns exactly the
rows whose sequence of raw texts differs from that of every earlier row.  The
result is a subsequence of the grid (survivors keep their order and are
unchanged), no two surviving rows have equal raw sequences, every survivor
stands in the grid after rows of other raw sequences only, and every raw
sequence of the grid is the raw sequence of a surviving row. -/
theorem handleRemoveDuplicates_first_occurrences (cells : Grid) :
    handleRemoveDuplicates cells = firstOccurrences [] cells ∧
    (handleRemoveDuplicates cells).Sublist cells ∧
    (handleRemoveDuplicates cells).Pairwise (fun a b => rowRaws a ≠ rowRaws b) ∧
    (∀ kept ∈ handleRemoveDuplicates cells, ∃ pre post, cells = pre ++ kept :: post ∧
      ∀ r ∈ pre, rowRaws r ≠ rowRaws kept) ∧
    (∀ row ∈ cells, ∃ kept ∈ handleRemoveDuplicates cells, rowRaws kept = rowRaws row) := by
  rw [handleRemoveDuplicates_eq]
  refine ⟨rfl, firstOccurrences_sublist _ _, firstOccurrences_pairwise _ _, ?_, ?_⟩
  · intro kept hkept
    obtain ⟨pre, post, h1, h2⟩ := firstOccurrences_first [] cells kept hkept
    exact ⟨pre, post, h1, fun r hr => h2 r (by simpa using hr)⟩
  · intro row hrow
    rcases firstOccurrences_cover [] cells row hrow with h | h
    · simp at h
    · exact h

/-- Claim C8. For every grid, applying `handleRemoveDuplicates` twice gives the
same grid as applying it once. -/
theorem handleRemoveDuplicates_idempotent (cells : Grid) :
    handleRemoveDuplicates (handleRemoveDuplicates cells) = handleRemoveDuplicates cells := by
  rw [handleRemoveDuplicates_eq (handleRemoveDuplicates cells), handleRemoveDuplicates_eq cells]
  exact firstOccurrences_of_pairwise [] _ (firstOccurrences_pairwise _ _) (by simp)

/-- Claim C9. `handleDeleteRow` on a grid of exactly one row returns the grid
unchanged; on a grid of more than one row it removes exactly the last row
(the old grid is the new one followed by one row).  `handleDeleteColumn` on a
grid whose rows all have exactly one cell returns the whole state unchanged,
without failing; on a grid whose rows all have `n > 1` cells it keeps the
number of rows, removes exactly the last cell of every row and the last
column type (each old row, and the old type sequence, is the new one followed
by one element). -/
theorem delete_guards (cells : Grid) (s : SheetState) :
    (cells.length = 1 → handleDeleteRow cells = cells) ∧
    (1 < cells.length → ∃ last, cells = handleDeleteRow cells ++ [last]) ∧
    (s.cells ≠ [] → (∀ row ∈ s.cells, row.length = 1) → handleDeleteColumn s = some s) ∧
    (∀ n, 1 < n → s.cells ≠ [] → (∀ row ∈ s.cells, row.length = n) →
      s.columnTypes ≠ [] →
      ∃ s', handleDeleteColumn s = some s' ∧
        s'.cells.length = s.cells.length ∧
        (∀ (i : Nat) (row : List Cell), s.cells[i]? = some row →
          ∃ (row' : List Cell) (last : Cell), s'.cells[i]? = some row' ∧ row = row' ++ [last]) ∧
        (∃ t, s.columnTypes = s'.columnTypes ++ [t])) := by
  refine ⟨?_, ?_, ?_, ?_⟩
  · intro h
    simp [handleDeleteRow, h]
  · intro h
    have hne : cells ≠ [] := by
      intro h0; subst h0; simp at h
    simp only [handleDeleteRow, h, if_true]
    exact dropLast_append_getLast cells hne
  · intro hne hall
    unfold handleDeleteColumn
    cases hc : s.cells with
    | nil => exact absurd hc hne
    | cons row0 rest =>
      have : row0.length = 1 := hall row0 (by rw [hc]; simp)
      simp [this]
  · intro n hn hne hall htne
    unfold handleDeleteColumn
    cases hc : s.cells with
    | nil => exact absurd hc hne
    | cons row0 rest =>
      have h0 : row0.length = n := hall row0 (by rw [hc]; simp)
      have hgt : row0.length > 1 := by omega
      simp only [hgt, if_true]
      refine ⟨_, rfl, by simp, ?_, ?_⟩
      · intro i row hrow
        have hmem : row ∈ s.cells := by
          rw [hc]; exact List.getElem?_mem hrow
        have hrne : row ≠ [] := by
          intro h0'
          have := hall row hmem
          rw [h0'] at this
          simp at this
          omega
        obtain ⟨last, hlast⟩ := dropLast_append_getLast row hrne
        refine ⟨row.dropLast, last, ?_, hlast⟩
        simp only [List.getElem?_map, hrow, Option.map_some']
      · exact dropLast_append_getLast _ htne

/-- The single-cell state and the initial state satisfy the hypotheses of the
four parts of `delete_guards`. -/
theorem delete_guards_witness :
    handleDeleteRow [[initialCell]] = [[initialCell]] ∧
    (∃ last, initialCells = handleDeleteRow initialCells ++ [last]) ∧
    handleDeleteColumn singleCellState = some singleCellState ∧
    (∃ s', handleDeleteColumn initialState = some s' ∧
      s'.cells.length = initialState.cells.length) :=
  ⟨(delete_guards [[initialCell]] singleCellState).1 (by decide),
    (delete_guards initialCells initialState).2.1 (by decide),
    (delete_guards [[initialCell]] singleCellState).2.2.1 (by decide) (by decide),
    ((delete_guards initialCells initialState).2.2.2 10 (by decide) (by decide) (by decide)
      (by decide)).imp (fun _ h => ⟨h.1, h.2.1⟩)⟩

/-- Claim C10. For every grid, every position `(row, col)` holding a cell `c`
and every text whose validation under the type of column `col` is a bare
message (the invalid case), `handleChange` leaves at `(row, col)` a cell with
`raw = ""`, `value = ""`, `error` equal to the message and the formatting
attributes of `c`; every other cell is unchanged, and so is the length of
every row. -/
theorem handleChange_invalid (parseDate : JSString → Option JSString)
    (columnTypes : List ColumnType) (cells : Grid) (row col : Nat) (text message : JSString)
    (c : Cell) (hin : cellAt cells row col = some c)
    (hinv : validateCellValue parseDate text columnTypes[col]? =
      ValidationResult.message message) :
    (∃ c', cellAt (handleChange parseDate columnTypes row col text cells) row col = some c' ∧
      c'.raw = [] ∧ c'.value = JSValue.str [] ∧ c'.error = some message ∧
      c'.bold = c.bold ∧ c'.italic = c.italic ∧ c'.fontSize = c.fontSize ∧
      c'.color = c.color ∧ c'.type = c.type) ∧
    (∀ i j, ¬ (i = row ∧ j = col) →
      cellAt (handleChange parseDate columnTypes row col text cells) i j = cellAt cells i j) ∧
    (handleChange parseDate columnTypes row col text cells).map List.length =
      cells.map List.length := by
  refine ⟨?_, ?_, map_length_handleChange _ _ _ _ _ _⟩
  · refine ⟨changedCell c text (ValidationResult.message message), ?_, ?_⟩
    · rw [cellAt_handleChange, hin, hinv]
      simp
    · simp [changedCell]
  · intro i j hij
    rw [cellAt_handleChange]
    cases cellAt cells i j with
    | none => rfl
    | some d => simp [hij]

/-- On the initial grid with a `number` column `A`, the text `abc` typed into
`A1` satisfies the hypotheses of `handleChange_invalid`. -/
theorem handleChange_invalid_witness :
    cellAt initialCells 0 0 = some initialCell ∧
    validateCellValue (fun _ => none) "abc".toList
      numberFirstColumnTypes[0]? =
        ValidationResult.message "ERROR: Must be a number".toList ∧
    ∃ c', cellAt (handleChange (fun _ => none)
        numberFirstColumnTypes 0 0 "abc".toList initialCells)
        0 0 = some c' ∧
      c'.raw = [] ∧ c'.value = JSValue.str [] ∧
      c'.error = some "ERROR: Must be a number".toList :=
  ⟨by decide, by decide,
    (handleChange_invalid (fun _ => none) numberFirstColumnTypes
      initialCells 0 0 "abc".toList "ERROR: Must be a number".toList initialCell
      (by decide) (by decide)).1.imp
      (fun _ h => ⟨h.1, h.2.1, h.2.2.1, h.2.2.2.1⟩)⟩

/-- Claim C11. For every grid and every one-line range text that parses to a
non-empty coordinate list, `evaluateFormula("=COUNT(<range>)", grid)` returns
the number of parsed coordinates whose cell value converts to a number other
than `0`, `-0` and `NaN`.  An empty value, a value whose conversion is `NaN`
(text), a value that converts to `0` and a coordinate outside the grid are not
counted.  The conversion reads a text as its numeric literal: the texts `5`
and `0x10` are counted, the texts `abc`, `0`, `-0`, the empty text and
`1e-400`, which is the double 0, are not.  With `A1.value = 0` and
`A2.value = 5` the formula `=COUNT(A1:A2)` is 1; on the row holding the texts
`5`, `1e-400`, `abc`, the empty text, `0` and `0x10` the formula `=COUNT(A1:F1)`
is 2. -/
theorem evaluateFormula_COUNT (e : Engine) (cells : Grid) (range : JSString)
    (coords : List (JSNumber × JSNumber))
    (hline : ∀ c ∈ range, isLineTerminator c = false)
    (hp : parseCellRange e range = some coords) (hne : coords ≠ []) :
    evaluateFormula e ("=COUNT(".toList ++ range ++ ")".toList) cells =
      some (JSValue.num (JSNumber.fin ((coords.countP
        (fun p => (toNumber (cellValueAt cells p.1 p.2)).truthy) : Nat) : ℚ))) ∧
    (∀ n : JSNumber, n.truthy = true ↔
      n ≠ JSNumber.fin 0 ∧ n ≠ JSNumber.negZero ∧ n ≠ JSNumber.nan) ∧
    (∀ row col : Int, (row < 0 ∨ (cells.length : Int) ≤ row ∨ col < 0 ∨
        ∀ r, cells[row.toNat]? = some r → (r.length : Int) ≤ col) →
      (toNumber (cellValueAt cells (JSNumber.fin (row : ℚ))
        (JSNumber.fin (col : ℚ)))).truthy = false) ∧
    ((toNumber (JSValue.str "5".toList)).truthy = true ∧
      (toNumber (JSValue.str "0x10".toList)).truthy = true ∧
      (toNumber (JSValue.str "abc".toList)).truthy = false ∧
      (toNumber (JSValue.str "0".toList)).truthy = false ∧
      (toNumber (JSValue.str "-0".toList)).truthy = false ∧
      (toNumber (JSValue.str [])).truthy = false ∧
      (toNumber (JSValue.str "1e-400".toList)).truthy = false ∧
      (toNumber JSValue.undefined).truthy = false) ∧
    (2 ≤ e.maxArrayLength →
      toNumber (cellValueAt cells (JSNumber.fin 0) (JSNumber.fin 0)) = JSNumber.fin 0 →
      toNumber (cellValueAt cells (JSNumber.fin 1) (JSNumber.fin 0)) = JSNumber.fin 5 →
      evaluateFormula e "=COUNT(A1:A2)".toList cells = some (JSValue.num (JSNumber.fin 1))) ∧
    (6 ≤ e.maxArrayLength →
      evaluateFormula e "=COUNT(A1:F1)".toList countGrid =
        some (JSValue.num (JSNumber.fin 2))) := by
  refine ⟨count_call_eq e cells range coords hline hp hne, truthy_iff, ?_, ?_, ?_, ?_⟩
  · intro row col h
    rw [cellValueAt_outside cells row col h]
    rfl
  · exact ⟨by decide!, by decide!, by decide!, by decide!, by decide!, by decide!, by decide!,
      rfl⟩
  · intro hcap h0 h5
    have := count_call_eq e cells "A1:A2".toList _ (by decide) (parseCellRange_A1A2 e hcap)
      (by simp)
    rw [show "=COUNT(A1:A2)".toList = "=COUNT(".toList ++ "A1:A2".toList ++ ")".toList from rfl,
      this]
    simp only [List.countP_cons, List.countP_nil, h0, h5]
    decide!
  · intro hcap
    have := count_call_eq e countGrid "A1:F1".toList _ (by decide) (parseCellRange_A1F1 e hcap)
      (by simp)
    rw [show "=COUNT(A1:F1)".toList = "=COUNT(".toList ++ "A1:F1".toList ++ ")".toList from rfl,
      this]
    decide!

/-- The row holding the texts `5`, `1e-400`, `abc`, the empty text, `0` and
`0x10` satisfies the hypotheses of `evaluateFormula_COUNT` for the range
`A1:F1`, and the count is 2; on the grid holding the numbers 0 and 5 the count
over `A1:A2` is 1. -/
theorem evaluateFormula_COUNT_witness :
    (∀ c ∈ "A1:F1".toList, isLineTerminator c = false) ∧
    parseCellRange languageEngine "A1:F1".toList =
      some ([(0, 0), (0, 1), (0, 2), (0, 3), (0, 4), (0, 5)].map coordinate) ∧
    evaluateFormula languageEngine "=COUNT(A1:F1)".toList countGrid =
      some (JSValue.num (JSNumber.fin 2)) ∧
    evaluateFormula languageEngine "=COUNT(A1:A2)".toList zeroFiveGrid =
      some (JSValue.num (JSNumber.fin 1)) :=
  ⟨by decide, by decide!,
    ((evaluateFormula_COUNT languageEngine countGrid "A1:F1".toList
      ([(0, 0), (0, 1), (0, 2), (0, 3), (0, 4), (0, 5)].map coordinate)
      (by decide) (by decide!) (by decide)).1).trans (by decide!),
    (evaluateFormula_COUNT languageEngine zeroFiveGrid "A1:A2".toList
      ([(0, 0), (1, 0)].map coordinate)
      (by decide) (by decide!) (by decide)).2.2.2.2.1 (by decide) (by decide!) (by decide!)⟩

/-- Claim C12, amended. For every grid `g` on which `evaluateFormula` returns
for the raw text of every cell, one recompute pass returns a grid with the
same number of rows and the same length of every row, in which the cell at
every position has the value `evaluateFormula(cell.raw, g)`, computed on the
grid `g` as it was before the pass, and the raw text, error and formatting
attributes of the cell before the pass. -/
theorem recompute_pass (e : Engine) (cells : Grid)
    (h : ∀ row ∈ cells, ∀ c ∈ row, (evaluateFormula e c.raw cells).isSome = true) :
    ∃ g, recompute e cells = some g ∧
      g.length = cells.length ∧
      g.map List.length = cells.map List.length ∧
      (∀ i j, cellAt cells i j = none → cellAt g i j = none) ∧
      (∀ i j c, cellAt cells i j = some c →
        ∃ c', cellAt g i j = some c' ∧
          some c'.value = evaluateFormula e c.raw cells ∧
          c'.raw = c.raw ∧ c'.error = c.error ∧ c'.bold = c.bold ∧ c'.italic = c.italic ∧
          c'.fontSize = c.fontSize ∧ c'.color = c.color ∧ c'.type = c.type) := by
  obtain ⟨g, hg⟩ := recompute_exists e cells h
  have hlen := map_length_recompute e cells g hg
  refine ⟨g, hg, ?_, hlen, ?_, ?_⟩
  · have := congrArg List.length hlen
    simpa using this
  · intro i j hc
    have := cellAt_recompute e cells g hg i j
    rw [hc] at this
    cases hgc : cellAt g i j with
    | none => rfl
    | some c' => rw [hgc] at this; cases this
  · intro i j c hc
    have := cellAt_recompute e cells g hg i j
    rw [hc] at this
    cases hgc : cellAt g i j with
    | none => rw [hgc] at this; cases this
    | some c' =>
      rw [hgc] at this
      simp only [Option.map_some', Option.some.injEq] at this
      cases hv : evaluateFormula e c.raw cells with
      | none => rw [hv] at this; cases this
      | some v =>
        rw [hv] at this
        simp only [Option.map_some', Option.some.injEq] at this
        subst this
        exact ⟨_, rfl, rfl, rfl, rfl, rfl, rfl, rfl, rfl, rfl⟩

/-- On the grid whose `A1` holds the raw text `7` with a stale empty value and
whose `B1` holds `=SUM(A1:A1)`, `evaluateFormula` returns for both cells, and
the pass gives `B1` the value 0: the sum reads the value `A1` had before the
pass, not the `7` written in the same pass. -/
theorem recompute_pass_witness :
    (∀ row ∈ staleGrid, ∀ c ∈ row,
      (evaluateFormula languageEngine c.raw staleGrid).isSome = true) ∧
    (recompute languageEngine staleGrid).bind (fun g =>
      (cellAt g 0 0).map (fun c => c.value)) = some (JSValue.str "7".toList) ∧
    (recompute languageEngine staleGrid).bind (fun g =>
      (cellAt g 0 1).map (fun c => c.value)) = some (JSValue.num (JSNumber.fin 0)) ∧
    ∃ g, recompute languageEngine staleGrid = some g ∧
      g.map List.length = staleGrid.map List.length :=
  ⟨by decide!, by decide!, by decide!,
    (recompute_pass languageEngine staleGrid (by decide!)).imp (fun _ h => ⟨h.1, h.2.2.1⟩)⟩

/-- Claim C12 as stated is refuted. On the grid whose only cell holds the raw
text `=SUM(A9007199254740994:A9007199254740994)`, the loop of
`parseCellRange` does not end, so `evaluateFormula` does not return and the
pass yields no grid.  On an engine that accepts at most 65536 arguments in a
call, the pass yields no grid either when a cell holds `=MAX(A1:A65537)`:
`Math.max(...values)` throws. -/
theorem stuck_formula_stops_pass :
    (evaluateFormula languageEngine "=SUM(A9007199254740994:A9007199254740994)".toList
      farRowGrid = none ∧
      recompute languageEngine farRowGrid = none) ∧
    (evaluateFormula hardLimitEngine "=MAX(A1:A65537)".toList longMaxGrid = none ∧
      recompute hardLimitEngine longMaxGrid = none) := by
  have hmax : evaluateFormula hardLimitEngine "=MAX(A1:A65537)".toList longMaxGrid = none := by
    have hp := parseCellRange_int hardLimitEngine "A1:A65537".toList 'A' 'A' [] []
      "1".toList "65537".toList (by decide) (by decide) (by decide) (by decide) (by decide)
    have hlen : (rectangle ((parseDecimal "1".toList : Int) - 1)
        ((parseDecimal "65537".toList : Int) - 1) (columnIndex 'A') (columnIndex 'A')).length =
        65537 := by
      rw [length_rectangle]
      decide
    rw [hlen, if_pos (by decide)] at hp
    have := evaluateFormula_call hardLimitEngine longMaxGrid "MAX".toList "A1:A65537".toList
      (by decide) (by decide)
    rw [hp] at this
    rw [show "=MAX(A1:A65537)".toList = '=' :: ("MAX".toList ++ '(' ::
      ("A1:A65537".toList ++ [')'])) from rfl, this]
    have hne : (rectangle ((parseDecimal "1".toList : Int) - 1)
        ((parseDecimal "65537".toList : Int) - 1) (columnIndex 'A') (columnIndex 'A')).map
        coordinate ≠ [] := by
      intro h
      have := congrArg List.length h
      rw [List.length_map, hlen] at this
      cases this
    simp only [hne, if_false]
    rw [if_neg (by decide), if_neg (by decide)]
    simp only [if_true, mathMax, operands, List.length_map, hlen]
    rfl
  refine ⟨⟨by decide!, by decide!⟩, hmax, ?_⟩
  cases h : recompute hardLimitEngine longMaxGrid with
  | none => rfl
  | some g =>
    have := recompute_isSome_cells hardLimitEngine longMaxGrid g h _ (List.mem_singleton.mpr rfl)
      _ (List.mem_singleton.mpr rfl)
    rw [show ({ initialCell with raw := "=MAX(A1:A65537)".toList } : Cell).raw =
      "=MAX(A1:A65537)".toList from rfl, hmax] at this
    cases this
/-- Claim C13. The initial 10 by 10 grid is well shaped: it has at least one
row, and all its rows have the same, positive number of cells.  Every
operation of the grid store (set cell, set format, add and delete row, add and
delete column, set column type, trim, upper, lower, remove duplicate rows,
find and replace, recompute), with any arguments and any selection, takes a
state with a well-shaped grid to a state with a well-shaped grid whenever its
handler returns.  The handlers that neither call a method on a cell value nor
evaluate a formula always return on such a state, and the recompute pass
returns whenever `evaluateFormula` returns for the raw text of every cell.
Hence every state reached from the initial state by a sequence of operations
has a well-shaped grid. -/
theorem operations_preserve_shape (b : Builtins) :
    WellShaped initialState.cells ∧
    (∀ (op : Operation) (s s' : SheetState), WellShaped s.cells →
      applyOperation b op s = some s' → WellShaped s'.cells) ∧
    (∀ (op : Operation) (s : SheetState), WellShaped s.cells → op.callsNoMethod = true →
      ∃ s', applyOperation b op s = some s') ∧
    (∀ s : SheetState,
      (∀ row ∈ s.cells, ∀ c ∈ row, (evaluateFormula b.engine c.raw s.cells).isSome = true) →
      ∃ s', applyOperation b Operation.recompute s = some s') ∧
    (∀ (ops : List Operation) (s' : SheetState),
      runOperations b ops initialState = some s' → WellShaped s'.cells) :=
  ⟨wellShaped_initialCells, wellShaped_applyOperation b, applyOperation_isSome b,
    applyOperation_recompute_isSome b,
    fun ops s' h => wellShaped_runOperations b ops initialState s' wellShaped_initialCells h⟩

/-- The example session runs to the end on the initial state, and the grid it
reaches is well shaped. -/
theorem operations_preserve_shape_witness :
    ∃ s', runOperations exampleBuiltins exampleSession initialState = some s' ∧
      WellShaped s'.cells := by
  have h : (runOperations exampleBuiltins exampleSession initialState).isSome = true := by
    decide!
  obtain ⟨s', hs'⟩ := Option.isSome_iff_exists.mp h
  exact ⟨s', hs', (operations_preserve_shape exampleBuiltins).2.2.2.2 exampleSession s' hs'⟩

/-- Claim C14, the code at a failing input. The row appended by `handleAddRow`
to the initial grid consists of cells without formatting attributes, and so
does the cell appended to every row by `handleAddColumn`; the cells of the
initial grid have `bold` false, `italic` false, `fontSize` `14px` and `color`
`black`. -/
theorem added_cells_lack_formatting :
    handleAddRow initialCells = some (initialCells ++ [List.replicate 10 addedRowCell]) ∧
    (handleAddColumn initialState).cells =
      initialCells.map (fun row => row ++ [addedColumnCell]) ∧
    (addedRowCell.bold, addedRowCell.italic, addedRowCell.fontSize, addedRowCell.color) =
      (none, none, none, none) ∧
    (addedColumnCell.bold, addedColumnCell.italic, addedColumnCell.fontSize,
      addedColumnCell.color) = (none, none, none, none) ∧
    (initialCell.bold, initialCell.italic, initialCell.fontSize, initialCell.color) =
      (some false, some false, some "14px".toList, some "black".toList) := by
  refine ⟨by decide, by decide, by decide, by decide, by decide⟩

/-- Claim C15, the code at a failing input. On the grid in which `B1` holds the
number 5 as the result of a formula, `handleFindAndReplace` fails for every
regular expression engine, every pattern and every replacement; on a grid
whose only cell has the value 0, it succeeds for a valid pattern and leaves
the empty string as the value of the cell. -/
theorem findAndReplace_fails_on_number
    (regExp : JSString → Option (JSString → JSString → JSString))
    (findText replaceText : JSString) :
    (cellAt formulaResultGrid 0 1).map (fun c => c.value) =
      some (JSValue.num (JSNumber.fin 5)) ∧
    handleFindAndReplace regExp findText replaceText formulaResultGrid = none ∧
    handleFindAndReplace regExp findText replaceText zeroGrid =
      (regExp findText).map (fun _ =>
        [[{ initialCell with value := JSValue.str [], raw := [] }]]) := by
  refine ⟨by with_unfolding_all decide, ?_, ?_⟩
  · unfold handleFindAndReplace
    cases regExp findText with
    | none => rfl
    | some replace => with_unfolding_all rfl
  · unfold handleFindAndReplace
    cases regExp findText with
    | none => rfl
    | some replace => with_unfolding_all rfl

/-- Claim C16. For every grid and every formula `=<rest>` on which the
regular expression of `evaluateFormula` captures the function `AVERAGE` with
an argument `arg`: if `parseCellRange` does not return on `arg`, neither does
`evaluateFormula`; if `arg` parses to no coordinates the result is `"ERROR"`
and the `AVERAGE` branch is not reached; otherwise the operand sequence is
non-empty, its length is a non-zero double, and the result is the sum of the
operands divided by their number, in double arithmetic.  On an empty operand
sequence the expression of the `AVERAGE` branch is `0`, a value.  The average
of 1, 0 and 0 is the double nearest to one third.  With the
texts `3` and `4` in `A1` and `A2` the formula `=AVERAGE(A1:A2)` is 3.5; with
`1e400` and `-1e400` it is `NaN`. -/
theorem evaluateFormula_AVERAGE (e : Engine) (cells : Grid) (rest arg : JSString)
    (hm : formulaMatch rest = some ("AVERAGE".toList, arg)) :
    (parseCellRange e arg = none → evaluateFormula e ('=' :: rest) cells = none) ∧
    (parseCellRange e arg = some [] →
      evaluateFormula e ('=' :: rest) cells = some (JSValue.str "ERROR".toList)) ∧
    (∀ coords, parseCellRange e arg = some coords → coords ≠ [] →
      operands cells coords ≠ [] ∧
      JSNumber.ofNat (operands cells coords).length =
        JSNumber.fin ((operands cells coords).length : ℚ) ∧
      ((operands cells coords).length : ℚ) ≠ 0 ∧
      evaluateFormula e ('=' :: rest) cells =
        some (JSValue.num (averageValues (operands cells coords))) ∧
      averageValues (operands cells coords) =
        (sumValues (operands cells coords)).div
          (JSNumber.fin ((operands cells coords).length : ℚ))) ∧
    averageValues [] = JSNumber.zero ∧
    averageValues [JSNumber.fin 1, JSNumber.fin 0, JSNumber.fin 0] =
      JSNumber.fin (6004799503160661 / 18014398509481984) ∧
    (2 ≤ e.maxArrayLength →
      evaluateFormula e "=AVERAGE(A1:A2)".toList typedGrid =
        some (JSValue.num (JSNumber.fin (7 / 2))) ∧
      evaluateFormula e "=AVERAGE(A1:A2)".toList overflowGrid =
        some (JSValue.num JSNumber.nan)) := by
  have hcall := evaluateFormula_match e cells rest "AVERAGE".toList arg hm
  have hgen : ∀ (g : Grid) (coords : List (JSNumber × JSNumber)),
      coords.length ≤ e.maxArrayLength → coords ≠ [] →
      operands g coords ≠ [] ∧
      JSNumber.ofNat (operands g coords).length =
        JSNumber.fin ((operands g coords).length : ℚ) ∧
      ((operands g coords).length : ℚ) ≠ 0 ∧
      averageValues (operands g coords) =
        (sumValues (operands g coords)).div
          (JSNumber.fin ((operands g coords).length : ℚ)) := by
    intro g coords hcap hne
    have hops : operands g coords ≠ [] := by
      simpa [operands] using hne
    have hlen : (operands g coords).length ≠ 0 := by
      simpa [List.length_eq_zero] using hops
    have hb := e.arrayBound
    have hl : (operands g coords).length = coords.length := by simp [operands]
    have hof : JSNumber.ofNat (operands g coords).length =
        JSNumber.fin ((operands g coords).length : ℚ) := ofNat_eq _ (by omega)
    refine ⟨hops, hof, by exact_mod_cast hlen, ?_⟩
    unfold averageValues
    rw [if_pos hlen, hof]
  refine ⟨?_, ?_, ?_, rfl, by decide!, ?_⟩
  · intro h
    rw [hcall, h]
  · intro h
    rw [hcall, h]
    rfl
  · intro coords hp hne
    obtain ⟨h1, h2, h3, h4⟩ := hgen cells coords (parseCellRange_length_le e arg coords hp) hne
    refine ⟨h1, h2, h3, ?_, h4⟩
    rw [hcall, hp]
    simp only [hne, if_false]
    rw [if_neg (by decide)]
    simp
  · intro hcap
    have hA : ∀ g : Grid, evaluateFormula e "=AVERAGE(A1:A2)".toList g =
        some (JSValue.num (averageValues (operands g
          [(JSNumber.fin 0, JSNumber.fin 0), (JSNumber.fin 1, JSNumber.fin 0)]))) := by
      intro g
      have := evaluateFormula_call e g "AVERAGE".toList "A1:A2".toList (by decide) (by decide)
      rw [parseCellRange_A1A2 e hcap] at this
      rw [show "=AVERAGE(A1:A2)".toList = '=' :: ("AVERAGE".toList ++ '(' ::
        ("A1:A2".toList ++ [')'])) from rfl, this]
      rfl
    exact ⟨by rw [hA typedGrid]; decide!, by rw [hA overflowGrid]; decide!⟩

/-- The formula `=AVERAGE(A1:A2)` on the grid holding the texts `3` and `4`
reaches the `AVERAGE` branch, and the result is 7/2. -/
theorem evaluateFormula_AVERAGE_witness :
    formulaMatch "AVERAGE(A1:A2)".toList = some ("AVERAGE".toList, "A1:A2".toList) ∧
    parseCellRange languageEngine "A1:A2".toList = some ([(0, 0), (1, 0)].map coordinate) ∧
    evaluateFormula languageEngine "=AVERAGE(A1:A2)".toList typedGrid =
      some (JSValue.num (averageValues (operands typedGrid ([(0, 0), (1, 0)].map coordinate)))) ∧
    averageValues (operands typedGrid ([(0, 0), (1, 0)].map coordinate)) =
      JSNumber.fin (7 / 2) :=
  ⟨by decide, by decide!,
    ((evaluateFormula_AVERAGE languageEngine typedGrid "AVERAGE(A1:A2)".toList "A1:A2".toList
      (by decide)).2.2.1 _ (by decide!) (by decide)).2.2.2.1,
    by decide!⟩

/-- Claim C17. For every grid, every selected position `(row, col)` holding a
cell `c` and every formatting change, `handleFormat` leaves at `(row, col)` a
cell that has the new value of the changed attribute and otherwise the raw
text, value, error, type and formatting attributes of `c`; every other cell
and the length of every row are unchanged.  Without a selection the grid is
unchanged. -/
theorem handleFormat_frame (cells : Grid) (row col : Nat) (change : FormatChange) :
    (∀ c, cellAt cells row col = some c →
      ∃ c', cellAt (handleFormat (some (row, col)) change cells) row col = some c' ∧
        c'.raw = c.raw ∧ c'.value = c.value ∧ c'.error = c.error ∧ c'.type = c.type ∧
        c'.bold = (match change with | FormatChange.bold v => some v | _ => c.bold) ∧
        c'.italic = (match change with | FormatChange.italic v => some v | _ => c.italic) ∧
        c'.fontSize =
          (match change with | FormatChange.fontSize v => some v | _ => c.fontSize) ∧
        c'.color = (match change with | FormatChange.color v => some v | _ => c.color)) ∧
    (∀ i j, ¬ (i = row ∧ j = col) →
      cellAt (handleFormat (some (row, col)) change cells) i j = cellAt cells i j) ∧
    (handleFormat (some (row, col)) change cells).map List.length = cells.map List.length ∧
    handleFormat none change cells = cells := by
  refine ⟨?_, ?_, map_length_handleFormat _ _ _, rfl⟩
  · intro c hc
    refine ⟨applyFormat c change, ?_, ?_⟩
    · rw [cellAt_handleFormat, hc]
      simp
    · cases change <;> simp [applyFormat]
  · intro i j hij
    rw [cellAt_handleFormat]
    cases cellAt cells i j with
    | none => rfl
    | some d => simp [hij]

/-- Setting `bold` on `A1` of the initial grid satisfies the hypothesis of
`handleFormat_frame`. -/
theorem handleFormat_frame_witness :
    cellAt initialCells 0 0 = some initialCell ∧
    ∃ c', cellAt (handleFormat (some (0, 0)) (FormatChange.bold true) initialCells) 0 0 =
        some c' ∧
      c'.raw = initialCell.raw ∧ c'.value = initialCell.value ∧ c'.bold = some true ∧
      c'.italic = initialCell.italic :=
  ⟨by decide,
    ((handleFormat_frame initialCells 0 0 (FormatChange.bold true)).1 initialCell
      (by decide)).imp (fun _ h => ⟨h.1, h.2.1, h.2.2.1, h.2.2.2.2.2.1, h.2.2.2.2.2.2.1⟩)⟩

/-- Claim C18. For every state, every column `col` within the column-type
sequence and every type, `handleColumnTypeChange` sets entry `col` of the
sequence to the type, keeps its length and every other entry, and leaves the
raw text, value, error and formatting attributes of every cell, and the
length of every row, unchanged. -/
theorem handleColumnTypeChange_frame (s : SheetState) (col : Nat) (type : ColumnType)
    (hcol : col < s.columnTypes.length) :
    (handleColumnTypeChange col type s).columnTypes.length = s.columnTypes.length ∧
    (handleColumnTypeChange col type s).columnTypes[col]? = some type ∧
    (∀ k, k ≠ col →
      (handleColumnTypeChange col type s).columnTypes[k]? = s.columnTypes[k]?) ∧
    (handleColumnTypeChange col type s).cells.map List.length = s.cells.map List.length ∧
    (∀ i j, cellAt s.cells i j = none →
      cellAt (handleColumnTypeChange col type s).cells i j = none) ∧
    (∀ i j c, cellAt s.cells i j = some c →
      ∃ c', cellAt (handleColumnTypeChange col type s).cells i j = some c' ∧
        c'.raw = c.raw ∧ c'.value = c.value ∧ c'.error = c.error ∧ c'.bold = c.bold ∧
        c'.italic = c.italic ∧ c'.fontSize = c.fontSize ∧ c'.color = c.color) := by
  have hset : (handleColumnTypeChange col type s).columnTypes = s.columnTypes.set col type := by
    simp [handleColumnTypeChange, setColumnType, hcol]
  refine ⟨?_, ?_, ?_, map_length_handleColumnTypeChange _ _ _, ?_, ?_⟩
  · rw [hset, List.length_set]
  · rw [hset, List.getElem?_set_self hcol]
  · intro k hk
    rw [hset, List.getElem?_set_ne (Ne.symm hk)]
  · intro i j h
    rw [cellAt_handleColumnTypeChange, h]
    rfl
  · intro i j c h
    rw [cellAt_handleColumnTypeChange, h]
    by_cases hj : j = col
    · exact ⟨{ c with type := some type }, by simp [hj], rfl, rfl, rfl, rfl, rfl, rfl, rfl⟩
    · exact ⟨c, by simp [hj], rfl, rfl, rfl, rfl, rfl, rfl, rfl⟩

/-- Setting column `A` of the initial state to `number` satisfies the
hypotheses of `handleColumnTypeChange_frame`. -/
theorem handleColumnTypeChange_frame_witness :
    0 < initialState.columnTypes.length ∧
    (handleColumnTypeChange 0 ColumnType.number initialState).columnTypes[0]? =
      some ColumnType.number ∧
    (handleColumnTypeChange 0 ColumnType.number initialState).columnTypes.length =
      initialState.columnTypes.length :=
  ⟨by decide,
    (handleColumnTypeChange_frame initialState 0 ColumnType.number (by decide)).2.1,
    (handleColumnTypeChange_frame initialState 0 ColumnType.number (by decide)).1⟩

/-- Claim C19, amended. For every reference `<letters><r1>:<letters><r2>` with
row numbers of at most `2 ^ 53` whose end row number is smaller than its start
row number, or whose end column name starts with a letter that comes before
the first letter of its start column name (for columns of one letter: whose
end column is left of its start column), `parseCellRange` returns the empty
sequence, and `evaluateFormula("=F(<reference>)", grid)` returns `"ERROR"` for
each of the five known functions `F` and every grid. -/
theorem reversed_range_is_error (e : Engine) (cells : Grid) (c1 c2 : Char) (t1 t2 : JSString)
    (r1 r2 : Nat)
    (hl1 : ∀ c ∈ c1 :: t1, c ∈ alphabet) (hl2 : ∀ c ∈ c2 :: t2, c ∈ alphabet)
    (hr1 : r1 ≤ 2 ^ 53) (hr2 : r2 ≤ 2 ^ 53)
    (hrev : r2 < r1 ∨ columnIndex c2 < columnIndex c1) :
    parseCellRange e ((c1 :: t1) ++ (numeral r1 ++ ':' :: ((c2 :: t2) ++ numeral r2))) =
      some [] ∧
    ∀ name ∈ functionNames,
      evaluateFormula e ('=' :: (name ++ '(' ::
        (((c1 :: t1) ++ (numeral r1 ++ ':' :: ((c2 :: t2) ++ numeral r2))) ++ [')']))) cells =
        some (JSValue.str "ERROR".toList) := by
  obtain ⟨hn1, hd1, hv1⟩ := numeral_spec r1
  obtain ⟨hn2, hd2, hv2⟩ := numeral_spec r2
  have hu1 : ∀ c ∈ c1 :: t1, isUpperAZ c = true := fun c hc => (mem_alphabet_iff c).mp (hl1 c hc)
  have hu2 : ∀ c ∈ c2 :: t2, isUpperAZ c = true := fun c hc => (mem_alphabet_iff c).mp (hl2 c hc)
  have hm := rangeMatch_reference (c1 :: t1) (numeral r1) (c2 :: t2) (numeral r2)
    ⟨by simp, hu1⟩ ⟨hn1, hd1⟩ ⟨by simp, hu2⟩ ⟨hn2, hd2⟩
  have hp := parseCellRange_int e _ c1 c2 t1 t2 (numeral r1) (numeral r2) hm
    (hl1 c1 (by simp)) (hl2 c2 (by simp)) (by rw [hv1]; exact hr1) (by rw [hv2]; exact hr2)
  rw [hv1, hv2, rectangle_eq_nil _ _ _ _ (by omega)] at hp
  simp only [List.length_nil, Nat.zero_le, if_true, List.map_nil] at hp
  refine ⟨hp, ?_⟩
  intro name hname
  have hline : ∀ c ∈ (c1 :: t1) ++ (numeral r1 ++ ':' :: ((c2 :: t2) ++ numeral r2)),
      isLineTerminator c = false := by
    intro c hc
    simp only [List.mem_append, List.mem_cons] at hc
    rcases hc with hc | hc | hc | hc | hc
    · exact not_lineTerminator_of_isUpperAZ (hu1 c (by simpa using hc))
    · exact not_lineTerminator_of_isDigit09 (hd1 c hc)
    · subst hc; decide
    · exact not_lineTerminator_of_isUpperAZ (hu2 c (by simpa using hc))
    · exact not_lineTerminator_of_isDigit09 (hd2 c hc)
  rw [evaluateFormula_call e cells name _ hname hline, hp]
  rfl

/-- The reference `B2:A1` satisfies the hypotheses of
`reversed_range_is_error`, by its rows and by its columns. -/
theorem reversed_range_is_error_witness :
    "B2:A1".toList = ('B' :: []) ++ (numeral 2 ++ ':' :: (('A' :: []) ++ numeral 1)) ∧
    parseCellRange languageEngine "B2:A1".toList = some [] ∧
    evaluateFormula languageEngine "=SUM(B2:A1)".toList initialCells =
      some (JSValue.str "ERROR".toList) ∧
    evaluateFormula languageEngine "=COUNT(B2:A1)".toList initialCells =
      some (JSValue.str "ERROR".toList) :=
  ⟨by decide,
    (reversed_range_is_error languageEngine initialCells 'B' 'A' [] [] 2 1 (by decide)
      (by decide) (by decide) (by decide) (Or.inl (by decide))).1,
    (reversed_range_is_error languageEngine initialCells 'B' 'A' [] [] 2 1 (by decide)
      (by decide) (by decide) (by decide) (Or.inr (by decide))).2
      "SUM".toList (by decide),
    (reversed_range_is_error languageEngine initialCells 'B' 'A' [] [] 2 1 (by decide)
      (by decide) (by decide) (by decide) (Or.inl (by decide))).2
      "COUNT".toList (by decide)⟩

/-- Claim C19 as stated is refuted. In `AB1:AA1` the end column `AA`, number
27, is left of the start column `AB`, number 28, yet `parseCellRange` reads
the first letters only and returns the cell `A1`, and `=SUM(AB1:AA1)` is 0 on
the initial grid.  In `A9007199254740993:A9007199254740992` the end row is
above the start row, yet `parseInt` rounds both row numbers to `2 ^ 53`, the
loop runs once, and `=SUM` of the reference is 0. -/
theorem reversed_range_evaluated :
    (columnNumber "AA".toList < columnNumber "AB".toList ∧
      parseCellRange languageEngine "AB1:AA1".toList = some ([(0, 0)].map coordinate) ∧
      evaluateFormula languageEngine "=SUM(AB1:AA1)".toList initialCells =
        some (JSValue.num (JSNumber.fin 0))) ∧
    ((9007199254740992 : Nat) < 9007199254740993 ∧
      "A9007199254740993:A9007199254740992".toList =
        'A' :: numeral 9007199254740993 ++ ':' :: 'A' :: numeral 9007199254740992 ∧
      parseCellRange languageEngine "A9007199254740993:A9007199254740992".toList =
        some ([(9007199254740991, 0)].map coordinate) ∧
      evaluateFormula languageEngine "=SUM(A9007199254740993:A9007199254740992)".toList
        initialCells = some (JSValue.num (JSNumber.fin 0))) :=
  ⟨⟨by decide, by decide!, by decide!⟩, ⟨by decide, by decide, by decide!, by decide!⟩⟩

end Spreadsheet
